import Mathlib

/-!
Structural support of battle map parts.

A shallow embedding of `game/state/battle/battlemappart.cpp`: the support
resolver `BattleMapPart::findSupport`, the collapse propagator
`BattleMapPart::attemptReLinkSupports` and the small operations they call.

Conventions of the embedding.

* A `BattleMapPart*` is the index of the part in `Battle.map_parts`; comparing
  two pointers is comparing two indices, and a `std::set<BattleMapPart*>` is a
  strictly increasing list of indices (the set iterates in key order).
* A tile holds its `ownedObjects` as a list, in iteration order.  Only the tile
  objects of map parts are listed: every loop of the file skips the objects
  whose type is not Ground, Feature, LeftWall or RightWall.
* Code that dereferences `tileObject` returns `Fault.nullTileObject` when the
  part has no tile object.
* The erase of the purge of `findSupport` is written on the list of the calling
  part with an iterator of the list of another part.  `findSupport` takes it as
  the list implementations run it (the entry leaves the list it is in);
  `findSupportChecked` takes it by the letter, and returns
  `Fault.foreignIterator` where the language leaves the call undefined.  Where
  the second is defined the two agree (`findSupport_of_checked`).
* Float arithmetic is not modelled: a part keeps the cell of its position, and
  the height a fall ends with is given to `update`.
-/

namespace OpenApoc

/-! ## Data model -/

/-- Integer vector `Vec3<int>`. -/
structure Vec3 where
  x : Int
  y : Int
  z : Int
deriving DecidableEq, Repr, Inhabited

/-- Category of a map part type, `BattleMapPartType::Type`. -/
inductive PartType where
  | Ground
  | LeftWall
  | RightWall
  | Feature
deriving DecidableEq, Repr, Inhabited

/-- The values of `TileObject::Type` that the tile object of a map part can have. -/
inductive TileObjectType where
  | Ground
  | LeftWall
  | RightWall
  | Feature
deriving DecidableEq, Repr, Inhabited

/-- Compass direction, `MapDirection`. -/
inductive MapDirection where
  | North
  | East
  | South
  | West
deriving DecidableEq, Repr, Inhabited

/-- Conversion `TileObjectBattleMapPart::convertType` of a part category to the
type of its tile object. -/
def convertType : PartType → TileObjectType
  | .Ground => .Ground
  | .LeftWall => .LeftWall
  | .RightWall => .RightWall
  | .Feature => .Feature

/-- The fields of `BattleMapPartType` read by the code.  `id` is the identity of
the type, which is what two `StateRef<BattleMapPartType>` are compared by; the
references `damaged_map_part`, `destroyed_ground_tile` and `rubble` hold the `id`
of the type they name, and `none` is the null reference. -/
structure BattleMapPartType where
  type : PartType
  floating : Bool
  provides_support : Bool
  supportedByAbove : Bool
  supportedByDirections : List MapDirection
  supportedByTypes : List PartType
  id : Nat := 0
  constitution : Int := 0
  damaged_map_part : Option Nat := none
  destroyed_ground_tile : Option Nat := none
  rubble : List Nat := []
deriving DecidableEq, Repr, Inhabited

/-- A `TileObjectBattleMapPart`: its `getType()`, its `getOwner()` and the
position of its `getOwningTile()`. -/
structure TileObjectBattleMapPart where
  type : TileObjectType
  owner : Nat
  owningTile : Vec3
deriving DecidableEq, Repr, Inhabited

/-- A `BattleMapPart`.  `position` is the float position converted to
`Vec3<int>`, which is how the code stores it in `supportedParts`: the cell the
position lies in.  `type` and `alternative_type` are the types the two
references name (`none` is the null reference), `door` is the index of the door
in `Battle.doors`. -/
structure BattleMapPart where
  type : BattleMapPartType
  position : Vec3
  ticksUntilCollapse : Nat
  damaged : Bool
  falling : Bool
  destroyed : Bool
  providesHardSupport : Bool
  supportedParts : List (Vec3 × PartType)
  tileObject : Option TileObjectBattleMapPart
  alternative_type : Option BattleMapPartType := none
  door : Option Nat := none
  supportedItems : Bool := false
deriving DecidableEq, Repr, Inhabited

/-- The tile map: its `size` and, for the tiles that own objects, their
`ownedObjects`. -/
structure TileMap where
  size : Vec3
  tiles : List (Vec3 × List TileObjectBattleMapPart)
deriving DecidableEq, Repr, Inhabited

/-- A `BattleDoor`: the list `mapParts` of the parts it is made of. -/
structure BattleDoor where
  mapParts : List Nat
deriving DecidableEq, Repr, Inhabited

/-- The battle: the map, the parts it owns, its doors, and the map part types
of the game state. -/
structure Battle where
  map : TileMap
  map_parts : List BattleMapPart
  doors : List BattleDoor := []
  map_part_types : List BattleMapPartType := []
deriving DecidableEq, Repr, Inhabited

/-- What a dereference of a null `tileObject`, an exhausted iteration budget of
the model, a reference to a type that the game state does not hold, or an erase
on one list with an iterator of another list yields. -/
inductive Fault where
  | nullTileObject
  | outOfFuel
  | unknownType
  | foreignIterator
deriving DecidableEq, Repr, Inhabited

/-- The `ownedObjects` of the tile at `v` (`map.getTile`). -/
def TileMap.getTile (m : TileMap) (v : Vec3) : List TileObjectBattleMapPart :=
  match m.tiles.lookup v with
  | some objs => objs
  | none => []

/-- The part a pointer designates. -/
def Battle.part (b : Battle) (i : Nat) : BattleMapPart :=
  b.map_parts.getD i default

/-- Update through a pointer. -/
def Battle.modifyPart (b : Battle) (i : Nat) (f : BattleMapPart → BattleMapPart) : Battle :=
  { b with map_parts := b.map_parts.modify f i }

/-- Update through each pointer of a list in turn: `for (auto mp : list) f(mp)`. -/
def Battle.modifyParts (b : Battle) (ids : List Nat) (f : BattleMapPart → BattleMapPart) :
    Battle :=
  ids.foldl (fun b i => b.modifyPart i f) b

/-- Equality of two outcomes can be decided. -/
instance decEqExcept {ε α : Type} [DecidableEq ε] [DecidableEq α] : DecidableEq (Except ε α) :=
  fun a b =>
    match a, b with
    | .ok x, .ok y => if h : x = y then isTrue (by rw [h]) else isFalse (fun e => h (by cases e; rfl))
    | .error x, .error y =>
      if h : x = y then isTrue (by rw [h]) else isFalse (fun e => h (by cases e; rfl))
    | .ok _, .error _ => isFalse (fun e => by cases e)
    | .error _, .ok _ => isFalse (fun e => by cases e)

/-- Modelled from the spec: `willCollapse()` is defined in the class header,
which is not among the sources; the spec calls a part collapse-pending when
`ticksUntilCollapse > 0`. -/
def BattleMapPart.willCollapse (p : BattleMapPart) : Bool :=
  decide (p.ticksUntilCollapse > 0)

/-- Liveness test `BattleMapPart::isAlive`. -/
def BattleMapPart.isAlive (p : BattleMapPart) : Bool :=
  if p.falling || p.destroyed || p.willCollapse then false else true

/-- Countdown start `BattleMapPart::queueCollapse`; `ticksUntilCollapse` is an
`unsigned int`.  `TICKS_MULTIPLIER` is a constant of another file. -/
def BattleMapPart.queueCollapse (TICKS_MULTIPLIER : Nat) (additionalDelay : Nat)
    (p : BattleMapPart) : BattleMapPart :=
  { p with
    ticksUntilCollapse := (TICKS_MULTIPLIER + additionalDelay) % 4294967296
    providesHardSupport := false }

/-- The assignment `providesHardSupport = v`. -/
def BattleMapPart.setHard (v : Bool) (p : BattleMapPart) : BattleMapPart :=
  { p with providesHardSupport := v }

/-- Countdown reset `BattleMapPart::cancelCollapse`. -/
def BattleMapPart.cancelCollapse (p : BattleMapPart) : BattleMapPart :=
  { p with ticksUntilCollapse := 0 }

/-! ## `findSupport` -/

/-- The bounds test `x < 0 || x >= map.size.x || y < 0 || ...`. -/
def outOfBounds (m : TileMap) (v : Vec3) : Bool :=
  decide (v.x < 0) || decide (v.x ≥ m.size.x) || decide (v.y < 0) || decide (v.y ≥ m.size.y)
    || decide (v.z < 0) || decide (v.z ≥ m.size.z)

/-- The values of `for (int v = lo; v <= hi; v++)`. -/
def intRange (lo hi : Int) : List Int :=
  (List.range (hi - lo + 1).toNat).map fun (k : Nat) => lo + (k : Int)

/-- The cells of three nested loops, `x` outermost and `z` innermost. -/
def cells (xs ys zs : List Int) : List Vec3 :=
  xs.flatMap fun x => ys.flatMap fun y => zs.map fun z => ⟨x, y, z⟩

/-- The cells of the 3x3x3 block around `pos`, in loop order. -/
def block (pos : Vec3) : List Vec3 :=
  cells (intRange (pos.x - 1) (pos.x + 1)) (intRange (pos.y - 1) (pos.y + 1))
    (intRange (pos.z - 1) (pos.z + 1))

/-- The erase loop over one `supportedParts` list: every entry equal to
`(pos, t)` goes. -/
def eraseSupported (pos : Vec3) (t : PartType) (l : List (Vec3 × PartType)) :
    List (Vec3 × PartType) :=
  l.filter fun p => !(decide (p.1 = pos) && decide (p.2 = t))

/-- The purge on one part. -/
def BattleMapPart.eraseSupported (pos : Vec3) (t : PartType) (mp : BattleMapPart) :
    BattleMapPart :=
  { mp with supportedParts := OpenApoc.eraseSupported pos t mp.supportedParts }

/-- The loop "Clean support providers for this map part", as the list
implementations in use run it.  The source writes `it = supportedParts.erase(it)`
with `it` an iterator of `mp->supportedParts`: the call is on the list of the
calling part.  Erasing through a list iterator unlinks the node the iterator
designates, which is a node of the list of `mp`, so the entry leaves the list of
`mp`; that is what is modelled here, and what `findSupport` below runs.  The
language defines the call only when `mp` is the calling part; the loop read by
that rule is `cleanSupportProvidersChecked`. -/
def cleanSupportProviders (b : Battle) (pos : Vec3) (t : PartType) : Battle :=
  (block pos).foldl
    (fun b v =>
      if outOfBounds b.map v then b
      else (b.map.getTile v).foldl
        (fun b o => b.modifyPart o.owner (BattleMapPart.eraseSupported pos t)) b)
    b

/-- The erase loop of the purge over the list of `mp`, by the letter of the
source: `it` runs over `mp->supportedParts` and the erase is written
`supportedParts.erase(it)`, a call on the list of the calling part `self`.  When
`mp` is the calling part the matching entries go.  When it is another part, a
matching entry makes the call an erase with an iterator of another list, which
the language leaves undefined: `Fault.foreignIterator`; without a matching entry
the loop only walks the list. -/
def eraseThroughCaller (self : Nat) (pos : Vec3) (t : PartType) (b : Battle) (mp : Nat) :
    Except Fault Battle :=
  if mp = self then .ok (b.modifyPart mp (BattleMapPart.eraseSupported pos t))
  else if (b.part mp).supportedParts.any (fun p => decide (p.1 = pos) && decide (p.2 = t)) then
    .error .foreignIterator
  else .ok b

/-- The loop "Clean support providers for this map part" called by the part
`self`, with the erase read by the letter of the source (`eraseThroughCaller`). -/
def cleanSupportProvidersChecked (b : Battle) (self : Nat) (pos : Vec3) (t : PartType) :
    Except Fault Battle :=
  (block pos).foldlM
    (fun b v =>
      if outOfBounds b.map v then pure b
      else (b.map.getTile v).foldlM (fun b o => eraseThroughCaller self pos t b o.owner) b)
    b

/-- The `emplace_back(position, type->type)` on a supporter. -/
def BattleMapPart.addSupported (entry : Vec3 × PartType) (mp : BattleMapPart) : BattleMapPart :=
  { mp with supportedParts := mp.supportedParts ++ [entry] }

/-- Step 01, the bounds of the scan: `((startX, endX), (startY, endY), (startZ, endZ))`. -/
def specialBounds (t : PartType) (pos : Vec3) : (Int × Int) × (Int × Int) × (Int × Int) :=
  match t with
  | .Ground => ((pos.x - 1, pos.x + 1), (pos.y - 1, pos.y + 1), (pos.z - 1, pos.z))
  | .Feature => ((pos.x, pos.x), (pos.y, pos.y), (pos.z - 1, pos.z + 1))
  | .LeftWall => ((pos.x - 1, pos.x), (pos.y, pos.y), (pos.z - 1, pos.z + 1))
  | .RightWall => ((pos.x, pos.x), (pos.y - 1, pos.y), (pos.z - 1, pos.z + 1))

/-- Step 01, the value of `canSupport` for an object of type `o` in the tile `v`. -/
def canSupportSpecial (ty : BattleMapPartType) (pos v : Vec3) (o : TileObjectType) : Bool :=
  match ty.type with
  | .Ground =>
    -- G1, G2, G3
    (decide (v.x = pos.x) && decide (v.y = pos.y) && decide (o = .Feature))
    || (((decide (v.x ≥ pos.x) || decide (v.y ≥ pos.y)) && decide (v.z < pos.z))
        && ((decide (v.x ≥ pos.x) && decide (o = .LeftWall))
            || (decide (v.y ≥ pos.y) && decide (o = .RightWall))))
    || (((decide (v.x = pos.x) || decide (v.y = pos.y)) && decide (v.z < pos.z))
        && decide (o = .Feature))
  | .Feature =>
    -- F1, F2, F3
    (decide (v.z = pos.z) && decide (o = .Ground))
    || (decide (v.z < pos.z) && decide (o = .Feature))
    || (decide (v.z > pos.z) && decide (o = .Feature) && ty.supportedByAbove)
  | .LeftWall =>
    -- W1 .. W5
    (decide (v.x = pos.x) && decide (v.y = pos.y) && decide (v.z = pos.z)
        && decide (o = .Feature))
    || (decide (v.z = pos.z) && decide (o = .Ground))
    || (decide (v.z < pos.z) && decide (o = .Feature))
    || (decide (v.x = pos.x) && decide (v.z < pos.z) && decide (o = .LeftWall))
    || (decide (v.x = pos.x) && decide (v.z > pos.z) && decide (o = .LeftWall)
        && ty.supportedByAbove)
  | .RightWall =>
    (decide (v.x = pos.x) && decide (v.y = pos.y) && decide (v.z = pos.z)
        && decide (o = .Feature))
    || (decide (v.z = pos.z) && decide (o = .Ground))
    || (decide (v.z < pos.z) && decide (o = .Feature))
    || (decide (v.y = pos.y) && decide (v.z < pos.z) && decide (o = .RightWall))
    || (decide (v.y = pos.y) && decide (v.z > pos.z) && decide (o = .RightWall)
        && ty.supportedByAbove)

/-- Step 01, the test on the owner `mp` of a candidate found in a tile of height `z`:
`mp != sft && mp->isAlive() && !mp->damaged && (provides_support || Ground || z <= pos.z)`. -/
def specialOwnerOk (b : Battle) (self : Nat) (pos : Vec3) (z : Int) (mp : Nat) : Bool :=
  decide (mp ≠ self) && (b.part mp).isAlive && !(b.part mp).damaged
    && ((b.part mp).type.provides_support || decide ((b.part mp).type.type = .Ground)
        || decide (z ≤ pos.z))

/-- Step 01 "Check for special conditions": the owner of the first object that
can support, in loop order, if there is one. -/
def checkSpecialConditions (b : Battle) (self : Nat) (ty : BattleMapPartType) (pos : Vec3) :
    Option Nat :=
  let bounds := specialBounds ty.type pos
  (cells (intRange bounds.1.1 bounds.1.2) (intRange bounds.2.1.1 bounds.2.1.2)
      (intRange bounds.2.2.1 bounds.2.2.2)).findSome? fun v =>
    if outOfBounds b.map v then none
    else ((b.map.getTile v).find? fun o =>
        canSupportSpecial ty pos v o.type && specialOwnerOk b self pos v.z o.owner).map
      fun o => o.owner

/-- Step 02, `typeList`: the part's own tile type on the same level, then one
entry for each of `supportedByTypes`. -/
def supportTypeList (tileType : TileObjectType) (ty : BattleMapPartType) :
    List (Int × TileObjectType) :=
  (0, tileType) :: ty.supportedByTypes.map fun t =>
    match t with
    | .Ground => (0, TileObjectType.Ground)
    | .LeftWall => (0, TileObjectType.LeftWall)
    | .RightWall => (0, TileObjectType.RightWall)
    | .Feature => (-1, TileObjectType.Feature)

/-- Step 02, the entry a Feature adds for a same-level Feature entry: the
matching wall. -/
def matchingWall (d : MapDirection) (pos : Vec3) (dz : Int) : Vec3 × TileObjectType :=
  match d with
  | .North => (⟨pos.x, pos.y, pos.z + dz⟩, .RightWall)
  | .East => (⟨pos.x + 1, pos.y, pos.z + dz⟩, .LeftWall)
  | .South => (⟨pos.x, pos.y + 1, pos.z + dz⟩, .RightWall)
  | .West => (⟨pos.x, pos.y, pos.z + dz⟩, .LeftWall)

/-- Step 02, "Get diagonal directions": the body of the loop over `d2` after its
first `continue`.  Both nested `switch` statements of the source are on `d`, so
the value does not depend on `d2`: `none` is `continue`, `some (dx, dy)` are the
offsets after the assignment. -/
def diagonalOffset (d : MapDirection) (dx dy : Int) : Option (Int × Int) :=
  match d with
  | .North | .South =>
    (match d with
     | .East => some (1, dy)
     | .West => some (-1, dy)
     | .North | .South => none)
  | .East | .West =>
    (match d with
     | .North => some (dx, -1)
     | .South => some (dx, 1)
     | .East | .West => none)

/-- Step 02, the entries the loop over `d2` appends to `partList`; `dx` and `dy`
are carried from one round to the next as in the source. -/
def diagonalParts (dirs : List MapDirection) (d : MapDirection) (p : Int × TileObjectType)
    (pos : Vec3) (dx dy : Int) : List (Vec3 × TileObjectType) :=
  (dirs.foldl
    (fun (acc : (Int × Int) × List (Vec3 × TileObjectType)) d2 =>
      if decide (d2 = d) || decide (p.2 = .LeftWall) || decide (p.2 = .RightWall) then acc
      else match diagonalOffset d acc.1.1 acc.1.2 with
        | none => acc
        | some off =>
          (off, acc.2 ++ [((⟨pos.x + off.1, pos.y + off.2, pos.z + p.1⟩ : Vec3), p.2)]))
    ((dx, dy), [])).2

/-- Step 02, what one round of the loops over `d` and `p` appends to `partList`. -/
def directionParts (tileType : TileObjectType) (ty : BattleMapPartType) (pos : Vec3)
    (d : MapDirection) (p : Int × TileObjectType) : List (Vec3 × TileObjectType) :=
  let wall : List (Vec3 × TileObjectType) :=
    if decide (ty.type = .Feature) && decide (p.1 = 0) && decide (p.2 = .Feature)
    then [matchingWall d pos p.1] else []
  if (decide (p.2 = .RightWall) && decide (tileType = .RightWall)
        && (decide (d = .North) || decide (d = .South)))
      || (decide (p.2 = .LeftWall) && decide (tileType = .LeftWall)
        && (decide (d = .East) || decide (d = .West)))
  then wall
  else
    let negInc : Int :=
      if (decide (d = .North) && decide (p.2 = .RightWall))
          || (decide (d = .West) && decide (p.2 = .LeftWall)) then 0 else -1
    let off : Int × Int :=
      match d with
      | .North => (0, negInc)
      | .East => (1, 0)
      | .South => (0, 1)
      | .West => (negInc, 0)
    wall ++ [((⟨pos.x + off.1, pos.y + off.2, pos.z + p.1⟩ : Vec3), p.2)]
      ++ diagonalParts ty.supportedByDirections d p pos off.1 off.2

/-- Step 02, the whole `partList`. -/
def supportPartList (tileType : TileObjectType) (ty : BattleMapPartType) (pos : Vec3) :
    List (Vec3 × TileObjectType) :=
  ty.supportedByDirections.flatMap fun d =>
    (supportTypeList tileType ty).flatMap fun p => directionParts tileType ty pos d p

/-- Steps 02 and 03, the value of `canSupport` for the owner of an object found
in a tile of height `z`. -/
def canSupportFrom (mp : BattleMapPart) (z posz : Int) : Bool :=
  !mp.damaged && (decide (mp.type.type ≠ .Ground) || decide (z = posz))
    && (mp.type.provides_support || decide (z ≤ posz))

/-- Steps 02 and 03, the tests on the owner of a candidate:
`mp != sft && mp->isAlive()` and then `canSupport`. -/
def ownerOk (b : Battle) (self : Nat) (pos : Vec3) (z : Int) (mp : Nat) : Bool :=
  decide (mp ≠ self) && (b.part mp).isAlive && canSupportFrom (b.part mp) z pos.z

/-- Step 02 "Look for parts": the owner of the first eligible object of the
listed type in the listed tiles. -/
def checkSupportedByDirection (b : Battle) (self : Nat) (tileType : TileObjectType)
    (ty : BattleMapPartType) (pos : Vec3) : Option Nat :=
  (supportPartList tileType ty pos).findSome? fun pair =>
    if outOfBounds b.map pair.1 then none
    else ((b.map.getTile pair.1).find? fun o =>
        decide (o.type = pair.2) && ownerOk b self pos pair.1.z o.owner).map fun o => o.owner

/-- Step 03, the list of directions of a tile type. -/
def clingDirections (tileType : TileObjectType) : List Vec3 :=
  match tileType with
  | .LeftWall => [⟨0, -1, 0⟩, ⟨0, 1, 0⟩]
  | .RightWall => [⟨1, 0, 0⟩, ⟨-1, 0, 0⟩]
  | _ => [⟨0, -1, 0⟩, ⟨1, 0, 0⟩, ⟨0, 1, 0⟩, ⟨-1, 0, 0⟩]

/-- Step 03, the list `supports`: for each direction, the owner of the first
eligible object of its tile. -/
def clingSupports (b : Battle) (self : Nat) (tileType : TileObjectType) (pos : Vec3) :
    List Nat :=
  (clingDirections tileType).filterMap fun dir =>
    let v : Vec3 := ⟨pos.x + dir.x, pos.y + dir.y, pos.z + dir.z⟩
    if outOfBounds b.map v then none
    else ((b.map.getTile v).find? fun o =>
        (decide (o.type = tileType)
          || (decide (o.type = .Feature)
              && (decide (tileType = .LeftWall) || decide (tileType = .RightWall))))
        && ownerOk b self pos v.z o.owner).map fun o => o.owner

/-- Step 03, `supportCount`: the supports found and one for each map edge. -/
def clingCount (b : Battle) (supports : List Nat) (pos : Vec3) : Nat :=
  supports.length
    + (if decide (pos.x = 0) || decide (pos.x = b.map.size.x - 1) then 1 else 0)
    + (if decide (pos.y = 0) || decide (pos.y = b.map.size.y - 1) then 1 else 0)

/-- Step 04, the loop that looks for the part of type `tileType` in a tile: the
last matching object wins. -/
def lastOfType (tile : List TileObjectBattleMapPart) (tileType : TileObjectType) : Option Nat :=
  tile.foldl (fun mp o => if decide (o.type = tileType) then some o.owner else mp) none

/-- Step 04, the coordinates the `do ... while (true)` loop examines when it
starts at `start` and moves by `inc` (which is `-1` or `1`): the coordinates
inside `[0, size)` from `start` on.  The loop stops with `found = true` when the
coordinate leaves that range. -/
def rayCells (start inc size : Int) : List Int :=
  if decide (start < 0) || decide (start ≥ size) then []
  else (List.range (if inc < 0 then start + 1 else size - start).toNat).map
    fun (k : Nat) => start + inc * (k : Int)

/-- Step 04, one ray: the value of `found` after the `do ... while (true)` loop
over the given coordinates. -/
def rayFound (b : Battle) (tileType : TileObjectType) (cell : Int → Vec3) : List Int → Bool
  | [] => true
  | c :: rest =>
    match lastOfType (b.map.getTile (cell c)) tileType with
    | none => false
    | some mp =>
      if (b.part mp).destroyed || (b.part mp).damaged || (b.part mp).falling then false
      else if (b.part mp).providesHardSupport then true
      else rayFound b tileType cell rest

/-- Step 04, the value of `found` after the loop over `increment`: both rays. -/
def lineFound (b : Battle) (tileType : TileObjectType) (cell : Int → Vec3) (start size : Int) :
    Bool :=
  rayFound b tileType cell (rayCells (start + -1) (-1) size)
    && rayFound b tileType cell (rayCells (start + 1) 1 size)

/-- Step 04, "cling to neighbours": the loop over the increments.  The Boolean
is `false` when the loop left through "Map part disappeared". -/
def clingToLine (tileType : TileObjectType) (cell : Int → Vec3) (start size : Int)
    (entry : Vec3 × PartType) : List Int → Battle → Battle × Bool
  | [], b => (b, true)
  | inc :: rest, b =>
    if decide (start + inc < 0) || decide (start + inc ≥ size) then
      clingToLine tileType cell start size entry rest b
    else
      match lastOfType (b.map.getTile (cell (start + inc))) tileType with
      | none => (b, false)
      | some mp =>
        clingToLine tileType cell start size entry rest
          (b.modifyPart mp (BattleMapPart.addSupported entry))

/-- The `return` statement through which `findSupport` left. -/
inductive SupportPath where
  | floating
  | floor
  | special
  | direction
  | cling
  | lineX
  | lineY
  | disappearedX
  | disappearedY
  | unsupported
deriving DecidableEq, Repr, Inhabited

/-- The outcome of `findSupport`: the battle after the call, the value returned
and the `return` statement taken. -/
structure SupportResult where
  battle : Battle
  supported : Bool
  via : SupportPath
deriving DecidableEq, Repr, Inhabited

/-- Step 04 of `findSupport`, "Shoot support lines", on the battle `b` reached
after step 03. -/
def shootSupportLines (b : Battle) (ty : BattleMapPartType) (tileType : TileObjectType)
    (pos : Vec3) (entry : Vec3 × PartType) : SupportResult :=
  let cellX : Int → Vec3 := fun x => ⟨x, pos.y, pos.z⟩
  let cellY : Int → Vec3 := fun y => ⟨pos.x, y, pos.z⟩
  if decide (ty.type ≠ .LeftWall) && lineFound b tileType cellX pos.x b.map.size.x then
    let r := clingToLine tileType cellX pos.x b.map.size.x entry [-1, 1] b
    if r.2 then ⟨r.1, true, .lineX⟩ else ⟨r.1, false, .disappearedX⟩
  else if decide (ty.type ≠ .RightWall) && lineFound b tileType cellY pos.y b.map.size.y then
    let r := clingToLine tileType cellY pos.y b.map.size.y entry [-1, 1] b
    if r.2 then ⟨r.1, true, .lineY⟩ else ⟨r.1, false, .disappearedY⟩
  else ⟨b, false, .unsupported⟩

/-- Steps 01 to 04 of `findSupport`, on the battle `b` reached after the purge. -/
def resolveSupport (b : Battle) (self : Nat) (ty : BattleMapPartType)
    (tileType : TileObjectType) (pos : Vec3) (entry : Vec3 × PartType) : SupportResult :=
  match checkSpecialConditions b self ty pos with
  | some mp => ⟨b.modifyPart mp (BattleMapPart.addSupported entry), true, .special⟩
  | none =>
    match (if ty.supportedByDirections.isEmpty then none
           else checkSupportedByDirection b self tileType ty pos) with
    | some mp => ⟨b.modifyPart mp (BattleMapPart.addSupported entry), true, .direction⟩
    | none =>
      -- If we reached this - we can not provide hard support
      let b := b.modifyPart self (BattleMapPart.setHard false)
      let supports := clingSupports b self tileType pos
      if clingCount b supports pos ≥ 2 then
        ⟨b.modifyParts supports (BattleMapPart.addSupported entry), true, .cling⟩
      else shootSupportLines b ty tileType pos entry

/-- Support resolver `BattleMapPart::findSupport` called on the part `self`. -/
def findSupport (b : Battle) (self : Nat) : Except Fault SupportResult :=
  let b := b.modifyPart self (BattleMapPart.setHard true)
  if (b.part self).type.floating then .ok ⟨b, true, .floating⟩
  else
    match (b.part self).tileObject with
    | none => .error .nullTileObject
    | some tileObject =>
      let pos := tileObject.owningTile
      if decide (pos.z = 0) then .ok ⟨b, true, .floor⟩
      else
        let ty := (b.part self).type
        let entry := ((b.part self).position, ty.type)
        .ok (resolveSupport (cleanSupportProviders b pos ty.type) self ty tileObject.type pos
          entry)

/-- Support resolver `BattleMapPart::findSupport` called on the part `self`, with
the erase of the purge read by the letter of the source: the call has no defined
outcome when another part of the neighbourhood holds an entry that the purge is
to erase. -/
def findSupportChecked (b : Battle) (self : Nat) : Except Fault SupportResult :=
  let b := b.modifyPart self (BattleMapPart.setHard true)
  if (b.part self).type.floating then .ok ⟨b, true, .floating⟩
  else
    match (b.part self).tileObject with
    | none => .error .nullTileObject
    | some tileObject =>
      let pos := tileObject.owningTile
      if decide (pos.z = 0) then .ok ⟨b, true, .floor⟩
      else
        let ty := (b.part self).type
        let entry := ((b.part self).position, ty.type)
        match cleanSupportProvidersChecked b self pos ty.type with
        | .error e => .error e
        | .ok b1 => .ok (resolveSupport b1 self ty tileObject.type pos entry)

/-! ## `attemptReLinkSupports` -/

/-- Insertion into a `std::set<BattleMapPart*>`. -/
def setInsert (a : Nat) : List Nat → List Nat
  | [] => [a]
  | b :: rest =>
    if a < b then a :: b :: rest
    else if a = b then b :: rest
    else b :: setInsert a rest

/-- The parts a part supports, `BattleMapPart::getSupportedParts`.  A position
that names no listed tile yields no object. -/
def getSupportedParts (b : Battle) (self : Nat) : Except Fault (List Nat) :=
  match (b.part self).tileObject with
  | none => .error .nullTileObject
  | some _ =>
    .ok ((b.part self).supportedParts.foldl
      (fun acc p =>
        (b.map.getTile p.1).foldl
          (fun acc obj => if decide (obj.type = convertType p.2) then setInsert obj.owner acc
            else acc)
          acc)
      [])

/-- The position `mp->tileObject->getOwningTile()->position`. -/
def owningTilePosition (b : Battle) (mp : Nat) : Except Fault Vec3 :=
  match (b.part mp).tileObject with
  | none => .error .nullTileObject
  | some tileObject => .ok tileObject.owningTile

/-- The loop `for (auto newmp : *supportedByThisMp)` that queues the collapse of
what `mp` supports, with the countdown of `mp` as additional delay. -/
def queueSupported (TICKS_MULTIPLIER : Nat) (b : Battle) (mp : Nat) (supported : List Nat) :
    Battle :=
  supported.foldl
    (fun b newmp => b.modifyPart newmp fun p =>
      { BattleMapPart.queueCollapse TICKS_MULTIPLIER (b.part mp).ticksUntilCollapse p with
        providesHardSupport := false })
    b

/-- State of one round of the `do ... while (listChanged)` loop: the battle,
`nextSet` and `listChanged`. -/
structure RelinkState where
  battle : Battle
  nextSet : List Nat
  listChanged : Bool
deriving DecidableEq, Repr, Inhabited

/-- The body of `for (auto mp : *set)` inside the `do ... while` loop of
`attemptReLinkSupports`. -/
def relinkPart (TICKS_MULTIPLIER : Nat) (st : RelinkState) (mp : Nat) :
    Except Fault RelinkState := do
  let supportedByThisMp ← getSupportedParts st.battle mp
  let b1 := queueSupported TICKS_MULTIPLIER st.battle mp supportedByThisMp
  let _ ← owningTilePosition b1 mp
  let r ← findSupport b1 mp
  if r.supported then
    let b2 := r.battle.modifyPart mp BattleMapPart.cancelCollapse
    let b3 := b2.modifyParts supportedByThisMp BattleMapPart.cancelCollapse
    pure ⟨b3, st.nextSet, true⟩
  else
    let b2 := r.battle.modifyPart mp fun p => { p with supportedParts := [] }
    let _ ← supportedByThisMp.mapM (owningTilePosition b2)
    pure ⟨b2, supportedByThisMp.foldl (fun s newmp => setInsert newmp s) (setInsert mp st.nextSet),
      st.listChanged || !supportedByThisMp.isEmpty⟩

/-- One round of the `do ... while (listChanged)` loop on the working set `set`. -/
def relinkRound (TICKS_MULTIPLIER : Nat) (b : Battle) (set : List Nat) :
    Except Fault RelinkState := do
  let _ ← set.mapM (owningTilePosition b)
  set.foldlM (relinkPart TICKS_MULTIPLIER) ⟨b, [], false⟩

/-- The `do ... while (listChanged)` loop, with a budget of rounds: the battle
and the working set when the loop ends. -/
def relinkLoop (TICKS_MULTIPLIER : Nat) : Nat → Battle → List Nat →
    Except Fault (Battle × List Nat)
  | 0, _, _ => .error .outOfFuel
  | fuel + 1, b, set =>
    match relinkRound TICKS_MULTIPLIER b set with
    | .error e => .error e
    | .ok st =>
      if st.listChanged then relinkLoop TICKS_MULTIPLIER fuel st.battle st.nextSet
      else .ok (st.battle, st.nextSet)

/-- Collapse propagator `BattleMapPart::attemptReLinkSupports`: the battle and
the final working set.  The first loop calls `queueCollapse()` without an
argument; the default of `additionalDelay` is in the header and is taken as 0
(the spec speaks of an optional extra delay). -/
def attemptReLinkSupports (TICKS_MULTIPLIER : Nat) (fuel : Nat) (b : Battle) (set : List Nat) :
    Except Fault (Battle × List Nat) :=
  if set.isEmpty then .ok (b, set)
  else
    let b1 := b.modifyParts set (BattleMapPart.queueCollapse TICKS_MULTIPLIER 0)
    match relinkLoop TICKS_MULTIPLIER fuel b1 set with
    | .error e => .error e
    | .ok r =>
      match r.2.mapM (owningTilePosition r.1) with
      | .error e => .error e
      | .ok _ => .ok r


/-! ## Doors, the grid and the game state -/

/-- The type a `StateRef<BattleMapPartType>` names: the type of the game state
with that `id`. -/
def Battle.mapPartType (b : Battle) (id : Nat) : Except Fault BattleMapPartType :=
  match b.map_part_types.find? (fun t => decide (t.id = id)) with
  | some t => .ok t
  | none => .error .unknownType

/-- Modelled from the spec: `TileObject::removeFromMap` is code of the tile
objects, which is not among the sources; the spec lists `removeFromMap(part)`
among the grid mutations.  The object leaves the `ownedObjects` of its owning
tile. -/
def TileMap.removeObject (m : TileMap) (o : TileObjectBattleMapPart) : TileMap :=
  { m with
    tiles := m.tiles.map fun e =>
      if decide (e.1 = o.owningTile) then (e.1, e.2.filter fun x => decide (x ≠ o)) else e }

/-- Modelled from the spec: adding an object to the grid (`addObjectToMap`,
`TileObject::setPosition`) is code that is not among the sources; the spec lists
`addToMap(part)` among the grid mutations.  The object joins the `ownedObjects`
of its owning tile, after the objects already there. -/
def TileMap.addObject (m : TileMap) (o : TileObjectBattleMapPart) : TileMap :=
  if m.tiles.any (fun e => decide (e.1 = o.owningTile)) then
    { m with
      tiles := m.tiles.map fun e =>
        if decide (e.1 = o.owningTile) then (e.1, e.2 ++ [o]) else e }
  else { m with tiles := m.tiles ++ [(o.owningTile, [o])] }

/-- Modelled from the spec: the cell of the grid that owns an object at the
position `pos`.  The tile code is not among the sources; the spec has the grid
"bounded by map extents", and an object whose position is below the map stays in
the lowest layer. -/
def tileCell (pos : Vec3) : Vec3 :=
  ⟨pos.x, pos.y, max pos.z 0⟩

/-- The two statements `tileObject->removeFromMap(); tileObject.reset();`. -/
def Battle.removeFromMap (b : Battle) (self : Nat) : Except Fault Battle :=
  match (b.part self).tileObject with
  | none => .error .nullTileObject
  | some o =>
    .ok (({ b with map := b.map.removeObject o }).modifyPart self
      fun p => { p with tileObject := none })

/-- Position update `BattleMapPart::setPosition`.  The part takes the position;
without a tile object nothing else happens, otherwise the tile object moves to
the cell of the position (`tileObject->setPosition`, modelled from the spec as
above: `tileCell`, and an object that stays in its tile keeps its place). -/
def Battle.setPosition (b : Battle) (self : Nat) (pos : Vec3) : Battle :=
  let b1 := b.modifyPart self fun p => { p with position := pos }
  match (b.part self).tileObject with
  | none => b1
  | some o =>
    if o.owningTile = tileCell pos then b1
    else
      (({ b1 with
          map := (b1.map.removeObject o).addObject { o with owningTile := tileCell pos } })).modifyPart
        self fun p => { p with tileObject := some { o with owningTile := tileCell pos } }

/-- Door detachment `BattleMapPart::ceaseDoorFunction`.  The `remove_if` drops
from `door->mapParts` every pointer equal to this part. -/
def ceaseDoorFunction (b : Battle) (self : Nat) : Battle :=
  match (b.part self).door with
  | none => b
  | some d =>
    let b1 :=
      match (b.part self).alternative_type with
      | some t => b.modifyPart self fun p => { p with type := t }
      | none => b
    let b2 : Battle :=
      { b1 with
        doors := b1.doors.modify
          (fun door => { door with mapParts := door.mapParts.filter fun p => decide (p ≠ self) })
          d }
    b2.modifyPart self fun p => { p with door := none }

/-! ## `ceaseSupportProvision`, `collapse`, `die`, `handleCollision`, `update` -/

/-- Support detachment `BattleMapPart::ceaseSupportProvision`.  The items of the
tile are not part of the model: of the last block only `supportedItems = false`
is kept. -/
def ceaseSupportProvision (TICKS_MULTIPLIER : Nat) (fuel : Nat) (b : Battle) (self : Nat) :
    Except Fault Battle := do
  let b1 := b.modifyPart self (BattleMapPart.setHard false)
  let set ← getSupportedParts b1 self
  let r ← attemptReLinkSupports TICKS_MULTIPLIER fuel b1 set
  let b2 := r.1.modifyPart self fun p => { p with supportedParts := [] }
  pure (b2.modifyPart self fun p => { p with supportedItems := false })

/-- Start of the fall, `BattleMapPart::collapse`. -/
def collapse (TICKS_MULTIPLIER : Nat) (fuel : Nat) (b : Battle) (self : Nat) :
    Except Fault Battle :=
  if (b.part self).falling || (b.part self).tileObject.isNone then .ok b
  else do
    let b1 := b.modifyPart self fun p => { p with falling := true }
    let b2 ← ceaseSupportProvision TICKS_MULTIPLIER fuel b1 self
    pure (ceaseDoorFunction b2 self)

/-- The branch "Replace with damaged / destroyed" of `die`.  For a Ground part
of the floor whose type has no destroyed-ground variant the source assigns the
null reference to `type` and goes on; a part of the model always has a type, so
the model does not follow the source there and stops with `unknownType`. -/
def replaceWithDamaged (TICKS_MULTIPLIER : Nat) (b : Battle) (self : Nat) :
    Except Fault Battle :=
  match (b.part self).type.damaged_map_part with
  | some d => do
    let t ← b.mapPartType d
    let r ← findSupport (b.modifyPart self fun p => { p with type := t }) self
    if r.supported then pure (r.battle.modifyPart self fun p => { p with damaged := true })
    else pure (r.battle.modifyPart self (BattleMapPart.queueCollapse TICKS_MULTIPLIER 0))
  | none =>
    if decide ((b.part self).position.z = 0) && decide ((b.part self).type.type = .Ground) then
      match (b.part self).type.destroyed_ground_tile with
      | some g => do
        let t ← b.mapPartType g
        pure (b.modifyPart self fun p => { p with type := t })
      | none => .error .unknownType
    else pure (b.modifyPart self fun p => { p with destroyed := true })

/-- Destruction `BattleMapPart::die`.  The doodad is an effect outside the
model; placing it reads `tileObject->getCenter()`. -/
def die (TICKS_MULTIPLIER : Nat) (fuel : Nat) (b : Battle) (self : Nat) : Except Fault Battle :=
  if (b.part self).falling then do
    let b1 ← b.removeFromMap self
    pure (b1.modifyPart self fun p => { p with destroyed := true })
  else
    match (b.part self).tileObject with
    | none => .error .nullTileObject
    | some _ => do
      let b1 ← replaceWithDamaged TICKS_MULTIPLIER b self
      let b2 ← ceaseSupportProvision TICKS_MULTIPLIER fuel (ceaseDoorFunction b1 self) self
      if (b2.part self).destroyed then b2.removeFromMap self else pure b2

/-- Collision entry point `BattleMapPart::handleCollision`.  `damage` is the
value of `randDamage050150(...)`, which the projectile and the random generator
decide; the Boolean returned is always false and is left out. -/
def handleCollision (TICKS_MULTIPLIER : Nat) (fuel : Nat) (b : Battle) (self : Nat)
    (damage : Int) : Except Fault Battle :=
  match (b.part self).tileObject with
  | none => .ok b
  | some _ =>
    if (b.part self).falling then .ok b
    else if damage ≤ (b.part self).type.constitution then .ok b
    else die TICKS_MULTIPLIER fuel b self

/-- The type after `rubble->type` in the list `type->rubble`: `std::find` and
the test `++it != end`. -/
def nextStage : List Nat → Nat → Option Nat
  | [], _ => none
  | a :: rest, x => if a = x then rest.head? else nextStage rest x

/-- A part as `mksp<BattleMapPart>()` makes it, with the type and position
given, and the tile object `addObjectToMap` gives it. -/
def newRubble (t : BattleMapPartType) (cell : Vec3) (o : TileObjectBattleMapPart) :
    BattleMapPart :=
  { type := t, position := cell, ticksUntilCollapse := 0, damaged := false, falling := false,
    destroyed := false, providesHardSupport := false, supportedParts := [],
    tileObject := some o }

/-- The block `if (!type->rubble.empty())` of `update`: `rubble` is the part the
loop over the tile found, if it found one. -/
def depositRubble (b : Battle) (self : Nat) (rubble : Option Nat) : Except Fault Battle :=
  match (b.part self).type.rubble with
  | [] => .ok b
  | first :: _ =>
    match rubble with
    | none => do
      let t ← b.mapPartType first
      let o : TileObjectBattleMapPart :=
        ⟨convertType t.type, b.map_parts.length, tileCell (b.part self).position⟩
      pure { b with
        map_parts := b.map_parts ++ [newRubble t (b.part self).position o]
        map := b.map.addObject o }
    | some q =>
      match nextStage (b.part self).type.rubble (b.part q).type.id with
      | none => .ok b
      | some n => do
        let t ← b.mapPartType n
        pure ((b.modifyPart q fun p => { p with type := t }).setPosition q (b.part q).position)

/-- The test "Find if we collide into it" for the object `o` of the tile. -/
def collidesWith (b : Battle) (self : Nat) (o : TileObjectBattleMapPart) : Bool :=
  (decide ((b.part o.owner).type.type = (b.part self).type.type)
      || decide ((b.part o.owner).type.type = .Ground))
    && ((b.part self).tileObject.isSome && (b.part o.owner).isAlive)

/-- The test "Find if we deposit rubble into it" for the object `o` of the tile. -/
def depositsInto (b : Battle) (self : Nat) (o : TileObjectBattleMapPart) : Bool :=
  ((decide ((b.part self).type.type ≠ .Ground)
        && decide ((b.part o.owner).type.type = (b.part self).type.type))
      || (decide ((b.part self).type.type = .Ground)
        && decide ((b.part o.owner).type.type = .Feature)))
    && (b.part o.owner).isAlive

/-- The conversion of a float height to `int` in `Vec3<int>(position)`, which
drops the fraction: `floor` is the value of `floorf` on the height and `whole`
says that the height is a whole number.  A height below 0 that is not whole is
rounded up. -/
def truncHeight (floor : Int) (whole : Bool) : Int :=
  if floor < 0 ∧ whole = false then floor + 1 else floor

/-- The block "Process falling" of `update`.  The loop over `fallTicksRemaining`
is float arithmetic; of the height `newPosition.z` it ends with, `newZ` stands
for `floorf(newPosition.z)` and `whole` says whether the height is a whole
number: `newPosition.z < 0` is `newZ < 0`, and the cell of the new position, as
`position` keeps it, has the height `truncHeight newZ whole`.  The source reads
`floorf(position.z)` only when `newPosition.z` is not below 0; the fall lowers
the part, so the position is not below 0 then and `floorf(position.z)` is the
height of its cell.  The x and y of the position do not change. -/
def processFalling (TICKS_MULTIPLIER : Nat) (fuel : Nat) (b : Battle) (self : Nat)
    (newZ : Int) (whole : Bool) : Except Fault Battle :=
  let newPosition : Vec3 :=
    ⟨(b.part self).position.x, (b.part self).position.y, truncHeight newZ whole⟩
  if decide (newZ < 0) || decide (newZ ≠ (b.part self).position.z) then
    match (b.part self).tileObject with
    | none => .error .nullTileObject
    | some ts =>
      let tile := b.map.getTile ts.owningTile
      let rubble : Option Nat :=
        tile.foldl (fun r o => if depositsInto b self o then some o.owner else r) none
      let b1 :=
        if tile.any (collidesWith b self) then
          b.modifyPart self fun p => { p with destroyed := true }
        else b
      if (b1.part self).destroyed then do
        let b2 ← depositRubble b1 self rubble
        die TICKS_MULTIPLIER fuel b2 self
      else pure (b1.setPosition self newPosition)
  else pure (b.setPosition self newPosition)

/-- Per-tick update `BattleMapPart::update`; `newZ` and `whole` are the height the
fall ends with, as in `processFalling`.  The animation counter of the last block
is not part of the model. -/
def update (TICKS_MULTIPLIER : Nat) (fuel : Nat) (b : Battle) (self : Nat) (ticks : Nat)
    (newZ : Int) (whole : Bool) : Except Fault Battle :=
  match (b.part self).tileObject with
  | none => .ok b
  | some _ => do
    let b1 ←
      (if (b.part self).ticksUntilCollapse > 0 then
        if (b.part self).ticksUntilCollapse > ticks then
          pure (b.modifyPart self fun p =>
            { p with ticksUntilCollapse := p.ticksUntilCollapse - ticks })
        else
          collapse TICKS_MULTIPLIER fuel
            (b.modifyPart self fun p => { p with ticksUntilCollapse := 0 }) self
      else pure b)
    if (b1.part self).falling then processFalling TICKS_MULTIPLIER fuel b1 self newZ whole
    else pure b1

/-! ## Notions used to state the properties -/

/-- The parts whose lists the purge visits: the owners of the objects of the
in-bounds tiles of the 3x3x3 block around `pos`. -/
def neighbourOwners (m : TileMap) (pos : Vec3) : List Nat :=
  (block pos).flatMap fun v =>
    if outOfBounds m v then [] else (m.getTile v).map fun o => o.owner

/-- A part that step 01 can pick: the owner of an object of an in-bounds tile
that passes the category test and the owner test. -/
def SpecialCandidate (b : Battle) (self : Nat) (ty : BattleMapPartType) (pos : Vec3) (q : Nat) :
    Prop :=
  ∃ v o, outOfBounds b.map v = false ∧ o ∈ b.map.getTile v ∧ o.owner = q
    ∧ canSupportSpecial ty pos v o.type = true ∧ specialOwnerOk b self pos v.z q = true

/-- A part that step 02 or step 03 can pick: the owner of an object of an
in-bounds tile that passes the owner test. -/
def Candidate (b : Battle) (self : Nat) (pos : Vec3) (q : Nat) : Prop :=
  ∃ v o, outOfBounds b.map v = false ∧ o ∈ b.map.getTile v ∧ o.owner = q
    ∧ ownerOk b self pos v.z q = true

/-- What a ray accepts of the part it finds in a tile. -/
def RayPassable (b : Battle) (q : Nat) : Prop :=
  (b.part q).destroyed = false ∧ (b.part q).damaged = false ∧ (b.part q).falling = false

/-- A part without the two fields that `findSupport` writes. -/
def BattleMapPart.strip (p : BattleMapPart) : BattleMapPart :=
  { p with supportedParts := [], providesHardSupport := false }

/-- What a call to one of the steps 01 to 04 leaves: the parts `sups` on which
edges were registered, and what is known of them on each path. -/
structure Resolved (b : Battle) (self : Nat) (ty : BattleMapPartType) (pos : Vec3)
    (entry : Vec3 × PartType) (r : SupportResult) (sups : List Nat) : Prop where
  map_eq : r.battle.map = b.map
  strip_eq : ∀ q, (r.battle.part q).strip = (b.part q).strip
  edges : ∀ q, ∃ k, (r.battle.part q).supportedParts
      = (b.part q).supportedParts ++ List.replicate k entry ∧ (q ∉ sups → k = 0)
  path :
    match r.via with
    | .special => (∀ q ∈ sups, SpecialCandidate b self ty pos q) ∧ r.supported = true
        ∧ (r.battle.part self).providesHardSupport = (b.part self).providesHardSupport
    | .direction => (∀ q ∈ sups, Candidate b self pos q) ∧ r.supported = true
        ∧ (r.battle.part self).providesHardSupport = (b.part self).providesHardSupport
    | .cling => (∀ q ∈ sups, Candidate b self pos q) ∧ r.supported = true
        ∧ (r.battle.part self).providesHardSupport = false
    | .lineX => (∀ q ∈ sups, RayPassable b q) ∧ r.supported = true
        ∧ (r.battle.part self).providesHardSupport = false
    | .lineY => (∀ q ∈ sups, RayPassable b q) ∧ r.supported = true
        ∧ (r.battle.part self).providesHardSupport = false
    | .disappearedX => (∀ q ∈ sups, RayPassable b q) ∧ r.supported = false
        ∧ (r.battle.part self).providesHardSupport = false
    | .disappearedY => (∀ q ∈ sups, RayPassable b q) ∧ r.supported = false
        ∧ (r.battle.part self).providesHardSupport = false
    | .unsupported => sups = [] ∧ r.supported = false
        ∧ (r.battle.part self).providesHardSupport = false
    | .floating => False
    | .floor => False

/-- The battle on which steps 01 to 04 run. -/
def purged (b : Battle) (self : Nat) (ts : TileObjectBattleMapPart) : Battle :=
  cleanSupportProviders (b.modifyPart self (BattleMapPart.setHard true)) ts.owningTile
    (b.part self).type.type

/-! ## Countdowns under another `TICKS_MULTIPLIER`

The support code reads a countdown only to test whether it is positive, and
`queueCollapse` writes `TICKS_MULTIPLIER` plus a countdown.  So a run with
`TICKS_MULTIPLIER = m` is the run with `TICKS_MULTIPLIER = 1` with every
countdown multiplied by `m`, as long as no countdown overflows. -/

/-- A part with its countdown multiplied by `m`. -/
def BattleMapPart.scaleTicks (m : Nat) (p : BattleMapPart) : BattleMapPart :=
  { p with ticksUntilCollapse := p.ticksUntilCollapse * m }

/-- A battle with every countdown multiplied by `m`. -/
def Battle.scaleTicks (m : Nat) (b : Battle) : Battle :=
  { b with map_parts := b.map_parts.map (BattleMapPart.scaleTicks m) }

/-- An outcome of `findSupport` with every countdown multiplied by `m`. -/
def SupportResult.scaleTicks (m : Nat) (r : SupportResult) : SupportResult :=
  { r with battle := r.battle.scaleTicks m }

/-- A state of the relink loop with every countdown multiplied by `m`. -/
def RelinkState.scaleTicks (m : Nat) (st : RelinkState) : RelinkState :=
  { st with battle := st.battle.scaleTicks m }

/-- No countdown of the battle exceeds `N`. -/
def Battle.ticksBounded (N : Nat) (b : Battle) : Prop :=
  ∀ p ∈ b.map_parts, p.ticksUntilCollapse ≤ N

/-- The bound can be checked on a given battle. -/
instance Battle.decidableTicksBounded (N : Nat) (b : Battle) : Decidable (b.ticksBounded N) := by
  unfold Battle.ticksBounded
  infer_instance

/-- The largest countdown that one round of the relink loop with
`TICKS_MULTIPLIER = 1` can write when it starts with countdowns of at most `N`:
each part processed raises the bound by the number of parts it supports. -/
def roundCap (N : Nat) (st : RelinkState) : List Nat → Nat
  | [] => N
  | mp :: rest =>
    match getSupportedParts st.battle mp with
    | .error _ => N
    | .ok sup =>
      match relinkPart 1 st mp with
      | .error _ => N + sup.length
      | .ok st' => roundCap (N + sup.length) st' rest

/-- Well-formedness of the grid: every object listed in a tile is the tile
object of its owner, names that tile as its owning tile and has the tile
object type of the category of its owner. -/
def Battle.consistent (b : Battle) : Prop :=
  ∀ e ∈ b.map.tiles, ∀ o ∈ e.2,
    o.owningTile = e.1 ∧ (b.part o.owner).tileObject = some o
      ∧ o.type = convertType (b.part o.owner).type.type

/-- Well-formedness can be checked on a given battle. -/
instance Battle.decidableConsistent (b : Battle) : Decidable b.consistent := by
  unfold Battle.consistent
  infer_instance

/-! ## Example battles -/

/-- A type of the given category with no flag set but `provides_support`. -/
def plainType (t : PartType) : BattleMapPartType :=
  { type := t, floating := false, provides_support := true, supportedByAbove := false,
    supportedByDirections := [], supportedByTypes := [] }

/-- A part of a plain type standing in the tile `v`, with its tile object. -/
def placed (t : PartType) (i : Nat) (v : Vec3) (ticks : Nat) (hard : Bool)
    (sup : List (Vec3 × PartType)) : BattleMapPart :=
  { type := plainType t, position := v, ticksUntilCollapse := ticks, damaged := false,
    falling := false, destroyed := false, providesHardSupport := hard, supportedParts := sup,
    tileObject := some ⟨convertType t, i, v⟩ }

/-- The tiles of a list of parts: each part with a tile object alone in its tile. -/
def tilesOf (ps : List BattleMapPart) : List (Vec3 × List TileObjectBattleMapPart) :=
  ps.filterMap fun p => p.tileObject.map fun t => (t.owningTile, [t])

/-- A row of four Features at height 1 of a 4x3x2 map: part 0 and part 3 stand on
the Features 4 and 5 and provide hard support, part 2 is damaged and part 1 stood
on the Feature 6, which has just been destroyed.  The arguments are the fields
of parts 1 and 2 and the list of part 6 that change while supports are relinked. -/
def bridgeParts (ticks1 : Nat) (hard1 : Bool) (sup1 : List (Vec3 × PartType)) (ticks2 : Nat)
    (sup6 : List (Vec3 × PartType)) : List BattleMapPart :=
  [ placed .Feature 0 ⟨0, 1, 1⟩ 0 true [],
    placed .Feature 1 ⟨1, 1, 1⟩ ticks1 hard1 sup1,
    { placed .Feature 2 ⟨2, 1, 1⟩ ticks2 false [] with damaged := true },
    placed .Feature 3 ⟨3, 1, 1⟩ 0 true [(⟨2, 1, 1⟩, .Feature)],
    placed .Feature 4 ⟨0, 1, 0⟩ 0 true [(⟨0, 1, 1⟩, .Feature)],
    placed .Feature 5 ⟨3, 1, 0⟩ 0 true [(⟨3, 1, 1⟩, .Feature)],
    { placed .Feature 6 ⟨1, 1, 0⟩ 0 false sup6 with destroyed := true } ]

/-- The battle of a list of bridge parts. -/
def bridgeOf (ps : List BattleMapPart) : Battle :=
  { map := { size := ⟨4, 3, 2⟩, tiles := tilesOf ps }, map_parts := ps }

/-- The bridge when `ceaseSupportProvision` of part 6 calls
`attemptReLinkSupports` with the parts that part 6 supported, which is part 1. -/
def bridgeBattle : Battle :=
  bridgeOf (bridgeParts 0 true [(⟨2, 1, 1⟩, .Feature)] 0 [(⟨1, 1, 1⟩, .Feature)])

/-- The bridge at the start of the rounds in which the working set is parts 1
and 2, with the countdowns of `TICKS_MULTIPLIER = 1`. -/
def bridgeBoth : Battle :=
  bridgeOf (bridgeParts 1 false [] 2 [])

/-- The bridge at the start of the rounds in which the working set is part 1,
with the countdowns of `TICKS_MULTIPLIER = 1`. -/
def bridgeOne : Battle :=
  bridgeOf (bridgeParts 1 false [(⟨2, 1, 1⟩, .Feature)] 0 [])

/-- A terrace of three Ground parts at height 1 of a 4x5x2 map: parts 0 and 1
stood on the Feature 3 one level below, part 2 clings to parts 0 and 1, and the
Feature 4 stands one level below next to part 1.  Feature 3 has just been
destroyed.  The arguments are the fields that change while supports are relinked. -/
def terraceParts (ticks0 : Nat) (hard0 : Bool) (sup0 : List (Vec3 × PartType))
    (sup1 : List (Vec3 × PartType)) (sup3 sup4 : List (Vec3 × PartType)) : List BattleMapPart :=
  [ placed .Ground 0 ⟨1, 1, 1⟩ ticks0 hard0 sup0,
    placed .Ground 1 ⟨2, 2, 1⟩ 0 true sup1,
    placed .Ground 2 ⟨2, 1, 1⟩ 0 false [],
    { placed .Feature 3 ⟨1, 2, 0⟩ 0 false sup3 with destroyed := true },
    placed .Feature 4 ⟨2, 3, 0⟩ 0 true sup4 ]

/-- The battle of a list of terrace parts. -/
def terraceOf (ps : List BattleMapPart) : Battle :=
  { map := { size := ⟨4, 5, 2⟩, tiles := tilesOf ps }, map_parts := ps }

/-- The terrace when `ceaseSupportProvision` of part 3 calls
`attemptReLinkSupports` with the parts that part 3 supported, parts 0 and 1. -/
def terraceBattle : Battle :=
  terraceOf (terraceParts 0 true [(⟨2, 1, 1⟩, .Ground)] [(⟨2, 1, 1⟩, .Ground)]
    [(⟨1, 1, 1⟩, .Ground), (⟨2, 2, 1⟩, .Ground)] [])

/-- The terrace after the first round of the loop, with the countdowns of
`TICKS_MULTIPLIER = 1`. -/
def terraceMid : Battle :=
  terraceOf (terraceParts 1 false [] [(⟨2, 1, 1⟩, .Ground)] [] [(⟨2, 2, 1⟩, .Ground)])

/-- The terrace when `attemptReLinkSupports` returns, with the countdowns of
`TICKS_MULTIPLIER = 1`. -/
def terraceFinal : Battle :=
  terraceOf (terraceParts 1 false [] [] [] [(⟨2, 2, 1⟩, .Ground)])

/-- A 2x1x1 map with two Ground parts on the floor; part 1 holds an edge to part 0. -/
def floorBattle : Battle :=
  { map := { size := ⟨2, 1, 1⟩,
             tiles := tilesOf [placed .Ground 0 ⟨0, 0, 0⟩ 0 false [],
               placed .Ground 1 ⟨1, 0, 0⟩ 0 true [(⟨0, 0, 0⟩, .Ground)]] },
    map_parts := [placed .Ground 0 ⟨0, 0, 0⟩ 0 false [],
      placed .Ground 1 ⟨1, 0, 0⟩ 0 true [(⟨0, 0, 0⟩, .Ground)]] }

/-- A 3x3x3 map with one part of a floating Feature type in its middle. -/
def floatingBattle : Battle :=
  { map := { size := ⟨3, 3, 3⟩,
             tiles := [(⟨1, 1, 1⟩, [⟨.Feature, 0, ⟨1, 1, 1⟩⟩])] },
    map_parts := [{ placed .Feature 0 ⟨1, 1, 1⟩ 0 false [] with
      type := { plainType .Feature with floating := true } }] }

/-! ## More example battles -/

/-- A row of four parts of the category `t` at height 1, in the cells `cell 0 1`
to `cell 3 1`: part 0 and part 3 stand on the parts 4 and 5 and provide hard
support, part 2 is damaged and clings to parts 1 and 3, and part 1 stands on the
part `p6`.  The other arguments are the fields of parts 1 and 2 that change while
supports are relinked. -/
def rowParts (t : PartType) (cell : Int → Int → Vec3) (p6 : BattleMapPart) (ticks1 : Nat)
    (hard1 : Bool) (sup1 : List (Vec3 × PartType)) (ticks2 : Nat) : List BattleMapPart :=
  [ placed t 0 (cell 0 1) 0 true [],
    placed t 1 (cell 1 1) ticks1 hard1 sup1,
    { placed t 2 (cell 2 1) ticks2 false [] with damaged := true },
    placed t 3 (cell 3 1) 0 true [(cell 2 1, t)],
    placed t 4 (cell 0 0) 0 true [(cell 0 1, t)],
    placed t 5 (cell 3 0) 0 true [(cell 3 1, t)],
    p6 ]

/-- The cells of a row along X in the plane `y = 1`. -/
def alongX (i z : Int) : Vec3 := ⟨i, 1, z⟩

/-- The cells of a row along Y in the plane `x = 1`. -/
def alongY (i z : Int) : Vec3 := ⟨1, i, z⟩

/-- The type of a damaged Feature. -/
def damagedFeature : BattleMapPartType :=
  { plainType .Feature with id := 1 }

/-- A Feature type with a damaged variant. -/
def sturdyFeature : BattleMapPartType :=
  { plainType .Feature with damaged_map_part := some 1 }

/-- The battle of a list of parts in a 4x3x2 map, with the damaged Feature type
in the game state. -/
def rowBattleX (ps : List BattleMapPart) : Battle :=
  { map := { size := ⟨4, 3, 2⟩, tiles := tilesOf ps }, map_parts := ps,
    map_part_types := [damagedFeature] }

/-- The battle of a list of parts in a 3x4x2 map. -/
def rowBattleY (ps : List BattleMapPart) : Battle :=
  { map := { size := ⟨3, 4, 2⟩, tiles := tilesOf ps }, map_parts := ps }

/-- The Feature under part 1 of the row, of a type with a damaged variant. -/
def sturdyPart : BattleMapPart :=
  { placed .Feature 6 ⟨1, 1, 0⟩ 0 true [(⟨1, 1, 1⟩, .Feature)] with type := sturdyFeature }

/-- The row of Features in which the Feature under part 1 has a damaged variant. -/
def sturdyBridge : Battle :=
  rowBattleX (rowParts .Feature alongX sturdyPart 0 true [(⟨2, 1, 1⟩, .Feature)] 0)

/-- The row of Features in which the Feature under part 1 is about to collapse. -/
def pendingBridge : Battle :=
  rowBattleX (rowParts .Feature alongX (placed .Feature 6 ⟨1, 1, 0⟩ 1 false [(⟨1, 1, 1⟩, .Feature)])
    0 true [(⟨2, 1, 1⟩, .Feature)] 0)

/-- The row of Left Walls, along Y. -/
def wallBridge : Battle :=
  rowBattleY (rowParts .LeftWall alongY (placed .LeftWall 6 ⟨1, 1, 0⟩ 0 true [(⟨1, 1, 1⟩, .LeftWall)])
    0 true [(⟨1, 2, 1⟩, .LeftWall)] 0)

/-- The row of Features after `die` has replaced the type of part 6 by the damaged
variant; the arguments are the fields that change afterwards. -/
def sturdyState (hard6 : Bool) (sup6 : List (Vec3 × PartType)) (ticks1 : Nat) (hard1 : Bool)
    (sup1 : List (Vec3 × PartType)) (ticks2 : Nat) : Battle :=
  rowBattleX (rowParts .Feature alongX
    { sturdyPart with
      type := damagedFeature, damaged := true, providesHardSupport := hard6,
      supportedParts := sup6 }
    ticks1 hard1 sup1 ticks2)

/-- The row of Features after `collapse` has set part 6 falling; the arguments are
the fields that change afterwards. -/
def pendingState (sup6 : List (Vec3 × PartType)) (ticks1 : Nat) (hard1 : Bool)
    (sup1 : List (Vec3 × PartType)) (ticks2 : Nat) : Battle :=
  rowBattleX (rowParts .Feature alongX
    { placed .Feature 6 ⟨1, 1, 0⟩ 0 false sup6 with falling := true }
    ticks1 hard1 sup1 ticks2)

/-- The row of Left Walls after `die` has set part 6 destroyed; the arguments are
the fields that change afterwards. -/
def wallState (sup6 : List (Vec3 × PartType)) (ticks1 : Nat) (hard1 : Bool)
    (sup1 : List (Vec3 × PartType)) (ticks2 : Nat) : Battle :=
  rowBattleY (rowParts .LeftWall alongY
    { placed .LeftWall 6 ⟨1, 1, 0⟩ 0 false sup6 with destroyed := true }
    ticks1 hard1 sup1 ticks2)

/-- A 1x1x1 map with one Left Wall that is part of door 0; its type has id 0 and
its alternative type, the open door, has id 7. -/
def doorBattle : Battle :=
  { map := { size := ⟨1, 1, 1⟩, tiles := [(⟨0, 0, 0⟩, [⟨.LeftWall, 0, ⟨0, 0, 0⟩⟩])] },
    map_parts := [{ placed .LeftWall 0 ⟨0, 0, 0⟩ 0 true [] with
      alternative_type := some { plainType .LeftWall with id := 7 }, door := some 0 }],
    doors := [⟨[0]⟩] }

/-- A row of Features at height 1 of a 4x3x2 map, in the cells `(0, 1, 1)` to
`(3, 1, 1)`: parts 0 and 3 are the anchors, with `providesHardSupport` set, and
parts 1 and 2 are between them; part 2 is about to collapse.  `dmg0` is the
`damaged` flag of the anchor 0, and `under` puts a Feature, part 4, in the cell
under part 1. -/
def spanBattle (dmg0 : Bool) (under : Bool) : Battle :=
  let ps : List BattleMapPart :=
    [ { placed .Feature 0 ⟨0, 1, 1⟩ 0 true [] with damaged := dmg0 },
      placed .Feature 1 ⟨1, 1, 1⟩ 0 false [],
      placed .Feature 2 ⟨2, 1, 1⟩ 3 false [],
      placed .Feature 3 ⟨3, 1, 1⟩ 0 true [] ]
      ++ (if under then [placed .Feature 4 ⟨1, 1, 0⟩ 0 true []] else [])
  { map := { size := ⟨4, 3, 2⟩, tiles := tilesOf ps }, map_parts := ps }

/-- A 1x1x2 map, one column of two cells, with the given parts; each of the two
tiles owns the tile objects of the parts that name it, in the order of the
parts.  The game state holds the rubble types of id 5 and 6, of category Feature. -/
def shaftBattle (ps : List BattleMapPart) : Battle :=
  { map := { size := ⟨1, 1, 2⟩,
             tiles := ([⟨0, 0, 0⟩, ⟨0, 0, 1⟩] : List Vec3).map fun v =>
               (v, ps.filterMap fun p =>
                 match p.tileObject with
                 | some t => if t.owningTile = v then some t else none
                 | none => none) },
    map_parts := ps,
    map_part_types := [{ plainType .Feature with id := 5 }, { plainType .Feature with id := 6 }] }

/-- A falling Feature in the upper cell of the column, as part 0; the rubble of
its type is the type of id 5 and then the type of id 6. -/
def fallingFeature : BattleMapPart :=
  { placed .Feature 0 ⟨0, 0, 1⟩ 0 false [] with
    falling := true, type := { plainType .Feature with rubble := [5, 6] } }

/-- The falling Feature above a Ground part that stands in the lower cell. -/
def shaftOverGround : Battle :=
  shaftBattle [fallingFeature, placed .Ground 1 ⟨0, 0, 0⟩ 0 true []]

/-- The falling Feature in the cell of a Ground part, with nothing below. -/
def shaftOnGround : Battle :=
  shaftBattle [fallingFeature, placed .Ground 1 ⟨0, 0, 1⟩ 0 true []]

/-- The falling Feature alone in the lower cell of the column, with no part to
fall on. -/
def shaftAtFloor : Battle :=
  shaftBattle [{ fallingFeature with
    position := ⟨0, 0, 0⟩, tileObject := some ⟨.Feature, 0, ⟨0, 0, 0⟩⟩ }]

/-- The falling Feature in the cell of a live Feature of a plain type, which is
no rubble. -/
def shaftOnFeature : Battle :=
  shaftBattle [fallingFeature, placed .Feature 1 ⟨0, 0, 1⟩ 0 true []]

/-- The falling Feature in the cell of a Ground part and of a rubble of the first
stage, the type of id 5. -/
def shaftOnRubble : Battle :=
  shaftBattle [fallingFeature, placed .Ground 1 ⟨0, 0, 1⟩ 0 true [],
    { placed .Feature 2 ⟨0, 0, 1⟩ 0 false [] with type := { plainType .Feature with id := 5 } }]

/-- A Ground type whose destroyed-ground variant is the type of id 2; `dmg` is its
damaged variant. -/
def pavedGround (dmg : Option Nat) : BattleMapPartType :=
  { plainType .Ground with destroyed_ground_tile := some 2, damaged_map_part := dmg }

/-- A 1x1x1 map with one Ground part of the type `pavedGround dmg` on the floor;
`alt` is its alternative type and `door` its door.  The game state holds the
Ground types of id 1 and 2, and the battle one door made of the part. -/
def floorTile (dmg : Option Nat) (alt : Option BattleMapPartType) (door : Option Nat) : Battle :=
  { map := { size := ⟨1, 1, 1⟩, tiles := [(⟨0, 0, 0⟩, [⟨.Ground, 0, ⟨0, 0, 0⟩⟩])] },
    map_parts := [{ placed .Ground 0 ⟨0, 0, 0⟩ 0 true [] with
      type := pavedGround dmg, alternative_type := alt, door := door }],
    doors := [⟨[0]⟩],
    map_part_types := [{ plainType .Ground with id := 1 }, { plainType .Ground with id := 2 }] }

/-- A 3x3x2 map with two Ground parts at height 1: part 0 in the middle, of a type
supported by the directions North and East, and part 1 in the cell to the
north-east of it, `(2, 0, 1)`. -/
def diagonalBattle : Battle :=
  let ps : List BattleMapPart :=
    [ { placed .Ground 0 ⟨1, 1, 1⟩ 0 false [] with
        type := { plainType .Ground with supportedByDirections := [.North, .East] } },
      placed .Ground 1 ⟨2, 0, 1⟩ 0 true [] ]
  { map := { size := ⟨3, 3, 2⟩, tiles := tilesOf ps }, map_parts := ps }

/-- A Feature that stands on a live Ground part in the upper cell of the column,
with a countdown of 1. -/
def shaftPending : Battle :=
  shaftBattle [placed .Feature 0 ⟨0, 0, 1⟩ 1 false [], placed .Ground 1 ⟨0, 0, 1⟩ 0 true []]

/-- A 1x1x3 map, one column of three cells.  Part 0 is a Feature on the floor;
part 1 is a Ground part in the middle cell and part 2 a Feature that stands on
it; part 3 is a Feature in the upper cell with a countdown of 1.  No part is
falling or destroyed. -/
def towerBattle : Battle :=
  { map := { size := ⟨1, 1, 3⟩,
             tiles := [(⟨0, 0, 0⟩, [⟨.Feature, 0, ⟨0, 0, 0⟩⟩]),
               (⟨0, 0, 1⟩, [⟨.Ground, 1, ⟨0, 0, 1⟩⟩, ⟨.Feature, 2, ⟨0, 0, 1⟩⟩]),
               (⟨0, 0, 2⟩, [⟨.Feature, 3, ⟨0, 0, 2⟩⟩])] },
    map_parts :=
      [ placed .Feature 0 ⟨0, 0, 0⟩ 0 true [],
        placed .Ground 1 ⟨0, 0, 1⟩ 0 true [(⟨0, 0, 1⟩, .Feature)],
        placed .Feature 2 ⟨0, 0, 1⟩ 0 true [],
        placed .Feature 3 ⟨0, 0, 2⟩ 1 false [] ] }

/-- The terrace with the Ground parts 0 and 1 in the other order: part 0 is the
Ground part at `(2, 2, 1)` and part 1 the Ground part at `(1, 1, 1)`.  The grid
and the other parts are those of `terraceBattle`. -/
def terraceSwapped : Battle :=
  terraceOf
    [ placed .Ground 0 ⟨2, 2, 1⟩ 0 true [(⟨2, 1, 1⟩, .Ground)],
      placed .Ground 1 ⟨1, 1, 1⟩ 0 true [(⟨2, 1, 1⟩, .Ground)],
      placed .Ground 2 ⟨2, 1, 1⟩ 0 false [],
      { placed .Feature 3 ⟨1, 2, 0⟩ 0 false [(⟨1, 1, 1⟩, .Ground), (⟨2, 2, 1⟩, .Ground)] with
        destroyed := true },
      placed .Feature 4 ⟨2, 3, 0⟩ 0 true [] ]

/-- The column of `towerBattle` after part 3 has fallen into the middle cell.  The
arguments are the fields that change when the Ground part 1 dies: the list of
part 0, the `destroyed` flag, the hard support flag and the list of part 1, and
the hard support flag of the falling part 3. -/
def towerAfterFall (sup0 : List (Vec3 × PartType)) (dead1 hard1 : Bool)
    (sup1 : List (Vec3 × PartType)) (hard3 : Bool) : Battle :=
  { map := { size := ⟨1, 1, 3⟩,
             tiles := [(⟨0, 0, 0⟩, [⟨.Feature, 0, ⟨0, 0, 0⟩⟩]),
               (⟨0, 0, 1⟩, [⟨.Ground, 1, ⟨0, 0, 1⟩⟩, ⟨.Feature, 2, ⟨0, 0, 1⟩⟩,
                 ⟨.Feature, 3, ⟨0, 0, 1⟩⟩]),
               (⟨0, 0, 2⟩, [])] },
    map_parts :=
      [ placed .Feature 0 ⟨0, 0, 0⟩ 0 true sup0,
        { placed .Ground 1 ⟨0, 0, 1⟩ 0 hard1 sup1 with destroyed := dead1 },
        placed .Feature 2 ⟨0, 0, 1⟩ 0 true [],
        { placed .Feature 3 ⟨0, 0, 1⟩ 0 hard3 [] with falling := true } ] }

/-- The parts of the terrace in the order of `terraceSwapped`; the arguments are
the fields that change while supports are relinked. -/
def swappedParts (sup0 : List (Vec3 × PartType)) (ticks1 : Nat) (hard1 : Bool)
    (sup1 : List (Vec3 × PartType)) (ticks2 : Nat) (sup3 sup4 : List (Vec3 × PartType)) :
    List BattleMapPart :=
  [ placed .Ground 0 ⟨2, 2, 1⟩ 0 true sup0,
    placed .Ground 1 ⟨1, 1, 1⟩ ticks1 hard1 sup1,
    placed .Ground 2 ⟨2, 1, 1⟩ ticks2 false [],
    { placed .Feature 3 ⟨1, 2, 0⟩ 0 false sup3 with destroyed := true },
    placed .Feature 4 ⟨2, 3, 0⟩ 0 true sup4 ]

/-- A 2x1x2 map with a Left Wall at `(1, 0, 1)`, part 0, and a Ground part in the
cell to the west of it, `(0, 0, 1)`, part 1. -/
def wallBesideGround : Battle :=
  let ps : List BattleMapPart :=
    [ placed .LeftWall 0 ⟨1, 0, 1⟩ 0 false [], placed .Ground 1 ⟨0, 0, 1⟩ 0 true [] ]
  { map := { size := ⟨2, 1, 2⟩, tiles := tilesOf ps }, map_parts := ps }

/-! ## More notions used to state the properties -/

/-- A part without the fields in which the support of parts and items is kept:
the countdown, the hard support flag, the support list and `supportedItems`. -/
def BattleMapPart.core (p : BattleMapPart) : BattleMapPart :=
  { p with
    supportedParts := [], providesHardSupport := false, ticksUntilCollapse := 0,
    supportedItems := false }

/-- The battle `b2` has the grid of `b1` and differs from it at most in the
countdowns, hard support flags, support lists and `supportedItems` of the parts. -/
def Battle.sameCore (b1 b2 : Battle) : Prop :=
  b2.map = b1.map ∧ ∀ q, (b2.part q).core = (b1.part q).core

/-- Whether a ray accepts a part can be checked. -/
instance RayPassable.decidable (b : Battle) (q : Nat) : Decidable (RayPassable b q) := by
  unfold RayPassable
  infer_instance

/-- A straight row seen from the part `self`, which stands at the coordinate
`start` of the axis `cell`: the two anchors stand at `lo` and `hi`, on either side
of `start`; every tile of the row other than that of `self` holds a part of the
tile type that is neither destroyed, damaged nor falling, and the parts of the
tiles at `lo` and `hi` are other parts than `self` and have
`providesHardSupport` set. -/
def BridgeRow (b : Battle) (self : Nat) (tileType : TileObjectType) (cell : Int → Vec3)
    (lo start hi : Int) : Prop :=
  lo < start ∧ start < hi
    ∧ (∀ c, lo ≤ c → c ≤ hi → c ≠ start →
        ∃ q, lastOfType (b.map.getTile (cell c)) tileType = some q ∧ RayPassable b q)
    ∧ (∀ c, c = lo ∨ c = hi →
        ∃ q, lastOfType (b.map.getTile (cell c)) tileType = some q ∧ q ≠ self
          ∧ (b.part q).providesHardSupport = true)

/-- The number of directions of the tile type of the caller in which the
neighbour tile is inside the map and holds an object that step 03 accepts: an
object of the tile type, or a Feature when the caller is a wall, whose owner
passes the owner test. -/
def clingNeighbours (b : Battle) (self : Nat) (tileType : TileObjectType) (pos : Vec3) : Nat :=
  ((clingDirections tileType).filter fun dir =>
    !outOfBounds b.map ⟨pos.x + dir.x, pos.y + dir.y, pos.z + dir.z⟩
      && (b.map.getTile ⟨pos.x + dir.x, pos.y + dir.y, pos.z + dir.z⟩).any fun o =>
        (decide (o.type = tileType)
          || (decide (o.type = .Feature)
              && (decide (tileType = .LeftWall) || decide (tileType = .RightWall))))
        && ownerOk b self pos (pos.z + dir.z) o.owner).length

/-! ## Pointers and updates -/

theorem Battle.map_modifyPart (b : Battle) (i : Nat) (f : BattleMapPart → BattleMapPart) :
    (b.modifyPart i f).map = b.map := rfl

theorem Battle.length_modifyPart (b : Battle) (i : Nat) (f : BattleMapPart → BattleMapPart) :
    (b.modifyPart i f).map_parts.length = b.map_parts.length := by
  simp [Battle.modifyPart]

theorem Battle.part_of_length_le (b : Battle) (j : Nat) (h : b.map_parts.length ≤ j) :
    b.part j = default := by
  unfold Battle.part
  rw [List.getD_eq_getElem?_getD, List.getElem?_eq_none h]
  rfl

theorem Battle.part_modifyPart (b : Battle) (i j : Nat) (f : BattleMapPart → BattleMapPart) :
    (b.modifyPart i f).part j
      = if i = j ∧ j < b.map_parts.length then f (b.part j) else b.part j := by
  unfold Battle.part Battle.modifyPart
  simp only [List.getD_eq_getElem?_getD, List.getElem?_modify]
  by_cases hj : j < b.map_parts.length
  · rw [List.getElem?_eq_getElem hj]
    by_cases hi : i = j <;> simp [hi, hj]
  · rw [List.getElem?_eq_none (Nat.le_of_not_lt hj)]
    simp [hj]

theorem Battle.part_modifyPart_ne (b : Battle) (i j : Nat) (f : BattleMapPart → BattleMapPart)
    (h : i ≠ j) : (b.modifyPart i f).part j = b.part j := by
  rw [Battle.part_modifyPart]; simp [h]

theorem Battle.part_modifyPart_proj {γ : Type} (g : BattleMapPart → γ) (b : Battle) (i j : Nat)
    (f : BattleMapPart → BattleMapPart) (h : ∀ p, g (f p) = g p) :
    g ((b.modifyPart i f).part j) = g (b.part j) := by
  rw [Battle.part_modifyPart]
  split
  · exact h _
  · rfl

theorem Battle.map_modifyParts (b : Battle) (ids : List Nat) (f : BattleMapPart → BattleMapPart) :
    (b.modifyParts ids f).map = b.map := by
  unfold Battle.modifyParts
  induction ids generalizing b with
  | nil => rfl
  | cons i rest ih => simp only [List.foldl_cons]; rw [ih]; rfl

theorem Battle.length_modifyParts (b : Battle) (ids : List Nat)
    (f : BattleMapPart → BattleMapPart) :
    (b.modifyParts ids f).map_parts.length = b.map_parts.length := by
  unfold Battle.modifyParts
  induction ids generalizing b with
  | nil => rfl
  | cons i rest ih => simp only [List.foldl_cons]; rw [ih, Battle.length_modifyPart]

theorem Battle.modifyParts_cons (b : Battle) (i : Nat) (ids : List Nat)
    (f : BattleMapPart → BattleMapPart) :
    b.modifyParts (i :: ids) f = (b.modifyPart i f).modifyParts ids f := rfl

theorem Battle.modifyParts_append (b : Battle) (l₁ l₂ : List Nat)
    (f : BattleMapPart → BattleMapPart) :
    b.modifyParts (l₁ ++ l₂) f = (b.modifyParts l₁ f).modifyParts l₂ f := by
  unfold Battle.modifyParts
  rw [List.foldl_append]

theorem Battle.part_modifyParts_proj {γ : Type} (g : BattleMapPart → γ) (b : Battle)
    (ids : List Nat) (j : Nat) (f : BattleMapPart → BattleMapPart) (h : ∀ p, g (f p) = g p) :
    g ((b.modifyParts ids f).part j) = g (b.part j) := by
  induction ids generalizing b with
  | nil => rfl
  | cons i rest ih =>
    rw [Battle.modifyParts_cons, ih, Battle.part_modifyPart_proj g b i j f h]

theorem Battle.part_modifyParts_of_not_mem (b : Battle) (ids : List Nat) (j : Nat)
    (f : BattleMapPart → BattleMapPart) (h : j ∉ ids) :
    (b.modifyParts ids f).part j = b.part j := by
  induction ids generalizing b with
  | nil => rfl
  | cons i rest ih =>
    simp only [List.mem_cons, not_or] at h
    rw [Battle.modifyParts_cons, ih _ h.2, Battle.part_modifyPart_ne _ _ _ _ (Ne.symm h.1)]

/-- An idempotent update that fixes the default part acts on each listed part once. -/
theorem Battle.part_modifyParts_idem (b : Battle) (ids : List Nat) (j : Nat)
    (f : BattleMapPart → BattleMapPart) (hidem : ∀ p, f (f p) = f p)
    (hdef : f default = default) :
    (b.modifyParts ids f).part j = if j ∈ ids then f (b.part j) else b.part j := by
  induction ids generalizing b with
  | nil => simp [Battle.modifyParts]
  | cons i rest ih =>
    rw [Battle.modifyParts_cons, ih, Battle.part_modifyPart]
    by_cases hij : i = j
    · subst hij
      by_cases hlen : i < b.map_parts.length
      · simp [hlen, hidem]
      · have hd := b.part_of_length_le i (Nat.le_of_not_lt hlen)
        simp [hlen, hd, hdef]
    · have hji : ¬ j = i := fun e => hij e.symm
      simp [hij, hji]

/-- Registering an edge on each listed supporter appends the entry once for each
occurrence in the list. -/
theorem Battle.supportedParts_modifyParts_addSupported (b : Battle) (ids : List Nat) (j : Nat)
    (entry : Vec3 × PartType) :
    ∃ k, ((b.modifyParts ids (BattleMapPart.addSupported entry)).part j).supportedParts
      = (b.part j).supportedParts ++ List.replicate k entry ∧ (j ∉ ids → k = 0) := by
  induction ids generalizing b with
  | nil => exact ⟨0, by simp [Battle.modifyParts], fun _ => rfl⟩
  | cons i rest ih =>
    obtain ⟨k, hk, hk0⟩ := ih (b.modifyPart i (BattleMapPart.addSupported entry))
    rw [Battle.modifyParts_cons, hk, Battle.part_modifyPart]
    by_cases hc : i = j ∧ j < b.map_parts.length
    · refine ⟨k + 1, ?_, ?_⟩
      · simp only [hc, and_self, if_true, BattleMapPart.addSupported]
        rw [List.append_assoc]
        congr 1
      · intro hn
        exact absurd (hc.1 ▸ List.mem_cons_self i rest) hn
    · refine ⟨k, ?_, ?_⟩
      · simp only [hc, if_false]
      · intro hn
        exact hk0 (fun hm => hn (List.mem_cons_of_mem _ hm))

theorem BattleMapPart.eraseSupported_idem (pos : Vec3) (t : PartType) (p : BattleMapPart) :
    BattleMapPart.eraseSupported pos t (BattleMapPart.eraseSupported pos t p)
      = BattleMapPart.eraseSupported pos t p := by
  simp [BattleMapPart.eraseSupported, OpenApoc.eraseSupported, List.filter_filter]

theorem BattleMapPart.eraseSupported_default (pos : Vec3) (t : PartType) :
    BattleMapPart.eraseSupported pos t default = default := rfl

theorem foldl_modifyPart_owner (b : Battle) (tile : List TileObjectBattleMapPart)
    (f : BattleMapPart → BattleMapPart) :
    tile.foldl (fun b o => b.modifyPart o.owner f) b
      = b.modifyParts (tile.map fun o => o.owner) f := by
  unfold Battle.modifyParts
  rw [List.foldl_map]

theorem cleanSupportProviders_eq (b : Battle) (pos : Vec3) (t : PartType) :
    cleanSupportProviders b pos t
      = b.modifyParts (neighbourOwners b.map pos) (BattleMapPart.eraseSupported pos t) := by
  unfold cleanSupportProviders neighbourOwners
  generalize block pos = cs
  have key : ∀ (cs : List Vec3) (m : TileMap) (b : Battle), b.map = m →
      cs.foldl (fun b v => if outOfBounds b.map v then b
        else (b.map.getTile v).foldl
          (fun b o => b.modifyPart o.owner (BattleMapPart.eraseSupported pos t)) b) b
      = b.modifyParts (cs.flatMap fun v =>
          if outOfBounds m v then [] else (m.getTile v).map fun o => o.owner)
          (BattleMapPart.eraseSupported pos t) := by
    intro cs
    induction cs with
    | nil => intro m b _; rfl
    | cons v rest ih =>
      intro m b hm
      simp only [List.foldl_cons, List.flatMap_cons, Battle.modifyParts_append]
      rw [hm]
      by_cases ho : outOfBounds m v = true
      · simp only [ho, if_true]
        exact ih m b hm
      · simp only [ho, Bool.false_eq_true, if_false]
        rw [foldl_modifyPart_owner]
        exact ih m _ (by rw [Battle.map_modifyParts]; exact hm)
  exact key cs b.map b rfl

theorem checkSpecialConditions_some (b : Battle) (self : Nat) (ty : BattleMapPartType)
    (pos : Vec3) (mp : Nat) (h : checkSpecialConditions b self ty pos = some mp) :
    SpecialCandidate b self ty pos mp := by
  unfold checkSpecialConditions at h
  obtain ⟨v, _, hv⟩ := List.exists_of_findSome?_eq_some h
  by_cases ho : outOfBounds b.map v = true
  · simp [ho] at hv
  · simp only [ho, Bool.false_eq_true, if_false, Option.map_eq_some'] at hv
    obtain ⟨o, hfind, hown⟩ := hv
    have hp := List.find?_some hfind
    have hm := List.mem_of_find?_eq_some hfind
    simp only [Bool.and_eq_true] at hp
    refine ⟨v, o, by simpa using ho, hm, hown, hp.1, ?_⟩
    rw [← hown]; exact hp.2

theorem checkSupportedByDirection_some (b : Battle) (self : Nat) (tileType : TileObjectType)
    (ty : BattleMapPartType) (pos : Vec3) (mp : Nat)
    (h : checkSupportedByDirection b self tileType ty pos = some mp) :
    Candidate b self pos mp := by
  unfold checkSupportedByDirection at h
  obtain ⟨pair, _, hv⟩ := List.exists_of_findSome?_eq_some h
  by_cases ho : outOfBounds b.map pair.1 = true
  · simp [ho] at hv
  · simp only [ho, Bool.false_eq_true, if_false, Option.map_eq_some'] at hv
    obtain ⟨o, hfind, hown⟩ := hv
    have hp := List.find?_some hfind
    have hm := List.mem_of_find?_eq_some hfind
    simp only [Bool.and_eq_true] at hp
    refine ⟨pair.1, o, by simpa using ho, hm, hown, ?_⟩
    rw [← hown]; exact hp.2

theorem clingSupports_mem (b : Battle) (self : Nat) (tileType : TileObjectType) (pos : Vec3)
    (mp : Nat) (h : mp ∈ clingSupports b self tileType pos) : Candidate b self pos mp := by
  unfold clingSupports at h
  obtain ⟨dir, _, hv⟩ := List.mem_filterMap.1 h
  by_cases ho : outOfBounds b.map ⟨pos.x + dir.x, pos.y + dir.y, pos.z + dir.z⟩ = true
  · simp [ho] at hv
  · simp only [ho, Bool.false_eq_true, if_false, Option.map_eq_some'] at hv
    obtain ⟨o, hfind, hown⟩ := hv
    have hp := List.find?_some hfind
    have hm := List.mem_of_find?_eq_some hfind
    simp only [Bool.and_eq_true] at hp
    refine ⟨⟨pos.x + dir.x, pos.y + dir.y, pos.z + dir.z⟩, o, by simpa using ho, hm, hown, ?_⟩
    rw [← hown]; exact hp.2

theorem rayCells_inside (start inc size : Int) (h0 : ¬ start < 0) (h1 : ¬ start ≥ size) :
    ∃ rest, rayCells start inc size = start :: rest := by
  unfold rayCells
  simp only [h0, h1, decide_False, Bool.or_self, Bool.false_eq_true, if_false]
  have hpos : ∃ n, (if inc < 0 then start + 1 else size - start).toNat = n + 1 := by
    refine ⟨(if inc < 0 then start + 1 else size - start).toNat - 1, ?_⟩
    have : 0 < (if inc < 0 then start + 1 else size - start).toNat := by
      split <;> omega
    omega
  obtain ⟨n, hn⟩ := hpos
  rw [hn, List.range_succ_eq_map, List.map_cons]
  refine ⟨List.map (fun (k : Nat) => start + inc * (k : Int)) (List.map Nat.succ (List.range n)), ?_⟩
  congr 1
  simp

/-- A ray that starts inside the map and is found has met, in its first tile, a
part that is neither destroyed, damaged nor falling. -/
theorem rayFound_first (b : Battle) (tileType : TileObjectType) (cell : Int → Vec3)
    (start inc size : Int) (h0 : ¬ start < 0) (h1 : ¬ start ≥ size)
    (hf : rayFound b tileType cell (rayCells start inc size) = true) (mp : Nat)
    (hl : lastOfType (b.map.getTile (cell start)) tileType = some mp) : RayPassable b mp := by
  obtain ⟨rest, hr⟩ := rayCells_inside start inc size h0 h1
  rw [hr] at hf
  unfold rayFound at hf
  simp only [hl] at hf
  unfold RayPassable
  by_cases hbad : ((b.part mp).destroyed || (b.part mp).damaged || (b.part mp).falling) = true
  · simp [hbad] at hf
  · simp only [Bool.or_eq_true, not_or, Bool.not_eq_true] at hbad
    exact ⟨hbad.1.1, hbad.1.2, hbad.2⟩

/-- The loop that clings to the neighbours of a line registers the entry on
parts found in the in-bounds neighbour tiles, and does nothing else. -/
theorem clingToLine_spec (tileType : TileObjectType) (cell : Int → Vec3) (start size : Int)
    (entry : Vec3 × PartType) (incs : List Int) (b : Battle) :
    ∃ sups, (clingToLine tileType cell start size entry incs b).1
        = b.modifyParts sups (BattleMapPart.addSupported entry)
      ∧ ∀ q ∈ sups, ∃ inc ∈ incs, ¬ start + inc < 0 ∧ ¬ start + inc ≥ size
          ∧ lastOfType (b.map.getTile (cell (start + inc))) tileType = some q := by
  induction incs generalizing b with
  | nil => exact ⟨[], rfl, by simp⟩
  | cons inc rest ih =>
    unfold clingToLine
    by_cases ho : (decide (start + inc < 0) || decide (start + inc ≥ size)) = true
    · simp only [ho, if_true]
      obtain ⟨sups, hs, hq⟩ := ih b
      refine ⟨sups, hs, fun q hqm => ?_⟩
      obtain ⟨i, hi, h⟩ := hq q hqm
      exact ⟨i, List.mem_cons_of_mem _ hi, h⟩
    · simp only [ho, Bool.false_eq_true, if_false]
      simp only [Bool.or_eq_true, decide_eq_true_eq, not_or] at ho
      cases hl : lastOfType (b.map.getTile (cell (start + inc))) tileType with
      | none => exact ⟨[], rfl, by simp⟩
      | some mp =>
        simp only []
        obtain ⟨sups, hs, hq⟩ := ih (b.modifyPart mp (BattleMapPart.addSupported entry))
        refine ⟨mp :: sups, ?_, fun q hqm => ?_⟩
        · rw [hs]; rfl
        · rcases List.mem_cons.1 hqm with rfl | hqm
          · exact ⟨inc, List.mem_cons_self _ _, ho.1, ho.2, hl⟩
          · obtain ⟨i, hi, h⟩ := hq q hqm
            exact ⟨i, List.mem_cons_of_mem _ hi, h⟩

theorem ownerOk_congr (b₁ b₂ : Battle) (self : Nat) (pos : Vec3) (z : Int) (q : Nat)
    (h : (b₁.part q).strip = (b₂.part q).strip) :
    ownerOk b₁ self pos z q = ownerOk b₂ self pos z q := by
  have e : ∀ b : Battle, ownerOk b self pos z q
      = (decide (q ≠ self) && (b.part q).strip.isAlive
          && canSupportFrom (b.part q).strip z pos.z) := fun _ => rfl
  rw [e b₁, e b₂, h]

theorem specialOwnerOk_congr (b₁ b₂ : Battle) (self : Nat) (pos : Vec3) (z : Int) (q : Nat)
    (h : (b₁.part q).strip = (b₂.part q).strip) :
    specialOwnerOk b₁ self pos z q = specialOwnerOk b₂ self pos z q := by
  have e : ∀ b : Battle, specialOwnerOk b self pos z q
      = (decide (q ≠ self) && (b.part q).strip.isAlive && !(b.part q).strip.damaged
          && ((b.part q).strip.type.provides_support
              || decide ((b.part q).strip.type.type = .Ground) || decide (z ≤ pos.z))) :=
    fun _ => rfl
  rw [e b₁, e b₂, h]

theorem RayPassable_congr (b₁ b₂ : Battle) (q : Nat)
    (h : (b₁.part q).strip = (b₂.part q).strip) : RayPassable b₁ q → RayPassable b₂ q := by
  intro hp
  have e : ∀ b : Battle, RayPassable b q
      = ((b.part q).strip.destroyed = false ∧ (b.part q).strip.damaged = false
          ∧ (b.part q).strip.falling = false) := fun _ => rfl
  rw [e b₂, ← h, ← e b₁]; exact hp

theorem Candidate_congr (b₁ b₂ : Battle) (self : Nat) (pos : Vec3) (q : Nat)
    (hm : b₁.map = b₂.map) (h : (b₁.part q).strip = (b₂.part q).strip) :
    Candidate b₁ self pos q → Candidate b₂ self pos q := by
  rintro ⟨v, o, ho, hmem, hown, hok⟩
  exact ⟨v, o, hm ▸ ho, hm ▸ hmem, hown, (ownerOk_congr b₁ b₂ self pos v.z q h) ▸ hok⟩

theorem SpecialCandidate_congr (b₁ b₂ : Battle) (self : Nat) (ty : BattleMapPartType)
    (pos : Vec3) (q : Nat) (hm : b₁.map = b₂.map) (h : (b₁.part q).strip = (b₂.part q).strip) :
    SpecialCandidate b₁ self ty pos q → SpecialCandidate b₂ self ty pos q := by
  rintro ⟨v, o, ho, hmem, hown, hcan, hok⟩
  exact ⟨v, o, hm ▸ ho, hm ▸ hmem, hown, hcan,
    (specialOwnerOk_congr b₁ b₂ self pos v.z q h) ▸ hok⟩

theorem strip_modifyPart_addSupported (b : Battle) (i q : Nat) (entry : Vec3 × PartType) :
    ((b.modifyPart i (BattleMapPart.addSupported entry)).part q).strip = (b.part q).strip :=
  Battle.part_modifyPart_proj BattleMapPart.strip b i q _ (fun _ => rfl)

theorem strip_modifyParts_addSupported (b : Battle) (ids : List Nat) (q : Nat)
    (entry : Vec3 × PartType) :
    ((b.modifyParts ids (BattleMapPart.addSupported entry)).part q).strip = (b.part q).strip :=
  Battle.part_modifyParts_proj BattleMapPart.strip b ids q _ (fun _ => rfl)

theorem hard_modifyParts_addSupported (b : Battle) (ids : List Nat) (q : Nat)
    (entry : Vec3 × PartType) :
    ((b.modifyParts ids (BattleMapPart.addSupported entry)).part q).providesHardSupport
      = (b.part q).providesHardSupport :=
  Battle.part_modifyParts_proj BattleMapPart.providesHardSupport b ids q _ (fun _ => rfl)

/-- The part `self` after `providesHardSupport = v`. -/
theorem hard_modifyPart_set (b : Battle) (self q : Nat) (v : Bool) :
    ((b.modifyPart self (BattleMapPart.setHard v)).part q).providesHardSupport
      = if self = q ∧ q < b.map_parts.length then v else (b.part q).providesHardSupport := by
  rw [Battle.part_modifyPart]
  split <;> rfl

theorem hard_modifyPart_false_self (b : Battle) (self : Nat) :
    ((b.modifyPart self (BattleMapPart.setHard false)).part
      self).providesHardSupport = false := by
  rw [hard_modifyPart_set]
  split
  · rfl
  · rename_i h
    have hlen : b.map_parts.length ≤ self := by
      by_contra hc
      exact h ⟨rfl, Nat.lt_of_not_le hc⟩
    rw [b.part_of_length_le self hlen]
    rfl

theorem strip_modifyPart_set (b : Battle) (self q : Nat) (v : Bool) :
    ((b.modifyPart self (BattleMapPart.setHard v)).part q).strip
      = (b.part q).strip :=
  Battle.part_modifyPart_proj BattleMapPart.strip b self q _ (fun _ => rfl)

theorem supportedParts_modifyPart_set (b : Battle) (self q : Nat) (v : Bool) :
    ((b.modifyPart self (BattleMapPart.setHard v)).part q).supportedParts
      = (b.part q).supportedParts :=
  Battle.part_modifyPart_proj BattleMapPart.supportedParts b self q _ (fun _ => rfl)

/-- One axis of step 04: when both rays are found, the parts the loop clings to
are passable. -/
theorem clingToLine_passable (b : Battle) (tileType : TileObjectType) (cell : Int → Vec3)
    (start size : Int) (entry : Vec3 × PartType)
    (hf : lineFound b tileType cell start size = true) :
    ∃ sups, (clingToLine tileType cell start size entry [-1, 1] b).1
        = b.modifyParts sups (BattleMapPart.addSupported entry)
      ∧ ∀ q ∈ sups, RayPassable b q := by
  obtain ⟨sups, hs, hq⟩ := clingToLine_spec tileType cell start size entry [-1, 1] b
  refine ⟨sups, hs, fun q hqm => ?_⟩
  obtain ⟨inc, hinc, h0, h1, hl⟩ := hq q hqm
  unfold lineFound at hf
  simp only [Bool.and_eq_true] at hf
  simp only [List.mem_cons, List.mem_singleton, List.not_mem_nil, or_false] at hinc
  rcases hinc with rfl | rfl
  · exact rayFound_first b tileType cell (start + -1) (-1) size h0 h1 hf.1 q hl
  · exact rayFound_first b tileType cell (start + 1) 1 size h0 h1 hf.2 q hl

/-- Outcome of step 04 relative to the battle it starts from. -/
theorem shootSupportLines_spec (b : Battle) (ty : BattleMapPartType)
    (tileType : TileObjectType) (pos : Vec3) (entry : Vec3 × PartType) :
    ∃ sups, (shootSupportLines b ty tileType pos entry).battle
        = b.modifyParts sups (BattleMapPart.addSupported entry)
      ∧ (∀ q ∈ sups, RayPassable b q)
      ∧ (((shootSupportLines b ty tileType pos entry).via = .lineX
            ∧ (shootSupportLines b ty tileType pos entry).supported = true)
          ∨ ((shootSupportLines b ty tileType pos entry).via = .lineY
            ∧ (shootSupportLines b ty tileType pos entry).supported = true)
          ∨ ((shootSupportLines b ty tileType pos entry).via = .disappearedX
            ∧ (shootSupportLines b ty tileType pos entry).supported = false)
          ∨ ((shootSupportLines b ty tileType pos entry).via = .disappearedY
            ∧ (shootSupportLines b ty tileType pos entry).supported = false)
          ∨ ((shootSupportLines b ty tileType pos entry).via = .unsupported
            ∧ (shootSupportLines b ty tileType pos entry).supported = false
            ∧ sups = [])) := by
  unfold shootSupportLines
  simp only []
  split
  · rename_i hx
    simp only [Bool.and_eq_true] at hx
    obtain ⟨sups, hs, hq⟩ := clingToLine_passable b tileType (fun x => ⟨x, pos.y, pos.z⟩) pos.x
      b.map.size.x entry hx.2
    refine ⟨sups, ?_, hq, ?_⟩
    · split <;> exact hs
    · split
      · exact Or.inl ⟨rfl, rfl⟩
      · exact Or.inr (Or.inr (Or.inl ⟨rfl, rfl⟩))
  · split
    · rename_i hy
      simp only [Bool.and_eq_true] at hy
      obtain ⟨sups, hs, hq⟩ := clingToLine_passable b tileType (fun y => ⟨pos.x, y, pos.z⟩)
        pos.y b.map.size.y entry hy.2
      refine ⟨sups, ?_, hq, ?_⟩
      · split <;> exact hs
      · split
        · exact Or.inr (Or.inl ⟨rfl, rfl⟩)
        · exact Or.inr (Or.inr (Or.inr (Or.inl ⟨rfl, rfl⟩)))
    · exact ⟨[], rfl, by simp, Or.inr (Or.inr (Or.inr (Or.inr ⟨rfl, rfl, rfl⟩)))⟩

/-- The three facts about the parts that hold on every path: the map and the
stripped parts are those of `b`, and each list grew by copies of the entry. -/
theorem resolved_base (b : Battle) (self : Nat) (v : Bool) (sups : List Nat)
    (entry : Vec3 × PartType) (b' : Battle)
    (h : b' = (b.modifyPart self (BattleMapPart.setHard v)).modifyParts sups
      (BattleMapPart.addSupported entry)) :
    b'.map = b.map ∧ (∀ q, (b'.part q).strip = (b.part q).strip)
      ∧ ∀ q, ∃ k, (b'.part q).supportedParts
          = (b.part q).supportedParts ++ List.replicate k entry ∧ (q ∉ sups → k = 0) := by
  subst h
  refine ⟨by rw [Battle.map_modifyParts]; rfl, fun q => ?_, fun q => ?_⟩
  · rw [strip_modifyParts_addSupported, strip_modifyPart_set]
  · obtain ⟨k, hk, hk0⟩ := Battle.supportedParts_modifyParts_addSupported
      (b.modifyPart self (BattleMapPart.setHard v)) sups q entry
    exact ⟨k, by rw [hk, supportedParts_modifyPart_set], hk0⟩

theorem resolved_hard (b : Battle) (mp : Nat) (entry : Vec3 × PartType) :
    (b.modifyPart mp (BattleMapPart.addSupported entry)).map = b.map
      ∧ (∀ q, ((b.modifyPart mp (BattleMapPart.addSupported entry)).part q).strip
          = (b.part q).strip)
      ∧ ∀ q, ∃ k, ((b.modifyPart mp (BattleMapPart.addSupported entry)).part q).supportedParts
          = (b.part q).supportedParts ++ List.replicate k entry ∧ (q ∉ [mp] → k = 0) :=
  ⟨rfl, fun q => strip_modifyPart_addSupported b mp q entry,
    fun q => Battle.supportedParts_modifyParts_addSupported b [mp] q entry⟩

/-- Steps 01 to 04 register edges only as `Resolved` describes. -/
theorem resolveSupport_resolved (b : Battle) (self : Nat) (ty : BattleMapPartType)
    (tileType : TileObjectType) (pos : Vec3) (entry : Vec3 × PartType) :
    ∃ sups, Resolved b self ty pos entry (resolveSupport b self ty tileType pos entry) sups := by
  unfold resolveSupport
  cases h1 : checkSpecialConditions b self ty pos with
  | some mp =>
    simp only []
    obtain ⟨hm, hs, he⟩ := resolved_hard b mp entry
    refine ⟨[mp], ⟨hm, hs, he, ?_⟩⟩
    refine ⟨fun q hq => ?_, rfl, ?_⟩
    · rw [List.mem_singleton] at hq
      subst hq
      exact checkSpecialConditions_some b self ty pos q h1
    · exact Battle.part_modifyPart_proj BattleMapPart.providesHardSupport b mp self _
        (fun _ => rfl)
  | none =>
    simp only []
    cases h2 : (if ty.supportedByDirections.isEmpty then none
           else checkSupportedByDirection b self tileType ty pos) with
    | some mp =>
      simp only []
      obtain ⟨hm, hs, he⟩ := resolved_hard b mp entry
      refine ⟨[mp], ⟨hm, hs, he, ?_⟩⟩
      refine ⟨fun q hq => ?_, rfl, ?_⟩
      · rw [List.mem_singleton] at hq
        subst hq
        by_cases he : ty.supportedByDirections.isEmpty = true
        · simp [he] at h2
        · simp only [he, Bool.false_eq_true, if_false] at h2
          exact checkSupportedByDirection_some b self tileType ty pos q h2
      · exact Battle.part_modifyPart_proj BattleMapPart.providesHardSupport b mp self _
          (fun _ => rfl)
    | none =>
      simp only []
      split
      · obtain ⟨hm, hs, he⟩ := resolved_base b self false
          (clingSupports (b.modifyPart self (BattleMapPart.setHard false))
            self tileType pos) entry _ rfl
        refine ⟨_, ⟨hm, hs, he, ?_⟩⟩
        refine ⟨fun q hq => ?_, rfl, ?_⟩
        · exact Candidate_congr (b.modifyPart self (BattleMapPart.setHard false)) b self pos q rfl (strip_modifyPart_set b self q false)
            (clingSupports_mem _ self tileType pos q hq)
        · rw [hard_modifyParts_addSupported, hard_modifyPart_false_self]
      · obtain ⟨sups, hb, hpass, hvia⟩ := shootSupportLines_spec
          (b.modifyPart self (BattleMapPart.setHard false)) ty tileType pos
          entry
        obtain ⟨hm, hs, he⟩ := resolved_base b self false sups entry _ hb
        have hpass' : ∀ q ∈ sups, RayPassable b q := fun q hq =>
          RayPassable_congr _ b q (strip_modifyPart_set b self q false) (hpass q hq)
        have hhard : ((shootSupportLines
            (b.modifyPart self (BattleMapPart.setHard false)) ty tileType pos
            entry).battle.part self).providesHardSupport = false := by
          rw [hb, hard_modifyParts_addSupported, hard_modifyPart_false_self]
        refine ⟨sups, ⟨hm, hs, he, ?_⟩⟩
        rcases hvia with h | h | h | h | h
        · rw [h.1]; exact ⟨hpass', h.2, hhard⟩
        · rw [h.1]; exact ⟨hpass', h.2, hhard⟩
        · rw [h.1]; exact ⟨hpass', h.2, hhard⟩
        · rw [h.1]; exact ⟨hpass', h.2, hhard⟩
        · rw [h.1]; exact ⟨h.2.2, h.2.1, hhard⟩

/-! ## The shape of a call to `findSupport` -/

theorem strip_setHard_part (b : Battle) (self q : Nat) (v : Bool) :
    ((b.modifyPart self (BattleMapPart.setHard v)).part q).strip = (b.part q).strip :=
  Battle.part_modifyPart_proj BattleMapPart.strip b self q _ (fun _ => rfl)

theorem supportedParts_setHard_part (b : Battle) (self q : Nat) (v : Bool) :
    ((b.modifyPart self (BattleMapPart.setHard v)).part q).supportedParts
      = (b.part q).supportedParts :=
  Battle.part_modifyPart_proj BattleMapPart.supportedParts b self q _ (fun _ => rfl)

theorem part_ne_default_lt (b : Battle) (i : Nat) (h : b.part i ≠ default) :
    i < b.map_parts.length := by
  by_contra hc
  exact h (b.part_of_length_le i (Nat.le_of_not_lt hc))

theorem hard_setHard_self (b : Battle) (self : Nat) (v : Bool) (h : self < b.map_parts.length) :
    ((b.modifyPart self (BattleMapPart.setHard v)).part self).providesHardSupport = v := by
  rw [Battle.part_modifyPart]
  simp [h, BattleMapPart.setHard]

theorem findSupport_floating_eq (b : Battle) (self : Nat)
    (h : (b.part self).type.floating = true) :
    findSupport b self = .ok ⟨b.modifyPart self (BattleMapPart.setHard true), true, .floating⟩ := by
  have e := congrArg (fun p => p.type.floating) (strip_setHard_part b self self true)
  simp only [BattleMapPart.strip] at e
  unfold findSupport
  simp only [e, h, if_true]

theorem findSupport_floor_eq (b : Battle) (self : Nat) (ts : TileObjectBattleMapPart)
    (hf : (b.part self).type.floating = false) (hto : (b.part self).tileObject = some ts)
    (hz : ts.owningTile.z = 0) :
    findSupport b self = .ok ⟨b.modifyPart self (BattleMapPart.setHard true), true, .floor⟩ := by
  have e := congrArg (fun p => p.type.floating) (strip_setHard_part b self self true)
  have e2 := congrArg (fun p => p.tileObject) (strip_setHard_part b self self true)
  simp only [BattleMapPart.strip] at e e2
  unfold findSupport
  simp only [e, e2, hf, hto, hz, Bool.false_eq_true, if_false, decide_True, if_true]

theorem findSupport_resolve_eq (b : Battle) (self : Nat) (ts : TileObjectBattleMapPart)
    (hf : (b.part self).type.floating = false) (hto : (b.part self).tileObject = some ts)
    (hz : ts.owningTile.z ≠ 0) :
    findSupport b self = .ok (resolveSupport
      (cleanSupportProviders (b.modifyPart self (BattleMapPart.setHard true)) ts.owningTile
        (b.part self).type.type)
      self (b.part self).type ts.type ts.owningTile
      ((b.part self).position, (b.part self).type.type)) := by
  have e := congrArg (fun p => p.type) (strip_setHard_part b self self true)
  have e2 := congrArg (fun p => p.tileObject) (strip_setHard_part b self self true)
  have e3 := congrArg (fun p => p.position) (strip_setHard_part b self self true)
  simp only [BattleMapPart.strip] at e e2 e3
  unfold findSupport
  simp only [e, e2, e3, hf, hto, hz, Bool.false_eq_true, if_false, decide_False]

theorem strip_clean (b : Battle) (pos : Vec3) (t : PartType) (q : Nat) :
    ((cleanSupportProviders b pos t).part q).strip = (b.part q).strip := by
  rw [cleanSupportProviders_eq]
  exact Battle.part_modifyParts_proj BattleMapPart.strip b _ q _ (fun _ => rfl)

theorem hard_clean (b : Battle) (pos : Vec3) (t : PartType) (q : Nat) :
    ((cleanSupportProviders b pos t).part q).providesHardSupport
      = (b.part q).providesHardSupport := by
  rw [cleanSupportProviders_eq]
  exact Battle.part_modifyParts_proj BattleMapPart.providesHardSupport b _ q _ (fun _ => rfl)

theorem map_clean (b : Battle) (pos : Vec3) (t : PartType) :
    (cleanSupportProviders b pos t).map = b.map := by
  rw [cleanSupportProviders_eq, Battle.map_modifyParts]

/-- The purge erases the entries from the lists of the parts of the
neighbourhood and leaves the other lists alone. -/
theorem supportedParts_clean (b : Battle) (pos : Vec3) (t : PartType) (q : Nat) :
    ((cleanSupportProviders b pos t).part q).supportedParts
      = if q ∈ neighbourOwners b.map pos then eraseSupported pos t (b.part q).supportedParts
        else (b.part q).supportedParts := by
  rw [cleanSupportProviders_eq, Battle.part_modifyParts_idem b _ q _
    (BattleMapPart.eraseSupported_idem pos t) (BattleMapPart.eraseSupported_default pos t)]
  split <;> rfl

theorem supportedParts_clean_setHard (b : Battle) (self : Nat) (v : Bool) (pos : Vec3)
    (t : PartType) (q : Nat) :
    ((cleanSupportProviders (b.modifyPart self (BattleMapPart.setHard v)) pos t).part
      q).supportedParts = ((cleanSupportProviders b pos t).part q).supportedParts := by
  rw [supportedParts_clean, supportedParts_clean, supportedParts_setHard_part]
  rfl

theorem strip_purged (b : Battle) (self : Nat) (ts : TileObjectBattleMapPart) (q : Nat) :
    ((purged b self ts).part q).strip = (b.part q).strip := by
  unfold purged
  rw [strip_clean, strip_setHard_part]

theorem map_purged (b : Battle) (self : Nat) (ts : TileObjectBattleMapPart) :
    (purged b self ts).map = b.map := by
  unfold purged
  rw [map_clean]; rfl

/-- Every call either leaves through one of the two quick checks, having
written `providesHardSupport` only, or runs steps 01 to 04 on the purged battle. -/
theorem findSupport_cases (b : Battle) (self : Nat) (r : SupportResult)
    (hr : findSupport b self = .ok r) :
    (r = ⟨b.modifyPart self (BattleMapPart.setHard true), true, .floating⟩
        ∧ (b.part self).type.floating = true)
    ∨ (∃ ts, (b.part self).tileObject = some ts ∧ ts.owningTile.z = 0
        ∧ r = ⟨b.modifyPart self (BattleMapPart.setHard true), true, .floor⟩)
    ∨ (∃ ts, (b.part self).tileObject = some ts ∧ ts.owningTile.z ≠ 0
        ∧ (b.part self).type.floating = false
        ∧ r = resolveSupport (purged b self ts) self (b.part self).type ts.type ts.owningTile
            ((b.part self).position, (b.part self).type.type)) := by
  by_cases hf : (b.part self).type.floating = true
  · rw [findSupport_floating_eq b self hf] at hr
    exact Or.inl ⟨(Except.ok.inj hr).symm, hf⟩
  · have hf' : (b.part self).type.floating = false := by simpa using hf
    cases hto : (b.part self).tileObject with
    | none =>
      have e := congrArg (fun p => p.type.floating) (strip_setHard_part b self self true)
      have e2 := congrArg (fun p => p.tileObject) (strip_setHard_part b self self true)
      simp only [BattleMapPart.strip] at e e2
      unfold findSupport at hr
      simp only [e, e2, hf', hto, Bool.false_eq_true, if_false] at hr
      cases hr
    | some ts =>
      by_cases hz : ts.owningTile.z = 0
      · rw [findSupport_floor_eq b self ts hf' hto hz] at hr
        exact Or.inr (Or.inl ⟨ts, rfl, hz, (Except.ok.inj hr).symm⟩)
      · rw [findSupport_resolve_eq b self ts hf' hto hz] at hr
        exact Or.inr (Or.inr ⟨ts, rfl, hz, hf', (Except.ok.inj hr).symm⟩)

theorem BattleMapPart.isAlive_eq_true (p : BattleMapPart) (h : p.isAlive = true) :
    p.falling = false ∧ p.destroyed = false ∧ p.ticksUntilCollapse = 0 := by
  unfold BattleMapPart.isAlive BattleMapPart.willCollapse at h
  by_cases hc : (p.falling || p.destroyed || decide (p.ticksUntilCollapse > 0)) = true
  · simp [hc] at h
  · simp only [Bool.or_eq_true, decide_eq_true_eq, not_or, Bool.not_eq_true] at hc
    exact ⟨hc.1.1, hc.1.2, by omega⟩

theorem TileMap.mem_getTile (m : TileMap) (v : Vec3) (o : TileObjectBattleMapPart)
    (h : o ∈ m.getTile v) : ∃ e ∈ m.tiles, e.1 = v ∧ o ∈ e.2 := by
  unfold TileMap.getTile at h
  generalize m.tiles = ts at h
  induction ts with
  | nil => simp [List.lookup] at h
  | cons e rest ih =>
    obtain ⟨k, objs⟩ := e
    by_cases hk : v = k
    · subst hk
      simp only [List.lookup, beq_self_eq_true] at h
      exact ⟨(v, objs), List.mem_cons_self _ _, rfl, h⟩
    · have hb : (v == k) = false := by simpa using hk
      simp only [List.lookup, hb] at h
      obtain ⟨e', he', h'⟩ := ih h
      exact ⟨e', List.mem_cons_of_mem _ he', h'⟩

/-- In a well-formed grid the object found in a tile is the tile object of its owner. -/
theorem Battle.consistent_getTile (b : Battle) (hc : b.consistent) (v : Vec3)
    (o : TileObjectBattleMapPart) (h : o ∈ b.map.getTile v) :
    o.owningTile = v ∧ (b.part o.owner).tileObject = some o
      ∧ o.type = convertType (b.part o.owner).type.type := by
  obtain ⟨e, he, hv, ho⟩ := b.map.mem_getTile v o h
  have := hc e he o ho
  rw [hv] at this
  exact this

theorem canSupportSpecial_ground (ty : BattleMapPartType) (pos v : Vec3)
    (h : canSupportSpecial ty pos v .Ground = true) : v.z = pos.z := by
  unfold canSupportSpecial at h
  cases ht : ty.type <;> simp [ht] at h
  · exact h
  · exact h
  · exact h

/-- What the owner test of step 01 gives for a candidate found at height `z`. -/
theorem specialOwnerOk_spec (b : Battle) (self : Nat) (pos : Vec3) (z : Int) (q : Nat)
    (h : specialOwnerOk b self pos z q = true) :
    q ≠ self ∧ (b.part q).isAlive = true ∧ (b.part q).damaged = false
      ∧ ((b.part q).type.provides_support = true ∨ (b.part q).type.type = .Ground
          ∨ z ≤ pos.z) := by
  unfold specialOwnerOk at h
  simp only [Bool.and_eq_true, Bool.or_eq_true, decide_eq_true_eq, Bool.not_eq_true'] at h
  exact ⟨h.1.1.1, h.1.1.2, h.1.2, by tauto⟩

/-- What the owner test of steps 02 and 03 gives for a candidate found at height `z`. -/
theorem ownerOk_spec (b : Battle) (self : Nat) (pos : Vec3) (z : Int) (q : Nat)
    (h : ownerOk b self pos z q = true) :
    q ≠ self ∧ (b.part q).isAlive = true ∧ (b.part q).damaged = false
      ∧ ((b.part q).type.type ≠ .Ground ∨ z = pos.z)
      ∧ ((b.part q).type.provides_support = true ∨ z ≤ pos.z) := by
  unfold ownerOk canSupportFrom at h
  simp only [Bool.and_eq_true, Bool.or_eq_true, decide_eq_true_eq, Bool.not_eq_true'] at h
  exact ⟨h.1.1, h.1.2, h.2.1.1, h.2.1.2, h.2.2⟩

/-- The parts on which a call registers an edge, with what is known of them. -/
theorem findSupport_resolved (b : Battle) (self : Nat) (r : SupportResult)
    (ts : TileObjectBattleMapPart) (hr : findSupport b self = .ok r)
    (hto : (b.part self).tileObject = some ts)
    (hvia : r.via ≠ .floating ∧ r.via ≠ .floor) :
    ∃ sups, Resolved (purged b self ts) self (b.part self).type ts.owningTile
      ((b.part self).position, (b.part self).type.type) r sups := by
  rcases findSupport_cases b self r hr with h | ⟨ts', _, _, h⟩ | ⟨ts', hto', _, _, h⟩
  · rw [h.1] at hvia; exact absurd rfl hvia.1
  · rw [h] at hvia; exact absurd rfl hvia.2
  · rw [hto] at hto'
    cases hto'
    rw [h]
    exact resolveSupport_resolved _ _ _ _ _ _

/-- A part whose list after the call is not its list after the purge is one of
the parts on which the call registered an edge. -/
theorem Resolved.mem_of_new {b : Battle} {self : Nat} {ty : BattleMapPartType} {pos : Vec3}
    {entry : Vec3 × PartType} {r : SupportResult} {sups : List Nat}
    (R : Resolved b self ty pos entry r sups) (q : Nat)
    (hnew : (r.battle.part q).supportedParts ≠ (b.part q).supportedParts) : q ∈ sups := by
  by_contra hq
  obtain ⟨_, _, he, _⟩ := R
  obtain ⟨k, hk, hk0⟩ := he q
  rw [hk0 hq] at hk
  simp at hk
  exact hnew hk

theorem queueSupported_proj {γ : Type} (g : BattleMapPart → γ)
    (hg : ∀ TM d p, g ({ BattleMapPart.queueCollapse TM d p with
        providesHardSupport := false }) = g p)
    (TM : Nat) (b : Battle) (mp : Nat) (sup : List Nat) (q : Nat) :
    g ((queueSupported TM b mp sup).part q) = g (b.part q) := by
  unfold queueSupported
  induction sup generalizing b with
  | nil => rfl
  | cons i rest ih =>
    simp only [List.foldl_cons]
    rw [ih]
    exact Battle.part_modifyPart_proj g b i q _ (fun p => hg _ _ p)

theorem BattleMapPart.cancelCollapse_idem (p : BattleMapPart) :
    p.cancelCollapse.cancelCollapse = p.cancelCollapse := rfl

theorem BattleMapPart.cancelCollapse_default :
    (default : BattleMapPart).cancelCollapse = default := rfl

theorem ticks_modifyPart_cancel_self (b : Battle) (mp : Nat) :
    ((b.modifyPart mp BattleMapPart.cancelCollapse).part mp).ticksUntilCollapse = 0 := by
  rw [Battle.part_modifyPart]
  split
  · rfl
  · rename_i h
    have hlen : b.map_parts.length ≤ mp := by
      by_contra hc
      exact h ⟨rfl, Nat.lt_of_not_le hc⟩
    rw [b.part_of_length_le mp hlen]
    rfl

theorem ticks_modifyParts_cancel (b : Battle) (sup : List Nat) (q : Nat) :
    ((b.modifyParts sup BattleMapPart.cancelCollapse).part q).ticksUntilCollapse
      = if q ∈ sup then 0 else (b.part q).ticksUntilCollapse := by
  rw [Battle.part_modifyParts_idem b sup q _ BattleMapPart.cancelCollapse_idem
    BattleMapPart.cancelCollapse_default]
  split <;> rfl

/-- A part on which an edge was registered was alive when steps 01 to 03 chose
it, or passable when step 04 chose it. -/
theorem Resolved.supporter {b : Battle} {self : Nat} {ty : BattleMapPartType} {pos : Vec3}
    {entry : Vec3 × PartType} {r : SupportResult} {sups : List Nat}
    (R : Resolved b self ty pos entry r sups) (q : Nat) (hq : q ∈ sups) :
    ((r.via = .special ∨ r.via = .direction ∨ r.via = .cling) ∧ (b.part q).isAlive = true)
    ∨ ((r.via = .lineX ∨ r.via = .lineY ∨ r.via = .disappearedX ∨ r.via = .disappearedY)
        ∧ RayPassable b q) := by
  obtain ⟨_, _, _, hp⟩ := R
  cases hv : r.via with
  | floating => rw [hv] at hp; exact hp.elim
  | floor => rw [hv] at hp; exact hp.elim
  | special =>
    rw [hv] at hp
    obtain ⟨v, o, _, _, _, _, hok⟩ := hp.1 q hq
    exact Or.inl ⟨Or.inl rfl, (specialOwnerOk_spec b self pos v.z q hok).2.1⟩
  | direction =>
    rw [hv] at hp
    obtain ⟨v, o, _, _, _, hok⟩ := hp.1 q hq
    exact Or.inl ⟨Or.inr (Or.inl rfl), (ownerOk_spec b self pos v.z q hok).2.1⟩
  | cling =>
    rw [hv] at hp
    obtain ⟨v, o, _, _, _, hok⟩ := hp.1 q hq
    exact Or.inl ⟨Or.inr (Or.inr rfl), (ownerOk_spec b self pos v.z q hok).2.1⟩
  | lineX => rw [hv] at hp; exact Or.inr ⟨Or.inl rfl, hp.1 q hq⟩
  | lineY => rw [hv] at hp; exact Or.inr ⟨Or.inr (Or.inl rfl), hp.1 q hq⟩
  | disappearedX => rw [hv] at hp; exact Or.inr ⟨Or.inr (Or.inr (Or.inl rfl)), hp.1 q hq⟩
  | disappearedY => rw [hv] at hp; exact Or.inr ⟨Or.inr (Or.inr (Or.inr rfl)), hp.1 q hq⟩
  | unsupported =>
    rw [hv] at hp
    rw [hp.1] at hq
    exact absurd hq (List.not_mem_nil q)

/-- The list of a part after a call: the list before the call when the call left
through a quick check; otherwise the list after the purge, with copies of the
entry appended when the part is one of those on which an edge was registered. -/
theorem findSupport_lists (b : Battle) (self : Nat) (r : SupportResult)
    (hr : findSupport b self = .ok r) (q : Nat) :
    ((r.via = .floating ∨ r.via = .floor)
        ∧ (r.battle.part q).supportedParts = (b.part q).supportedParts)
    ∨ ∃ ts sups, (b.part self).tileObject = some ts
        ∧ Resolved (purged b self ts) self (b.part self).type ts.owningTile
            ((b.part self).position, (b.part self).type.type) r sups
        ∧ (q ∉ sups → (r.battle.part q).supportedParts
            = ((cleanSupportProviders b ts.owningTile (b.part self).type.type).part
                q).supportedParts) := by
  rcases findSupport_cases b self r hr with h | ⟨ts, _, _, h⟩ | ⟨ts, hto, _, _, h⟩
  · refine Or.inl ⟨Or.inl (by rw [h.1]), ?_⟩
    rw [h.1]; exact supportedParts_setHard_part b self q true
  · refine Or.inl ⟨Or.inr (by rw [h]), ?_⟩
    rw [h]; exact supportedParts_setHard_part b self q true
  · obtain ⟨sups, R⟩ := resolveSupport_resolved (purged b self ts) self (b.part self).type
      ts.type ts.owningTile ((b.part self).position, (b.part self).type.type)
    rw [← h] at R
    refine Or.inr ⟨ts, sups, hto, R, fun hq => ?_⟩
    obtain ⟨_, _, he, _⟩ := R
    obtain ⟨k, hk, hk0⟩ := he q
    rw [hk, hk0 hq]
    unfold purged
    rw [supportedParts_clean_setHard]
    simp

theorem mem_neighbourOwners (m : TileMap) (pos v : Vec3) (o : TileObjectBattleMapPart)
    (hv : v ∈ block pos) (hb : outOfBounds m v = false) (ho : o ∈ m.getTile v) :
    o.owner ∈ neighbourOwners m pos := by
  unfold neighbourOwners
  rw [List.mem_flatMap]
  refine ⟨v, hv, ?_⟩
  simp only [hb, Bool.false_eq_true, if_false, List.mem_map]
  exact ⟨o, ho, rfl⟩

theorem BattleMapPart.scaleTicks_default (m : Nat) :
    (default : BattleMapPart).scaleTicks m = default := by
  unfold BattleMapPart.scaleTicks
  have h : (default : BattleMapPart).ticksUntilCollapse = 0 := rfl
  rw [h, Nat.zero_mul]
  rfl

theorem Battle.part_scaleTicks (m : Nat) (b : Battle) (q : Nat) :
    (b.scaleTicks m).part q = (b.part q).scaleTicks m := by
  unfold Battle.part Battle.scaleTicks
  simp only []
  rw [← BattleMapPart.scaleTicks_default m, List.getD_map, BattleMapPart.scaleTicks_default]

theorem Battle.map_scaleTicks (m : Nat) (b : Battle) : (b.scaleTicks m).map = b.map := rfl

theorem BattleMapPart.isAlive_scaleTicks (m : Nat) (hm : 0 < m) (p : BattleMapPart) :
    (p.scaleTicks m).isAlive = p.isAlive := by
  unfold BattleMapPart.isAlive BattleMapPart.willCollapse BattleMapPart.scaleTicks
  simp only []
  have h : decide (p.ticksUntilCollapse * m > 0) = decide (p.ticksUntilCollapse > 0) := by
    by_cases hp : p.ticksUntilCollapse > 0
    · have : p.ticksUntilCollapse * m > 0 := Nat.mul_pos hp hm
      simp [hp, this]
    · have h0 : p.ticksUntilCollapse = 0 := by omega
      simp [h0]
  rw [h]

/-- An update that commutes with the scaling of one part commutes with the
scaling of the battle. -/
theorem Battle.modifyPart_scaleTicks (m : Nat) (b : Battle) (i : Nat)
    (f g : BattleMapPart → BattleMapPart)
    (h : ∀ p, f (p.scaleTicks m) = (g p).scaleTicks m) :
    (b.scaleTicks m).modifyPart i f = (b.modifyPart i g).scaleTicks m := by
  unfold Battle.modifyPart Battle.scaleTicks
  simp only [Battle.mk.injEq, true_and, and_true]
  apply List.ext_getElem?
  intro n
  simp only [List.getElem?_modify, List.getElem?_map]
  cases b.map_parts[n]? with
  | none => rfl
  | some p =>
    by_cases hi : i = n
    · simp [hi, h]
    · simp [hi]

theorem Battle.modifyParts_scaleTicks (m : Nat) (b : Battle) (ids : List Nat)
    (f g : BattleMapPart → BattleMapPart)
    (h : ∀ p, f (p.scaleTicks m) = (g p).scaleTicks m) :
    (b.scaleTicks m).modifyParts ids f = (b.modifyParts ids g).scaleTicks m := by
  induction ids generalizing b with
  | nil => rfl
  | cons i rest ih =>
    rw [Battle.modifyParts_cons, Battle.modifyParts_cons, Battle.modifyPart_scaleTicks m b i f g h,
      ih]

theorem specialOwnerOk_scaleTicks (m : Nat) (hm : 0 < m) (b : Battle) (self : Nat) (pos : Vec3) :
    specialOwnerOk (b.scaleTicks m) self pos = specialOwnerOk b self pos := by
  funext z q
  unfold specialOwnerOk
  rw [Battle.part_scaleTicks, BattleMapPart.isAlive_scaleTicks m hm]
  rfl

theorem ownerOk_scaleTicks (m : Nat) (hm : 0 < m) (b : Battle) (self : Nat) (pos : Vec3) :
    ownerOk (b.scaleTicks m) self pos = ownerOk b self pos := by
  funext z q
  unfold ownerOk
  rw [Battle.part_scaleTicks, BattleMapPart.isAlive_scaleTicks m hm]
  rfl

theorem checkSpecialConditions_scaleTicks (m : Nat) (hm : 0 < m) (b : Battle) (self : Nat)
    (ty : BattleMapPartType) (pos : Vec3) :
    checkSpecialConditions (b.scaleTicks m) self ty pos = checkSpecialConditions b self ty pos := by
  unfold checkSpecialConditions
  rw [specialOwnerOk_scaleTicks m hm, Battle.map_scaleTicks]

theorem checkSupportedByDirection_scaleTicks (m : Nat) (hm : 0 < m) (b : Battle) (self : Nat)
    (tileType : TileObjectType) (ty : BattleMapPartType) (pos : Vec3) :
    checkSupportedByDirection (b.scaleTicks m) self tileType ty pos
      = checkSupportedByDirection b self tileType ty pos := by
  unfold checkSupportedByDirection
  rw [ownerOk_scaleTicks m hm, Battle.map_scaleTicks]

theorem clingSupports_scaleTicks (m : Nat) (hm : 0 < m) (b : Battle) (self : Nat)
    (tileType : TileObjectType) (pos : Vec3) :
    clingSupports (b.scaleTicks m) self tileType pos = clingSupports b self tileType pos := by
  unfold clingSupports
  rw [ownerOk_scaleTicks m hm, Battle.map_scaleTicks]

theorem rayFound_scaleTicks (m : Nat) (b : Battle) (tileType : TileObjectType)
    (cell : Int → Vec3) (cs : List Int) :
    rayFound (b.scaleTicks m) tileType cell cs = rayFound b tileType cell cs := by
  induction cs with
  | nil => rfl
  | cons c rest ih =>
    unfold rayFound
    rw [Battle.map_scaleTicks]
    cases lastOfType (b.map.getTile (cell c)) tileType with
    | none => rfl
    | some mp =>
      simp only [Battle.part_scaleTicks, ih]
      rfl

theorem lineFound_scaleTicks (m : Nat) (b : Battle) (tileType : TileObjectType)
    (cell : Int → Vec3) (start size : Int) :
    lineFound (b.scaleTicks m) tileType cell start size = lineFound b tileType cell start size := by
  unfold lineFound
  rw [rayFound_scaleTicks, rayFound_scaleTicks]

theorem clingToLine_scaleTicks (m : Nat) (tileType : TileObjectType) (cell : Int → Vec3)
    (start size : Int) (entry : Vec3 × PartType) (incs : List Int) (b : Battle) :
    clingToLine tileType cell start size entry incs (b.scaleTicks m)
      = (((clingToLine tileType cell start size entry incs b).1).scaleTicks m,
          (clingToLine tileType cell start size entry incs b).2) := by
  induction incs generalizing b with
  | nil => rfl
  | cons inc rest ih =>
    unfold clingToLine
    split
    · exact ih b
    · rw [Battle.map_scaleTicks]
      cases lastOfType (b.map.getTile (cell (start + inc))) tileType with
      | none => rfl
      | some mp =>
        simp only []
        rw [Battle.modifyPart_scaleTicks m b mp _ (BattleMapPart.addSupported entry)
          (fun _ => rfl)]
        exact ih _

theorem shootSupportLines_scaleTicks (m : Nat) (b : Battle) (ty : BattleMapPartType)
    (tileType : TileObjectType) (pos : Vec3) (entry : Vec3 × PartType) :
    shootSupportLines (b.scaleTicks m) ty tileType pos entry
      = (shootSupportLines b ty tileType pos entry).scaleTicks m := by
  unfold shootSupportLines
  simp only [lineFound_scaleTicks, clingToLine_scaleTicks, Battle.map_scaleTicks]
  split
  · split <;> rfl
  · split
    · split <;> rfl
    · rfl

theorem resolveSupport_scaleTicks (m : Nat) (hm : 0 < m) (b : Battle) (self : Nat)
    (ty : BattleMapPartType) (tileType : TileObjectType) (pos : Vec3)
    (entry : Vec3 × PartType) :
    resolveSupport (b.scaleTicks m) self ty tileType pos entry
      = (resolveSupport b self ty tileType pos entry).scaleTicks m := by
  unfold resolveSupport
  rw [checkSpecialConditions_scaleTicks m hm, checkSupportedByDirection_scaleTicks m hm]
  cases checkSpecialConditions b self ty pos with
  | some mp =>
    simp only []
    rw [Battle.modifyPart_scaleTicks m b mp _ (BattleMapPart.addSupported entry) (fun _ => rfl)]
    rfl
  | none =>
    simp only []
    cases (if ty.supportedByDirections.isEmpty then none
           else checkSupportedByDirection b self tileType ty pos) with
    | some mp =>
      simp only []
      rw [Battle.modifyPart_scaleTicks m b mp _ (BattleMapPart.addSupported entry)
        (fun _ => rfl)]
      rfl
    | none =>
      simp only []
      rw [Battle.modifyPart_scaleTicks m b self _ (BattleMapPart.setHard false) (fun _ => rfl),
        clingSupports_scaleTicks m hm]
      have hc : ∀ (b : Battle) (l : List Nat), clingCount (b.scaleTicks m) l pos
          = clingCount b l pos := fun _ _ => rfl
      rw [hc]
      split
      · rw [Battle.modifyParts_scaleTicks m _ _ _ (BattleMapPart.addSupported entry)
          (fun _ => rfl)]
        rfl
      · exact shootSupportLines_scaleTicks m _ ty tileType pos entry

theorem cleanSupportProviders_scaleTicks (m : Nat) (b : Battle) (pos : Vec3) (t : PartType) :
    cleanSupportProviders (b.scaleTicks m) pos t = (cleanSupportProviders b pos t).scaleTicks m := by
  rw [cleanSupportProviders_eq, cleanSupportProviders_eq, Battle.map_scaleTicks,
    Battle.modifyParts_scaleTicks m b _ _ (BattleMapPart.eraseSupported pos t) (fun _ => rfl)]

/-- A call of `findSupport` on the scaled battle is the scaled call. -/
theorem findSupport_scaleTicks (m : Nat) (hm : 0 < m) (b : Battle) (self : Nat) :
    findSupport (b.scaleTicks m) self = (findSupport b self).map (SupportResult.scaleTicks m) := by
  unfold findSupport
  simp only []
  rw [Battle.modifyPart_scaleTicks m b self _ (BattleMapPart.setHard true) (fun _ => rfl),
    Battle.part_scaleTicks]
  have e1 : ∀ p : BattleMapPart, (p.scaleTicks m).type = p.type := fun _ => rfl
  have e2 : ∀ p : BattleMapPart, (p.scaleTicks m).tileObject = p.tileObject := fun _ => rfl
  have e3 : ∀ p : BattleMapPart, (p.scaleTicks m).position = p.position := fun _ => rfl
  rw [e1, e2, e3]
  split
  · rfl
  · cases ((b.modifyPart self (BattleMapPart.setHard true)).part self).tileObject with
    | none => rfl
    | some ts =>
      simp only []
      split
      · rfl
      · rw [cleanSupportProviders_scaleTicks, resolveSupport_scaleTicks m hm]
        rfl

theorem getSupportedParts_scaleTicks (m : Nat) (b : Battle) (self : Nat) :
    getSupportedParts (b.scaleTicks m) self = getSupportedParts b self := by
  unfold getSupportedParts
  rw [Battle.part_scaleTicks, Battle.map_scaleTicks]
  rfl

theorem owningTilePosition_scaleTicks (m : Nat) (b : Battle) :
    owningTilePosition (b.scaleTicks m) = owningTilePosition b := by
  funext mp
  unfold owningTilePosition
  rw [Battle.part_scaleTicks]
  rfl

theorem Battle.ticksBounded_part (N : Nat) (b : Battle) (h : b.ticksBounded N) (q : Nat) :
    (b.part q).ticksUntilCollapse ≤ N := by
  by_cases hq : q < b.map_parts.length
  · unfold Battle.part
    rw [List.getD_eq_getElem?_getD, List.getElem?_eq_getElem hq]
    exact h _ (List.getElem_mem hq)
  · rw [b.part_of_length_le q (Nat.le_of_not_lt hq)]
    exact Nat.zero_le _

theorem Battle.ticksBounded_mono (N M : Nat) (b : Battle) (h : b.ticksBounded N) (hNM : N ≤ M) :
    b.ticksBounded M := fun p hp => Nat.le_trans (h p hp) hNM

/-- An update that keeps the countdown of a part within the bound keeps the
battle within the bound. -/
theorem Battle.ticksBounded_modifyPart (N : Nat) (b : Battle) (h : b.ticksBounded N) (i : Nat)
    (f : BattleMapPart → BattleMapPart)
    (hf : ∀ p, p.ticksUntilCollapse ≤ N → (f p).ticksUntilCollapse ≤ N) :
    (b.modifyPart i f).ticksBounded N := by
  intro p hp
  unfold Battle.modifyPart at hp
  simp only [] at hp
  obtain ⟨n, hn, hget⟩ := List.getElem_of_mem hp
  rw [List.getElem_modify] at hget
  rw [List.length_modify] at hn
  split at hget
  · rw [← hget]; exact hf _ (h _ (List.getElem_mem hn))
  · rw [← hget]; exact h _ (List.getElem_mem hn)

theorem Battle.ticksBounded_modifyParts (N : Nat) (b : Battle) (h : b.ticksBounded N)
    (ids : List Nat) (f : BattleMapPart → BattleMapPart)
    (hf : ∀ p, p.ticksUntilCollapse ≤ N → (f p).ticksUntilCollapse ≤ N) :
    (b.modifyParts ids f).ticksBounded N := by
  induction ids generalizing b with
  | nil => exact h
  | cons i rest ih =>
    rw [Battle.modifyParts_cons]
    exact ih _ (Battle.ticksBounded_modifyPart N b h i f hf)

/-- Queuing what a part supports, on the scaled battle with `TICKS_MULTIPLIER = m`,
is the scaled queuing with `TICKS_MULTIPLIER = 1`, and raises the bound by at
most one for each part queued. -/
theorem queueSupported_scaleTicks (m : Nat) (mp : Nat) (sup : List Nat) (N : Nat) (b : Battle)
    (hb : b.ticksBounded N) (hlt : (N + sup.length) * m < 4294967296) (hm : 0 < m) :
    queueSupported m (b.scaleTicks m) mp sup = (queueSupported 1 b mp sup).scaleTicks m
      ∧ (queueSupported 1 b mp sup).ticksBounded (N + sup.length) := by
  induction sup generalizing b N with
  | nil => exact ⟨rfl, by simpa using hb⟩
  | cons i rest ih =>
    have hd := Battle.ticksBounded_part N b hb mp
    have hlen : (i :: rest).length = rest.length + 1 := rfl
    rw [hlen] at hlt
    have hN1 : (N + 1) * m < 4294967296 := by
      have : (N + 1) * m ≤ (N + (rest.length + 1)) * m := Nat.mul_le_mul_right m (by omega)
      omega
    have hN1' : N + 1 < 4294967296 := by
      have : N + 1 ≤ (N + 1) * m := Nat.le_mul_of_pos_right (N + 1) hm
      omega
    have hmod1 : (1 + (b.part mp).ticksUntilCollapse) % 4294967296
        = 1 + (b.part mp).ticksUntilCollapse := Nat.mod_eq_of_lt (by omega)
    have hmodm : (m + (b.part mp).ticksUntilCollapse * m) % 4294967296
        = (1 + (b.part mp).ticksUntilCollapse) * m := by
      have e : m + (b.part mp).ticksUntilCollapse * m
          = (1 + (b.part mp).ticksUntilCollapse) * m := by ring
      rw [e]
      apply Nat.mod_eq_of_lt
      have : (1 + (b.part mp).ticksUntilCollapse) * m ≤ (N + 1) * m :=
        Nat.mul_le_mul_right m (by omega)
      omega
    have hstep : (b.scaleTicks m).modifyPart i (fun p =>
          { BattleMapPart.queueCollapse m ((b.scaleTicks m).part mp).ticksUntilCollapse p with
            providesHardSupport := false })
        = (b.modifyPart i (fun p =>
          { BattleMapPart.queueCollapse 1 (b.part mp).ticksUntilCollapse p with
            providesHardSupport := false })).scaleTicks m := by
      apply Battle.modifyPart_scaleTicks
      intro p
      rw [Battle.part_scaleTicks]
      unfold BattleMapPart.queueCollapse BattleMapPart.scaleTicks
      simp only [hmod1, hmodm]
    have hb1 : (b.modifyPart i (fun p =>
          { BattleMapPart.queueCollapse 1 (b.part mp).ticksUntilCollapse p with
            providesHardSupport := false })).ticksBounded (N + 1) := by
      apply Battle.ticksBounded_modifyPart (N + 1) b (Battle.ticksBounded_mono N (N + 1) b hb
        (by omega))
      intro p _
      unfold BattleMapPart.queueCollapse
      simp only [hmod1]
      omega
    have hrec := ih (N + 1) _ hb1 (by
      have e : N + 1 + rest.length = N + (rest.length + 1) := by omega
      rw [e]; exact hlt) 
    have hq : ∀ (TM : Nat) (b : Battle), queueSupported TM b mp (i :: rest)
        = queueSupported TM (b.modifyPart i (fun p =>
          { BattleMapPart.queueCollapse TM (b.part mp).ticksUntilCollapse p with
            providesHardSupport := false })) mp rest := fun _ _ => rfl
    rw [hq m, hq 1, hstep]
    refine ⟨hrec.1, ?_⟩
    have e : N + (rest.length + 1) = N + 1 + rest.length := by omega
    rw [hlen, e]
    exact hrec.2

theorem Battle.ticksBounded_of_part (N : Nat) (b : Battle)
    (h : ∀ q, (b.part q).ticksUntilCollapse ≤ N) : b.ticksBounded N := by
  intro p hp
  obtain ⟨n, hn, hget⟩ := List.getElem_of_mem hp
  have e : b.part n = p := by
    unfold Battle.part
    rw [List.getD_eq_getElem?_getD, List.getElem?_eq_getElem hn, hget]
    rfl
  rw [← e]
  exact h n

/-- A call of `findSupport` writes no countdown. -/
theorem findSupport_ticks (b : Battle) (self : Nat) (r : SupportResult)
    (hr : findSupport b self = .ok r) (q : Nat) :
    (r.battle.part q).ticksUntilCollapse = (b.part q).ticksUntilCollapse := by
  have key : (r.battle.part q).strip = (b.part q).strip := by
    rcases findSupport_cases b self r hr with h | ⟨ts, _, _, h⟩ | ⟨ts, _, _, _, h⟩
    · rw [h.1]; exact strip_setHard_part b self q true
    · rw [h]; exact strip_setHard_part b self q true
    · obtain ⟨sups, R⟩ := resolveSupport_resolved (purged b self ts) self (b.part self).type
        ts.type ts.owningTile ((b.part self).position, (b.part self).type.type)
      rw [← h] at R
      obtain ⟨_, hs, _, _⟩ := R
      rw [hs q, strip_purged]
  exact congrArg (fun p => p.ticksUntilCollapse) key

theorem findSupport_ticksBounded (N : Nat) (b : Battle) (self : Nat) (r : SupportResult)
    (hr : findSupport b self = .ok r) (hb : b.ticksBounded N) : r.battle.ticksBounded N := by
  apply Battle.ticksBounded_of_part
  intro q
  rw [findSupport_ticks b self r hr q]
  exact Battle.ticksBounded_part N b hb q

theorem BattleMapPart.cancelCollapse_scaleTicks (m : Nat) (p : BattleMapPart) :
    (p.scaleTicks m).cancelCollapse = p.cancelCollapse.scaleTicks m := by
  unfold BattleMapPart.cancelCollapse BattleMapPart.scaleTicks
  simp

/-- Processing one part of the working set on the scaled battle with
`TICKS_MULTIPLIER = m` is the scaled processing with `TICKS_MULTIPLIER = 1`,
when the countdowns written do not overflow. -/
theorem relinkPart_scaleTicks (m N : Nat) (hm : 0 < m) (st : RelinkState) (mp : Nat)
    (hb : st.battle.ticksBounded N)
    (hcap : ∀ sup, getSupportedParts st.battle mp = .ok sup →
      (N + sup.length) * m < 4294967296) :
    relinkPart m (st.scaleTicks m) mp = (relinkPart 1 st mp).map (RelinkState.scaleTicks m)
      ∧ ∀ sup st', getSupportedParts st.battle mp = .ok sup → relinkPart 1 st mp = .ok st' →
          st'.battle.ticksBounded (N + sup.length) := by
  unfold relinkPart
  have e0 : (st.scaleTicks m).battle = st.battle.scaleTicks m := rfl
  have e1 : (st.scaleTicks m).nextSet = st.nextSet := rfl
  have e2 : (st.scaleTicks m).listChanged = st.listChanged := rfl
  rw [e0, e1, e2, getSupportedParts_scaleTicks]
  cases hs : getSupportedParts st.battle mp with
  | error e => exact ⟨rfl, fun sup st' h => by cases h⟩
  | ok sup =>
    obtain ⟨hq, hqb⟩ := queueSupported_scaleTicks m mp sup N st.battle hb (hcap sup hs) hm
    simp only [bind, Except.bind, pure, Except.pure]
    rw [hq, owningTilePosition_scaleTicks]
    cases hpos : owningTilePosition (queueSupported 1 st.battle mp sup) mp with
    | error e => exact ⟨rfl, fun sup' st' _ h => by cases h⟩
    | ok pos =>
      simp only []
      rw [findSupport_scaleTicks m hm]
      cases hf : findSupport (queueSupported 1 st.battle mp sup) mp with
      | error e => exact ⟨rfl, fun sup' st' _ h => by cases h⟩
      | ok r =>
        have hrb := findSupport_ticksBounded _ _ mp r hf hqb
        simp only [Except.map]
        have e3 : (r.scaleTicks m).supported = r.supported := rfl
        have e4 : (r.scaleTicks m).battle = r.battle.scaleTicks m := rfl
        rw [e3, e4]
        by_cases hsup : r.supported = true
        · simp only [hsup, if_true]
          rw [Battle.modifyPart_scaleTicks m r.battle mp _ BattleMapPart.cancelCollapse
              (BattleMapPart.cancelCollapse_scaleTicks m),
            Battle.modifyParts_scaleTicks m _ sup _ BattleMapPart.cancelCollapse
              (BattleMapPart.cancelCollapse_scaleTicks m)]
          refine ⟨rfl, fun sup' st' h1 h2 => ?_⟩
          cases h1
          cases h2
          apply Battle.ticksBounded_modifyParts _ _ _ _ _ (fun p _ => Nat.zero_le _)
          exact Battle.ticksBounded_modifyPart _ _ hrb _ _ (fun p _ => Nat.zero_le _)
        · simp only [hsup, Bool.false_eq_true, if_false]
          rw [Battle.modifyPart_scaleTicks m r.battle mp _
              (fun p => { p with supportedParts := [] }) (fun _ => rfl),
            owningTilePosition_scaleTicks]
          cases hmm : List.mapM (owningTilePosition
              (r.battle.modifyPart mp fun p => { p with supportedParts := [] })) sup with
          | error e => exact ⟨rfl, fun sup' st' _ h => by cases h⟩
          | ok l =>
            refine ⟨rfl, fun sup' st' h1 h2 => ?_⟩
            cases h1
            cases h2
            exact Battle.ticksBounded_modifyPart _ _ hrb _ _ (fun p hp => hp)

theorem roundCap_ge (N : Nat) (st : RelinkState) (set : List Nat) : N ≤ roundCap N st set := by
  induction set generalizing N st with
  | nil => exact Nat.le_refl _
  | cons mp rest ih =>
    unfold roundCap
    cases getSupportedParts st.battle mp with
    | error e => exact Nat.le_refl _
    | ok sup =>
      simp only []
      cases relinkPart 1 st mp with
      | error e => exact Nat.le_add_right _ _
      | ok st' => exact Nat.le_trans (Nat.le_add_right _ _) (ih (N + sup.length) st')

/-- The loop over the working set on the scaled state is the scaled loop. -/
theorem foldlM_relinkPart_scaleTicks (m : Nat) (hm : 0 < m) (set : List Nat) (N : Nat)
    (st : RelinkState) (hb : st.battle.ticksBounded N)
    (hcap : roundCap N st set * m < 4294967296) :
    set.foldlM (relinkPart m) (st.scaleTicks m)
      = (set.foldlM (relinkPart 1) st).map (RelinkState.scaleTicks m) := by
  induction set generalizing N st with
  | nil => rfl
  | cons mp rest ih =>
    have hcap' : ∀ sup, getSupportedParts st.battle mp = .ok sup →
        (N + sup.length) * m < 4294967296 := by
      intro sup hs
      have hge : N + sup.length ≤ roundCap N st (mp :: rest) := by
        unfold roundCap
        rw [hs]
        simp only []
        cases relinkPart 1 st mp with
        | error e => exact Nat.le_refl _
        | ok st' => exact roundCap_ge _ _ _
      have := Nat.mul_le_mul_right m hge
      omega
    obtain ⟨hstep, hbound⟩ := relinkPart_scaleTicks m N hm st mp hb hcap'
    rw [List.foldlM_cons, List.foldlM_cons, hstep]
    cases hr : relinkPart 1 st mp with
    | error e => rfl
    | ok st' =>
      cases hs : getSupportedParts st.battle mp with
      | error e =>
        unfold relinkPart at hr
        rw [hs] at hr
        cases hr
      | ok sup =>
        have hcap2 : roundCap (N + sup.length) st' rest * m < 4294967296 := by
          unfold roundCap at hcap
          rw [hs] at hcap
          simp only [hr] at hcap
          exact hcap
        exact ih (N + sup.length) st' (hbound sup st' hs hr) hcap2

/-- One round on the scaled battle with `TICKS_MULTIPLIER = m` is the scaled
round with `TICKS_MULTIPLIER = 1`. -/
theorem relinkRound_scaleTicks (m : Nat) (hm : 0 < m) (N : Nat) (b : Battle) (set : List Nat)
    (hb : b.ticksBounded N) (hcap : roundCap N ⟨b, [], false⟩ set * m < 4294967296) :
    relinkRound m (b.scaleTicks m) set
      = (relinkRound 1 b set).map (RelinkState.scaleTicks m) := by
  unfold relinkRound
  rw [owningTilePosition_scaleTicks]
  simp only [bind, Except.bind]
  cases List.mapM (owningTilePosition b) set with
  | error e => rfl
  | ok l =>
    simp only []
    exact foldlM_relinkPart_scaleTicks m hm set N ⟨b, [], false⟩ hb hcap

theorem Battle.scaleTicks_of_zero (m : Nat) (b : Battle) (h : b.ticksBounded 0) :
    b.scaleTicks m = b := by
  unfold Battle.scaleTicks
  have e : b.map_parts.map (BattleMapPart.scaleTicks m) = b.map_parts := by
    conv_rhs => rw [← List.map_id b.map_parts]
    apply List.map_congr_left
    intro p hp
    have h0 : p.ticksUntilCollapse = 0 := Nat.le_zero.1 (h p hp)
    unfold BattleMapPart.scaleTicks
    rw [h0, Nat.zero_mul, ← h0]
    rfl
  rw [e]

/-- The first loop of `attemptReLinkSupports`, on a battle without countdowns. -/
theorem queueAll_scaleTicks (m : Nat) (hlt : m < 4294967296) (b : Battle) (set : List Nat)
    (h : b.ticksBounded 0) :
    b.modifyParts set (BattleMapPart.queueCollapse m 0)
      = (b.modifyParts set (BattleMapPart.queueCollapse 1 0)).scaleTicks m := by
  conv_lhs => rw [← Battle.scaleTicks_of_zero m b h]
  apply Battle.modifyParts_scaleTicks
  intro p
  unfold BattleMapPart.queueCollapse BattleMapPart.scaleTicks
  simp [Nat.mod_eq_of_lt hlt]

/-- The call on a working set that is not empty. -/
theorem attemptReLinkSupports_cons (TM fuel : Nat) (b : Battle) (a : Nat) (rest : List Nat) :
    attemptReLinkSupports TM fuel b (a :: rest)
      = match relinkLoop TM fuel
          (b.modifyParts (a :: rest) (BattleMapPart.queueCollapse TM 0)) (a :: rest) with
        | .error e => .error e
        | .ok r =>
          match r.2.mapM (owningTilePosition r.1) with
          | .error e => .error e
          | .ok _ => .ok r := rfl

set_option maxRecDepth 100000

/-! ## What relinking supports leaves alone -/

theorem Battle.sameCore_refl (b : Battle) : b.sameCore b := ⟨rfl, fun _ => rfl⟩

theorem Battle.sameCore_trans {b1 b2 b3 : Battle} (h12 : b1.sameCore b2) (h23 : b2.sameCore b3) :
    b1.sameCore b3 :=
  ⟨h23.1.trans h12.1, fun q => (h23.2 q).trans (h12.2 q)⟩

theorem BattleMapPart.core_of_strip {p q : BattleMapPart} (h : p.strip = q.strip) :
    p.core = q.core := by
  have e : ∀ x : BattleMapPart, x.core = { x.strip with ticksUntilCollapse := 0, supportedItems := false } := fun _ => rfl
  rw [e, e, h]

theorem Battle.sameCore_modifyPart (b : Battle) (i : Nat) (f : BattleMapPart → BattleMapPart)
    (hf : ∀ p, (f p).core = p.core) : b.sameCore (b.modifyPart i f) :=
  ⟨rfl, fun q => Battle.part_modifyPart_proj BattleMapPart.core b i q f hf⟩

theorem Battle.sameCore_modifyParts (b : Battle) (ids : List Nat)
    (f : BattleMapPart → BattleMapPart) (hf : ∀ p, (f p).core = p.core) :
    b.sameCore (b.modifyParts ids f) :=
  ⟨Battle.map_modifyParts b ids f,
    fun q => Battle.part_modifyParts_proj BattleMapPart.core b ids q f hf⟩

theorem findSupport_sameCore (b : Battle) (self : Nat) (r : SupportResult)
    (hr : findSupport b self = .ok r) : b.sameCore r.battle := by
  rcases findSupport_cases b self r hr with h | ⟨ts, _, _, h⟩ | ⟨ts, hto, _, _, h⟩
  · rw [h.1]
    exact Battle.sameCore_modifyPart b self _ (fun _ => rfl)
  · rw [h]
    exact Battle.sameCore_modifyPart b self _ (fun _ => rfl)
  · obtain ⟨sups, R⟩ := resolveSupport_resolved (purged b self ts) self (b.part self).type
      ts.type ts.owningTile ((b.part self).position, (b.part self).type.type)
    rw [← h] at R
    obtain ⟨hm, hs, _, _⟩ := R
    exact ⟨hm.trans (map_purged b self ts),
      fun q => BattleMapPart.core_of_strip ((hs q).trans (strip_purged b self ts q))⟩

theorem queueSupported_sameCore (TM : Nat) (b : Battle) (mp : Nat) (sup : List Nat) :
    b.sameCore (queueSupported TM b mp sup) := by
  refine ⟨?_, fun q => queueSupported_proj BattleMapPart.core (fun _ _ _ => rfl) TM b mp sup q⟩
  unfold queueSupported
  induction sup generalizing b with
  | nil => rfl
  | cons i rest ih =>
    simp only [List.foldl_cons]
    rw [ih]
    rfl

theorem relinkPart_sameCore (TM : Nat) (st st2 : RelinkState) (mp : Nat)
    (h : relinkPart TM st mp = .ok st2) : st.battle.sameCore st2.battle := by
  unfold relinkPart at h
  cases hs : getSupportedParts st.battle mp with
  | error e => rw [hs] at h; cases h
  | ok sup =>
    rw [hs] at h
    simp only [bind, Except.bind] at h
    cases ho : owningTilePosition (queueSupported TM st.battle mp sup) mp with
    | error e => rw [ho] at h; cases h
    | ok v =>
      rw [ho] at h
      simp only [] at h
      cases hf : findSupport (queueSupported TM st.battle mp sup) mp with
      | error e => rw [hf] at h; cases h
      | ok r =>
        rw [hf] at h
        simp only [] at h
        have c1 := queueSupported_sameCore TM st.battle mp sup
        have c2 := findSupport_sameCore _ _ _ hf
        by_cases hsup : r.supported = true
        · simp only [hsup, if_true, pure, Except.pure] at h
          cases h
          exact Battle.sameCore_trans (Battle.sameCore_trans c1 c2)
            (Battle.sameCore_trans
              (Battle.sameCore_modifyPart _ mp BattleMapPart.cancelCollapse (fun _ => rfl))
              (Battle.sameCore_modifyParts _ sup BattleMapPart.cancelCollapse (fun _ => rfl)))
        · simp only [hsup, if_false, pure, Except.pure] at h
          cases hm : List.mapM (owningTilePosition
              (r.battle.modifyPart mp fun p => { p with supportedParts := [] })) sup with
          | error e => rw [hm] at h; cases h
          | ok l =>
            rw [hm] at h
            simp only [] at h
            cases h
            exact Battle.sameCore_trans (Battle.sameCore_trans c1 c2)
              (Battle.sameCore_modifyPart _ mp _ (fun _ => rfl))

theorem foldlM_relinkPart_sameCore (TM : Nat) (set : List Nat) (st st2 : RelinkState)
    (h : set.foldlM (relinkPart TM) st = .ok st2) : st.battle.sameCore st2.battle := by
  induction set generalizing st with
  | nil =>
    simp only [List.foldlM_nil, pure, Except.pure] at h
    cases h
    exact Battle.sameCore_refl _
  | cons mp rest ih =>
    rw [List.foldlM_cons] at h
    cases hp : relinkPart TM st mp with
    | error e => rw [hp] at h; cases h
    | ok st1 =>
      rw [hp] at h
      exact Battle.sameCore_trans (relinkPart_sameCore TM st st1 mp hp) (ih st1 h)

theorem relinkRound_sameCore (TM : Nat) (b : Battle) (set : List Nat) (st : RelinkState)
    (h : relinkRound TM b set = .ok st) : b.sameCore st.battle := by
  unfold relinkRound at h
  simp only [bind, Except.bind] at h
  cases hm : List.mapM (owningTilePosition b) set with
  | error e => rw [hm] at h; cases h
  | ok l =>
    rw [hm] at h
    exact foldlM_relinkPart_sameCore TM set ⟨b, [], false⟩ st h

theorem relinkLoop_sameCore (TM : Nat) (fuel : Nat) (b : Battle) (set : List Nat)
    (r : Battle × List Nat) (h : relinkLoop TM fuel b set = .ok r) : b.sameCore r.1 := by
  induction fuel generalizing b set with
  | zero => cases h
  | succ n ih =>
    unfold relinkLoop at h
    cases hr : relinkRound TM b set with
    | error e => rw [hr] at h; cases h
    | ok st =>
      rw [hr] at h
      simp only [] at h
      have c := relinkRound_sameCore TM b set st hr
      by_cases hc : st.listChanged = true
      · simp only [hc, if_true] at h
        exact Battle.sameCore_trans c (ih _ _ h)
      · simp only [hc, if_false] at h
        cases h
        exact c

/-- Relinking supports changes no field of a part other than its countdown, its
hard support flag and its support list, and leaves the grid as it is. -/
theorem attemptReLinkSupports_sameCore (TM fuel : Nat) (b : Battle) (set : List Nat)
    (r : Battle × List Nat) (h : attemptReLinkSupports TM fuel b set = .ok r) :
    b.sameCore r.1 := by
  unfold attemptReLinkSupports at h
  by_cases he : set.isEmpty = true
  · simp only [he, if_true] at h
    cases h
    exact Battle.sameCore_refl _
  · simp only [he, if_false] at h
    cases hl : relinkLoop TM fuel (b.modifyParts set (BattleMapPart.queueCollapse TM 0)) set with
    | error e => rw [hl] at h; cases h
    | ok r1 =>
      rw [hl] at h
      simp only [] at h
      cases hm : List.mapM (owningTilePosition r1.1) r1.2 with
      | error e => rw [hm] at h; cases h
      | ok l =>
        rw [hm] at h
        simp only [] at h
        cases h
        exact Battle.sameCore_trans
          (Battle.sameCore_modifyParts b set (BattleMapPart.queueCollapse TM 0) (fun _ => rfl))
          (relinkLoop_sameCore TM fuel _ set _ hl)

/-! ## A relink loop that alternates between two states -/

/-- Two rounds that lead from one state to the other and back, each setting
`listChanged`, use up any budget of rounds. -/
theorem relinkLoop_alternates (TM : Nat) (A B : Battle) (sa sb : List Nat)
    (hA : relinkRound TM A sa = .ok ⟨B, sb, true⟩)
    (hB : relinkRound TM B sb = .ok ⟨A, sa, true⟩) (fuel : Nat) :
    relinkLoop TM fuel A sa = .error .outOfFuel
      ∧ relinkLoop TM fuel B sb = .error .outOfFuel := by
  induction fuel with
  | zero => exact ⟨rfl, rfl⟩
  | succ n ih =>
    constructor
    · unfold relinkLoop
      rw [hA]
      exact ih.2
    · unfold relinkLoop
      rw [hB]
      exact ih.1

/-- A call whose first round, with `TICKS_MULTIPLIER = 1`, leads to a state from
which two rounds alternate does not end under any `TICKS_MULTIPLIER` that is
positive and at most 2^28, as long as the countdowns of the three rounds stay
below 16. -/
theorem attemptReLinkSupports_alternates (m : Nat) (hm : 0 < m) (hlt : m ≤ 268435456)
    (P A B : Battle) (a : Nat) (rest sa sb : List Nat) (N : Nat)
    (hP : P.ticksBounded 0)
    (h0 : relinkRound 1 (P.modifyParts (a :: rest) (BattleMapPart.queueCollapse 1 0)) (a :: rest)
      = .ok ⟨A, sa, true⟩)
    (hA : relinkRound 1 A sa = .ok ⟨B, sb, true⟩)
    (hB : relinkRound 1 B sb = .ok ⟨A, sa, true⟩)
    (b0 : (P.modifyParts (a :: rest) (BattleMapPart.queueCollapse 1 0)).ticksBounded 1)
    (bA : A.ticksBounded N) (bB : B.ticksBounded N)
    (c0 : roundCap 1 ⟨P.modifyParts (a :: rest) (BattleMapPart.queueCollapse 1 0), [], false⟩
      (a :: rest) ≤ 15)
    (cA : roundCap N ⟨A, [], false⟩ sa ≤ 15) (cB : roundCap N ⟨B, [], false⟩ sb ≤ 15)
    (fuel : Nat) :
    attemptReLinkSupports m fuel P (a :: rest) = .error .outOfFuel := by
  have e0 : relinkRound m (P.modifyParts (a :: rest) (BattleMapPart.queueCollapse m 0)) (a :: rest)
      = .ok ⟨A.scaleTicks m, sa, true⟩ := by
    rw [queueAll_scaleTicks m (by omega) P (a :: rest) hP,
      relinkRound_scaleTicks m hm 1 _ (a :: rest) b0
        (by have := Nat.mul_le_mul_right m c0; omega), h0]
    rfl
  have eA : relinkRound m (A.scaleTicks m) sa = .ok ⟨B.scaleTicks m, sb, true⟩ := by
    rw [relinkRound_scaleTicks m hm N _ sa bA (by have := Nat.mul_le_mul_right m cA; omega), hA]
    rfl
  have eB : relinkRound m (B.scaleTicks m) sb = .ok ⟨A.scaleTicks m, sa, true⟩ := by
    rw [relinkRound_scaleTicks m hm N _ sb bB (by have := Nat.mul_le_mul_right m cB; omega), hB]
    rfl
  rw [attemptReLinkSupports_cons]
  cases fuel with
  | zero => rfl
  | succ n =>
    unfold relinkLoop
    rw [e0]
    simp only [if_true]
    rw [(relinkLoop_alternates m _ _ sa sb eA eB n).1]

/-! ## The calls made by `die`, `collapse` and `update` -/

theorem ceaseSupportProvision_of_error (TM fuel : Nat) (b : Battle) (self : Nat)
    (set : List Nat) (e : Fault)
    (hs : getSupportedParts (b.modifyPart self (BattleMapPart.setHard false)) self = .ok set)
    (hr : attemptReLinkSupports TM fuel (b.modifyPart self (BattleMapPart.setHard false)) set
      = .error e) :
    ceaseSupportProvision TM fuel b self = .error e := by
  unfold ceaseSupportProvision
  simp only [bind, Except.bind, hs, hr]

theorem die_of_not_falling (TM fuel : Nat) (b : Battle) (self : Nat)
    (ts : TileObjectBattleMapPart) (hf : (b.part self).falling = false)
    (hto : (b.part self).tileObject = some ts) :
    die TM fuel b self
      = (do
          let b1 ← replaceWithDamaged TM b self
          let b2 ← ceaseSupportProvision TM fuel (ceaseDoorFunction b1 self) self
          if (b2.part self).destroyed then b2.removeFromMap self else pure b2) := by
  unfold die
  simp only [hf, hto, Bool.false_eq_true, if_false]

theorem die_of_falling (TM fuel : Nat) (b : Battle) (self : Nat)
    (hf : (b.part self).falling = true) :
    die TM fuel b self
      = (do
          let b1 ← b.removeFromMap self
          pure (b1.modifyPart self fun p => { p with destroyed := true })) := by
  unfold die
  simp only [hf, if_true]

theorem replaceWithDamaged_of_variant (TM : Nat) (b : Battle) (self d : Nat)
    (t : BattleMapPartType) (r : SupportResult)
    (hd : (b.part self).type.damaged_map_part = some d) (ht : b.mapPartType d = .ok t)
    (hr : findSupport (b.modifyPart self fun p => { p with type := t }) self = .ok r) :
    replaceWithDamaged TM b self
      = .ok (if r.supported then r.battle.modifyPart self fun p => { p with damaged := true }
          else r.battle.modifyPart self (BattleMapPart.queueCollapse TM 0)) := by
  unfold replaceWithDamaged
  simp only [hd, ht, hr, bind, Except.bind]
  split <;> rfl

theorem replaceWithDamaged_of_destroyed (TM : Nat) (b : Battle) (self : Nat)
    (hd : (b.part self).type.damaged_map_part = none)
    (hg : ¬ ((b.part self).position.z = 0 ∧ (b.part self).type.type = .Ground)) :
    replaceWithDamaged TM b self
      = .ok (b.modifyPart self fun p => { p with destroyed := true }) := by
  unfold replaceWithDamaged
  have e : (decide ((b.part self).position.z = 0)
      && decide ((b.part self).type.type = .Ground)) = false := by
    simpa using hg
  simp only [hd, e, Bool.false_eq_true, if_false]
  rfl

theorem replaceWithDamaged_of_ground (TM : Nat) (b : Battle) (self g : Nat)
    (t : BattleMapPartType)
    (hd : (b.part self).type.damaged_map_part = none)
    (hz : (b.part self).position.z = 0) (hG : (b.part self).type.type = .Ground)
    (hg : (b.part self).type.destroyed_ground_tile = some g) (ht : b.mapPartType g = .ok t) :
    replaceWithDamaged TM b self = .ok (b.modifyPart self fun p => { p with type := t }) := by
  unfold replaceWithDamaged
  simp only [hd, hz, hG, hg, ht, decide_True, Bool.and_self, if_true, bind, Except.bind]
  rfl

theorem collapse_of_standing (TM fuel : Nat) (b : Battle) (self : Nat)
    (ts : TileObjectBattleMapPart) (hf : (b.part self).falling = false)
    (hto : (b.part self).tileObject = some ts) :
    collapse TM fuel b self
      = (do
          let b2 ← ceaseSupportProvision TM fuel
            (b.modifyPart self fun p => { p with falling := true }) self
          pure (ceaseDoorFunction b2 self)) := by
  unfold collapse
  simp only [hf, hto, Option.isNone_some, Bool.or_self, Bool.false_eq_true, if_false]

theorem collapse_of_falling (TM fuel : Nat) (b : Battle) (self : Nat)
    (hf : (b.part self).falling = true) : collapse TM fuel b self = .ok b := by
  unfold collapse
  simp only [hf, Bool.true_or, if_true]

theorem update_of_expired (TM fuel : Nat) (b : Battle) (self : Nat)
    (ts : TileObjectBattleMapPart) (ticks : Nat) (newZ : Int) (whole : Bool)
    (hto : (b.part self).tileObject = some ts) (hpos : 0 < (b.part self).ticksUntilCollapse)
    (hle : (b.part self).ticksUntilCollapse ≤ ticks) :
    update TM fuel b self ticks newZ whole
      = (do
          let b1 ← collapse TM fuel
            (b.modifyPart self fun p => { p with ticksUntilCollapse := 0 }) self
          if (b1.part self).falling then processFalling TM fuel b1 self newZ whole else pure b1) := by
  unfold update
  have h1 : (b.part self).ticksUntilCollapse > 0 := hpos
  have h2 : ¬ (b.part self).ticksUntilCollapse > ticks := Nat.not_lt.2 hle
  simp only [hto, h1, h2, if_true, if_false]

theorem update_of_counting (TM fuel : Nat) (b : Battle) (self : Nat)
    (ts : TileObjectBattleMapPart) (ticks : Nat) (newZ : Int) (whole : Bool)
    (hto : (b.part self).tileObject = some ts)
    (hlt : ticks < (b.part self).ticksUntilCollapse) :
    update TM fuel b self ticks newZ whole
      = (let b1 := b.modifyPart self fun p =>
            { p with ticksUntilCollapse := p.ticksUntilCollapse - ticks }
         if (b1.part self).falling then processFalling TM fuel b1 self newZ whole else pure b1) := by
  unfold update
  have h1 : (b.part self).ticksUntilCollapse > 0 := Nat.lt_of_le_of_lt (Nat.zero_le _) hlt
  have h2 : (b.part self).ticksUntilCollapse > ticks := hlt
  simp only [hto, h1, h2, if_true, bind, Except.bind, pure, Except.pure]

theorem update_of_idle (TM fuel : Nat) (b : Battle) (self : Nat)
    (ts : TileObjectBattleMapPart) (ticks : Nat) (newZ : Int) (whole : Bool)
    (hto : (b.part self).tileObject = some ts)
    (hz : (b.part self).ticksUntilCollapse = 0) :
    update TM fuel b self ticks newZ whole
      = if (b.part self).falling then processFalling TM fuel b self newZ whole else pure b := by
  unfold update
  simp only [hto, hz, gt_iff_lt, Nat.lt_irrefl, if_false, bind, Except.bind, pure, Except.pure]

theorem Battle.part_with_doors (b : Battle) (ds : List BattleDoor) (q : Nat) :
    ({ b with doors := ds } : Battle).part q = b.part q := rfl

theorem ceaseDoorFunction_of_plain (b : Battle) (self d : Nat)
    (h : (b.part self).door = some d) (hat : (b.part self).alternative_type = none) :
    ceaseDoorFunction b self
      = ({ b with
          doors := b.doors.modify
            (fun door => { door with mapParts := door.mapParts.filter fun p => decide (p ≠ self) })
            d } : Battle).modifyPart self fun p => { p with door := none } := by
  unfold ceaseDoorFunction
  rw [h, hat]

theorem ceaseDoorFunction_of_alternative (b : Battle) (self d : Nat) (t : BattleMapPartType)
    (h : (b.part self).door = some d) (hat : (b.part self).alternative_type = some t) :
    ceaseDoorFunction b self
      = ({ (b.modifyPart self fun p => { p with type := t }) with
          doors := b.doors.modify
            (fun door => { door with mapParts := door.mapParts.filter fun p => decide (p ≠ self) })
            d } : Battle).modifyPart self fun p => { p with door := none } := by
  unfold ceaseDoorFunction
  rw [h, hat]
  rfl

/-- Detaching the supports changes no field of a part other than its countdown,
its hard support flag, its support list and `supportedItems`, and leaves the
grid as it is. -/
theorem ceaseSupportProvision_sameCore (TM fuel : Nat) (b : Battle) (self : Nat) (b2 : Battle)
    (h : ceaseSupportProvision TM fuel b self = .ok b2) : b.sameCore b2 := by
  unfold ceaseSupportProvision at h
  simp only [bind, Except.bind] at h
  cases hs : getSupportedParts (b.modifyPart self (BattleMapPart.setHard false)) self with
  | error e => rw [hs] at h; cases h
  | ok set =>
    rw [hs] at h
    simp only [] at h
    cases hr : attemptReLinkSupports TM fuel (b.modifyPart self (BattleMapPart.setHard false))
        set with
    | error e => rw [hr] at h; cases h
    | ok r =>
      rw [hr] at h
      simp only [pure, Except.pure] at h
      cases h
      exact Battle.sameCore_trans
        (Battle.sameCore_trans
          (Battle.sameCore_modifyPart b self (BattleMapPart.setHard false) (fun _ => rfl))
          (attemptReLinkSupports_sameCore TM fuel _ set r hr))
        (Battle.sameCore_trans
          (Battle.sameCore_modifyPart r.1 self (fun p => { p with supportedParts := [] })
            (fun _ => rfl))
          (Battle.sameCore_modifyPart _ self (fun p => { p with supportedItems := false })
            (fun _ => rfl)))

/-- An update that writes a value the default part already has leaves that value
in the part, whether or not the pointer designates a part of the battle. -/
theorem Battle.part_modifyPart_field {γ : Type} (g : BattleMapPart → γ) (v : γ) (b : Battle)
    (i : Nat) (f : BattleMapPart → BattleMapPart) (hf : ∀ p, g (f p) = v)
    (hd : g default = v) : g ((b.modifyPart i f).part i) = v := by
  rw [Battle.part_modifyPart]
  split
  · exact hf _
  · rename_i h
    have hlen : b.map_parts.length ≤ i := by
      by_contra hc
      exact h ⟨rfl, Nat.lt_of_not_le hc⟩
    rw [b.part_of_length_le i hlen]
    exact hd

/-- What detaching the supports leaves of the part itself: its list is empty
and `supportedItems` is false. -/
theorem ceaseSupportProvision_self (TM fuel : Nat) (b : Battle) (self : Nat) (b2 : Battle)
    (h : ceaseSupportProvision TM fuel b self = .ok b2) :
    (b2.part self).supportedParts = [] ∧ (b2.part self).supportedItems = false := by
  unfold ceaseSupportProvision at h
  simp only [bind, Except.bind] at h
  cases hs : getSupportedParts (b.modifyPart self (BattleMapPart.setHard false)) self with
  | error e => rw [hs] at h; cases h
  | ok set =>
    rw [hs] at h
    simp only [] at h
    cases hr : attemptReLinkSupports TM fuel (b.modifyPart self (BattleMapPart.setHard false))
        set with
    | error e => rw [hr] at h; cases h
    | ok r =>
      rw [hr] at h
      simp only [pure, Except.pure] at h
      cases h
      constructor
      · exact (Battle.part_modifyPart_proj (fun p => p.supportedParts) _ self self
          (fun p => { p with supportedItems := false }) (fun _ => rfl)).trans
          (Battle.part_modifyPart_field (fun p => p.supportedParts) [] r.1 self
            (fun p => { p with supportedParts := [] }) (fun _ => rfl) rfl)
      · exact Battle.part_modifyPart_field (fun p => p.supportedItems) false _ self
          (fun p => { p with supportedItems := false }) (fun _ => rfl) rfl

theorem attemptReLinkSupports_nil (TM fuel : Nat) (b : Battle) :
    attemptReLinkSupports TM fuel b [] = .ok (b, []) := rfl

theorem ceaseSupportProvision_of_ok (TM fuel : Nat) (b : Battle) (self : Nat)
    (set : List Nat) (r : Battle × List Nat)
    (hs : getSupportedParts (b.modifyPart self (BattleMapPart.setHard false)) self = .ok set)
    (hr : attemptReLinkSupports TM fuel (b.modifyPart self (BattleMapPart.setHard false)) set
      = .ok r) :
    ceaseSupportProvision TM fuel b self
      = .ok ((r.1.modifyPart self fun p => { p with supportedParts := [] }).modifyPart self
          fun p => { p with supportedItems := false }) := by
  unfold ceaseSupportProvision
  simp only [bind, Except.bind, hs, hr]
  rfl

theorem handleCollision_of_hit (TM fuel : Nat) (b : Battle) (self : Nat)
    (ts : TileObjectBattleMapPart) (damage : Int) (hto : (b.part self).tileObject = some ts)
    (hf : (b.part self).falling = false) (hd : (b.part self).type.constitution < damage) :
    handleCollision TM fuel b self damage = die TM fuel b self := by
  unfold handleCollision
  simp only [hto, hf, Int.not_le.2 hd, Bool.false_eq_true, if_false]

theorem relinkRound_nil (TM : Nat) (b : Battle) :
    relinkRound TM b [] = .ok ⟨b, [], false⟩ := rfl

/-! ## Parts after the grid operations -/

theorem Battle.modifyPart_congr (b : Battle) (i : Nat) (f g : BattleMapPart → BattleMapPart)
    (h : f (b.part i) = g (b.part i)) : b.modifyPart i f = b.modifyPart i g := by
  unfold Battle.modifyPart
  congr 1
  apply List.ext_getElem?
  intro j
  rw [List.getElem?_modify, List.getElem?_modify]
  by_cases hij : i = j
  · subst hij
    cases hg : b.map_parts[i]? with
    | none => rfl
    | some p =>
      have hp : b.part i = p := by
        unfold Battle.part
        rw [List.getD_eq_getElem?_getD, hg]
        rfl
      rw [hp] at h
      simp [h]
  · simp [hij]

theorem Battle.modifyPart_id (b : Battle) (i : Nat) (f : BattleMapPart → BattleMapPart)
    (h : f (b.part i) = b.part i) : b.modifyPart i f = b := by
  rw [Battle.modifyPart_congr b i f id h]
  unfold Battle.modifyPart
  simp

theorem Battle.part_with_map (b : Battle) (m : TileMap) (q : Nat) :
    ({ b with map := m } : Battle).part q = b.part q := rfl

theorem Battle.lt_of_tileObject (b : Battle) (self : Nat) (ts : TileObjectBattleMapPart)
    (hto : (b.part self).tileObject = some ts) : self < b.map_parts.length := by
  apply part_ne_default_lt
  intro e
  rw [e] at hto
  cases hto

theorem Battle.part_modifyPart_self (b : Battle) (i : Nat) (f : BattleMapPart → BattleMapPart)
    (h : i < b.map_parts.length) : (b.modifyPart i f).part i = f (b.part i) := by
  rw [Battle.part_modifyPart, if_pos ⟨rfl, h⟩]

/-- The part `self` after `setPosition`, and the other parts. -/
theorem Battle.part_setPosition (b : Battle) (self : Nat) (pos : Vec3) (q : Nat) :
    (b.setPosition self pos).part q
      = if self = q ∧ q < b.map_parts.length then
          { b.part q with
            position := pos
            tileObject := (b.part q).tileObject.map fun o =>
              { o with owningTile := tileCell pos } }
        else b.part q := by
  unfold Battle.setPosition
  by_cases hq : self = q ∧ q < b.map_parts.length
  · obtain ⟨rfl, hlen⟩ := hq
    rw [if_pos ⟨rfl, hlen⟩]
    cases hto : (b.part self).tileObject with
    | none =>
      simp only []
      rw [Battle.part_modifyPart_self _ _ _ hlen, hto]
      rfl
    | some o =>
      simp only []
      by_cases ho : o.owningTile = tileCell pos
      · rw [if_pos ho, Battle.part_modifyPart_self _ _ _ hlen, hto]
        show _ = ({ b.part self with
          position := pos
          tileObject := some { o with owningTile := tileCell pos } } : BattleMapPart)
        rw [← ho]
      · rw [if_neg ho, Battle.part_modifyPart, Battle.part_with_map,
          Battle.part_modifyPart_self _ _ _ hlen, hto]
        have hl : self < ({ (b.modifyPart self fun p => { p with position := pos }) with
            map := ((b.modifyPart self fun p => { p with position := pos }).map.removeObject
              o).addObject { o with owningTile := tileCell pos } } : Battle).map_parts.length := by
          show self < (b.modifyPart self fun p => { p with position := pos }).map_parts.length
          rw [Battle.length_modifyPart]; exact hlen
        rw [if_pos ⟨rfl, hl⟩]
        rfl
  · rw [if_neg hq]
    cases hto : (b.part self).tileObject with
    | none =>
      simp only []
      rw [Battle.part_modifyPart, if_neg hq]
    | some o =>
      simp only []
      by_cases ho : o.owningTile = tileCell pos
      · rw [if_pos ho, Battle.part_modifyPart, if_neg hq]
      · rw [if_neg ho, Battle.part_modifyPart, Battle.part_with_map, Battle.part_modifyPart,
          if_neg hq, if_neg]
        intro hc
        apply hq
        refine ⟨hc.1, ?_⟩
        have := hc.2
        have e : ({ (b.modifyPart self fun p => { p with position := pos }) with
            map := ((b.modifyPart self fun p => { p with position := pos }).map.removeObject
              o).addObject { o with owningTile := tileCell pos } } : Battle).map_parts.length
            = b.map_parts.length := by
          show (b.modifyPart self fun p => { p with position := pos }).map_parts.length = _
          rw [Battle.length_modifyPart]
        rw [e] at this
        exact this

theorem Battle.length_setPosition (b : Battle) (self : Nat) (pos : Vec3) :
    (b.setPosition self pos).map_parts.length = b.map_parts.length := by
  unfold Battle.setPosition
  cases (b.part self).tileObject with
  | none => simp only []; rw [Battle.length_modifyPart]
  | some o =>
    simp only []
    split
    · rw [Battle.length_modifyPart]
    · rw [Battle.length_modifyPart]
      show (b.modifyPart self fun p => { p with position := pos }).map_parts.length = _
      rw [Battle.length_modifyPart]

/-- What `die` does to a falling part: it leaves the grid and is destroyed, and
no other part changes. -/
theorem die_falling_spec (TM fuel : Nat) (b : Battle) (self : Nat)
    (ts : TileObjectBattleMapPart) (hf : (b.part self).falling = true)
    (hto : (b.part self).tileObject = some ts) :
    ∃ b2, die TM fuel b self = .ok b2
      ∧ b2.map_parts.length = b.map_parts.length
      ∧ (∀ q, q ≠ self → b2.part q = b.part q)
      ∧ b2.part self = { b.part self with tileObject := none, destroyed := true } := by
  have hlen := b.lt_of_tileObject self ts hto
  rw [die_of_falling TM fuel b self hf]
  unfold Battle.removeFromMap
  rw [hto]
  refine ⟨_, rfl, ?_, ?_, ?_⟩
  · rw [Battle.length_modifyPart, Battle.length_modifyPart]
  · intro q hq
    rw [Battle.part_modifyPart_ne _ _ _ _ (Ne.symm hq),
      Battle.part_modifyPart_ne _ _ _ _ (Ne.symm hq)]
    rfl
  · have hl1 : self < ({ b with map := b.map.removeObject ts } : Battle).map_parts.length := hlen
    have hl2 : self < (({ b with map := b.map.removeObject ts } : Battle).modifyPart self
        fun p => { p with tileObject := none }).map_parts.length := by
      rw [Battle.length_modifyPart]; exact hlen
    rw [Battle.part_modifyPart_self _ _ _ hl2, Battle.part_modifyPart_self _ _ _ hl1]
    rfl

/-! ## `update` on a falling part -/

/-- On a falling part the countdown block of `update` only lowers the countdown:
`collapse` returns at once. -/
theorem update_of_falling (TM fuel : Nat) (b : Battle) (self : Nat)
    (ts : TileObjectBattleMapPart) (ticks : Nat) (newZ : Int) (whole : Bool)
    (hf : (b.part self).falling = true) (hto : (b.part self).tileObject = some ts) :
    update TM fuel b self ticks newZ whole
      = processFalling TM fuel
          (b.modifyPart self fun p =>
            { p with ticksUntilCollapse := p.ticksUntilCollapse - ticks })
          self newZ whole := by
  have hlen := b.lt_of_tileObject self ts hto
  rcases Nat.eq_zero_or_pos (b.part self).ticksUntilCollapse with hz | hpos
  · rw [update_of_idle TM fuel b self ts ticks newZ whole hto hz, if_pos hf,
      Battle.modifyPart_id b self _ (by
        show ({ b.part self with
          ticksUntilCollapse := (b.part self).ticksUntilCollapse - ticks } : BattleMapPart)
            = b.part self
        rw [hz, Nat.zero_sub, ← hz])]
  · by_cases hlt : ticks < (b.part self).ticksUntilCollapse
    · rw [update_of_counting TM fuel b self ts ticks newZ whole hto hlt]
      simp only []
      rw [if_pos]
      rw [Battle.part_modifyPart_self _ _ _ hlen]
      exact hf
    · have hle : (b.part self).ticksUntilCollapse ≤ ticks := Nat.le_of_not_lt hlt
      have hf0 : ((b.modifyPart self fun p => { p with ticksUntilCollapse := 0 }).part
          self).falling = true := by
        rw [Battle.part_modifyPart_self _ _ _ hlen]; exact hf
      rw [update_of_expired TM fuel b self ts ticks newZ whole hto hpos hle,
        collapse_of_falling TM fuel _ self hf0]
      simp only [bind, Except.bind]
      rw [if_pos hf0]
      congr 1
      apply Battle.modifyPart_congr
      show ({ b.part self with ticksUntilCollapse := 0 } : BattleMapPart)
        = { b.part self with ticksUntilCollapse := (b.part self).ticksUntilCollapse - ticks }
      rw [Nat.sub_eq_zero_of_le hle]

theorem processFalling_of_crossing (TM fuel : Nat) (b : Battle) (self : Nat)
    (ts : TileObjectBattleMapPart) (newZ : Int) (whole : Bool) (hto : (b.part self).tileObject = some ts)
    (hc : newZ < 0 ∨ newZ ≠ (b.part self).position.z) :
    processFalling TM fuel b self newZ whole
      = (let b1 :=
          if (b.map.getTile ts.owningTile).any (collidesWith b self) then
            b.modifyPart self fun p => { p with destroyed := true }
          else b
         if (b1.part self).destroyed then do
           let b2 ← depositRubble b1 self
             ((b.map.getTile ts.owningTile).foldl
               (fun r o => if depositsInto b self o then some o.owner else r) none)
           die TM fuel b2 self
         else pure (b1.setPosition self
           ⟨(b.part self).position.x, (b.part self).position.y, truncHeight newZ whole⟩)) := by
  unfold processFalling
  have e : (decide (newZ < 0) || decide (newZ ≠ (b.part self).position.z)) = true := by
    simpa using hc
  simp only [e, if_true, hto]

/-- The loop over the tile sets `destroyed` when the tile holds a live part of the
category of the falling part or of the category Ground. -/
theorem any_collidesWith (b : Battle) (self : Nat) (ts : TileObjectBattleMapPart)
    (hto : (b.part self).tileObject = some ts) (tile : List TileObjectBattleMapPart) :
    tile.any (collidesWith b self) = true
      ↔ ∃ o ∈ tile, (b.part o.owner).isAlive = true
          ∧ ((b.part o.owner).type.type = (b.part self).type.type
            ∨ (b.part o.owner).type.type = .Ground) := by
  rw [List.any_eq_true]
  constructor
  · rintro ⟨o, ho, hc⟩
    unfold collidesWith at hc
    simp only [hto, Option.isSome_some, Bool.true_and, Bool.and_eq_true, Bool.or_eq_true,
      decide_eq_true_eq] at hc
    exact ⟨o, ho, hc.2, hc.1⟩
  · rintro ⟨o, ho, ha, ht⟩
    refine ⟨o, ho, ?_⟩
    unfold collidesWith
    simp only [hto, Option.isSome_some, Bool.true_and, Bool.and_eq_true, Bool.or_eq_true,
      decide_eq_true_eq]
    exact ⟨ht, ha⟩

/-- The part the loop over the tile leaves in `rubble`: the owner of the last
object into which rubble is deposited. -/
theorem foldl_depositsInto (b : Battle) (self : Nat) (tile : List TileObjectBattleMapPart)
    (init : Option Nat) :
    tile.foldl (fun r o => if depositsInto b self o then some o.owner else r) init
      = match (tile.reverse.find? (depositsInto b self)) with
        | some o => some o.owner
        | none => init := by
  induction tile generalizing init with
  | nil => rfl
  | cons a rest ih =>
    rw [List.foldl_cons, ih, List.reverse_cons, List.find?_append]
    cases hr : List.find? (depositsInto b self) rest.reverse with
    | some o => rfl
    | none =>
      simp only [Option.none_or, List.find?_cons, List.find?_nil]
      cases depositsInto b self a <;> rfl

theorem depositsInto_alive (b : Battle) (self : Nat) (o : TileObjectBattleMapPart)
    (h : depositsInto b self o = true) : (b.part o.owner).isAlive = true := by
  unfold depositsInto at h
  simp only [Bool.and_eq_true] at h
  exact h.2

theorem isAlive_of_falling (p : BattleMapPart) (h : p.falling = true) : p.isAlive = false := by
  unfold BattleMapPart.isAlive
  simp [h]

/-- A height that is not below 0 is converted to its floor. -/
theorem truncHeight_of_nonneg (z : Int) (whole : Bool) (h : ¬ z < 0) :
    truncHeight z whole = z := by
  unfold truncHeight
  rw [if_neg (fun hc => h hc.1)]

/-- A height below 0 is converted to a height between its floor and 0. -/
theorem truncHeight_of_neg (z : Int) (whole : Bool) (h : z < 0) :
    z ≤ truncHeight z whole ∧ truncHeight z whole ≤ 0 := by
  unfold truncHeight
  split <;> omega

/-- The cell of the grid of a position that is not below the map. -/
theorem tileCell_of_nonneg (pos : Vec3) (h : 0 ≤ pos.z) : tileCell pos = pos := by
  unfold tileCell
  rw [max_eq_left h]

theorem processFalling_of_staying (TM fuel : Nat) (b : Battle) (self : Nat) (newZ : Int)
    (whole : Bool) (h0 : ¬ newZ < 0) (hz : newZ = (b.part self).position.z) :
    processFalling TM fuel b self newZ whole
      = .ok (b.setPosition self ⟨(b.part self).position.x, (b.part self).position.y, newZ⟩) := by
  unfold processFalling
  have e : (decide (newZ < 0) || decide (newZ ≠ (b.part self).position.z)) = false := by
    rw [Bool.or_eq_false_iff]
    exact ⟨decide_eq_false h0, decide_eq_false (fun h => h hz)⟩
  simp only [e, Bool.false_eq_true, if_false, truncHeight_of_nonneg newZ whole h0]
  rfl

/-! ## Rubble -/

/-- The type `std::find` and `++it` arrive at is the entry after the first
occurrence of the type in the list, if there is one. -/
theorem nextStage_eq (l : List Nat) (x : Nat) : nextStage l x = l[l.indexOf x + 1]? := by
  induction l with
  | nil => rfl
  | cons a rest ih =>
    unfold nextStage
    by_cases h : a = x
    · subst h
      simp [List.head?_eq_getElem?]
    · rw [if_neg h, ih, List.indexOf_cons_ne _ h]
      simp

theorem Battle.part_append (b : Battle) (p : BattleMapPart) (m : TileMap) (q : Nat)
    (hq : q < b.map_parts.length) :
    ({ b with map_parts := b.map_parts ++ [p], map := m } : Battle).part q = b.part q := by
  unfold Battle.part
  simp only [List.getD_eq_getElem?_getD]
  rw [List.getElem?_append_left hq]

theorem Battle.part_append_new (b : Battle) (p : BattleMapPart) (m : TileMap) :
    ({ b with map_parts := b.map_parts ++ [p], map := m } : Battle).part b.map_parts.length
      = p := by
  unfold Battle.part
  simp only [List.getD_eq_getElem?_getD]
  rw [List.getElem?_append_right (Nat.le_refl _)]
  simp

theorem depositRubble_of_none (b : Battle) (self : Nat) (first : Nat) (rest : List Nat)
    (t : BattleMapPartType) (hr : (b.part self).type.rubble = first :: rest)
    (ht : b.mapPartType first = .ok t) :
    depositRubble b self none
      = .ok { b with
          map_parts := b.map_parts ++ [newRubble t (b.part self).position
            ⟨convertType t.type, b.map_parts.length, tileCell (b.part self).position⟩]
          map := b.map.addObject
            ⟨convertType t.type, b.map_parts.length, tileCell (b.part self).position⟩ } := by
  unfold depositRubble
  rw [hr]
  simp only [ht, bind, Except.bind]
  rfl

theorem depositRubble_of_some (b : Battle) (self q : Nat) (first : Nat) (rest : List Nat)
    (hr : (b.part self).type.rubble = first :: rest) :
    depositRubble b self (some q)
      = match (first :: rest)[(first :: rest).indexOf (b.part q).type.id + 1]? with
        | none => .ok b
        | some n =>
          (b.mapPartType n).map fun t =>
            (b.modifyPart q fun p => { p with type := t }).setPosition q (b.part q).position := by
  unfold depositRubble
  rw [hr]
  simp only [nextStage_eq]
  cases (first :: rest)[(first :: rest).indexOf (b.part q).type.id + 1]? with
  | none => rfl
  | some n =>
    simp only [bind, Except.bind, Except.map]
    cases b.mapPartType n <;> rfl

/-- What the rubble block of `update` leaves, in each of its cases. -/
theorem depositRubble_spec (b : Battle) (self : Nat) (rubble : Option Nat) (first : Nat)
    (rest : List Nat) (hlen : self < b.map_parts.length)
    (hr : (b.part self).type.rubble = first :: rest)
    (hty : ∀ id ∈ first :: rest, ∃ t, b.mapPartType id = .ok t)
    (hq : ∀ q, rubble = some q → q ≠ self) :
    ∃ b2, depositRubble b self rubble = .ok b2 ∧ b2.part self = b.part self
      ∧ (match rubble with
         | none => ∃ t, b.mapPartType first = .ok t
            ∧ b2.map_parts.length = b.map_parts.length + 1
            ∧ (∀ k, k < b.map_parts.length → b2.part k = b.part k)
            ∧ b2.part b.map_parts.length
                = newRubble t (b.part self).position
                    ⟨convertType t.type, b.map_parts.length, tileCell (b.part self).position⟩
         | some q => b2.map_parts.length = b.map_parts.length
            ∧ (∀ k, k ≠ q → b2.part k = b.part k)
            ∧ (q < b.map_parts.length →
                match (first :: rest)[(first :: rest).indexOf (b.part q).type.id + 1]? with
                | some n => ∃ t, b.mapPartType n = .ok t ∧ (b2.part q).type = t
                | none => (b2.part q).type = (b.part q).type)) := by
  cases rubble with
  | none =>
    obtain ⟨t, ht⟩ := hty first (List.mem_cons_self _ _)
    rw [depositRubble_of_none b self first rest t hr ht]
    refine ⟨_, rfl, Battle.part_append b _ _ self hlen, t, ht, ?_, ?_, ?_⟩
    · simp
    · intro k hk
      exact Battle.part_append b _ _ k hk
    · exact Battle.part_append_new b _ _
  | some q =>
    have hqs : q ≠ self := hq q rfl
    rw [depositRubble_of_some b self q first rest hr]
    cases hn : (first :: rest)[(first :: rest).indexOf (b.part q).type.id + 1]? with
    | none =>
      refine ⟨b, rfl, rfl, rfl, fun _ _ => rfl, fun _ => ?_⟩
      rw [hn]
    | some n =>
      obtain ⟨t, ht⟩ := hty n (List.getElem?_mem hn)
      simp only [ht, Except.map]
      refine ⟨_, rfl, ?_, ?_, ?_, ?_⟩
      · rw [Battle.part_setPosition, if_neg (fun h => hqs h.1),
          Battle.part_modifyPart_ne _ _ _ _ hqs]
      · rw [Battle.length_setPosition, Battle.length_modifyPart]
      · intro k hk
        rw [Battle.part_setPosition, if_neg (fun h => hk h.1.symm),
          Battle.part_modifyPart_ne _ _ _ _ (Ne.symm hk)]
      · intro hql
        rw [hn]
        refine ⟨t, ht, ?_⟩
        have hl2 : q < (b.modifyPart q fun p => { p with type := t }).map_parts.length := by
          rw [Battle.length_modifyPart]; exact hql
        rw [Battle.part_setPosition, if_pos ⟨rfl, hl2⟩, Battle.part_modifyPart_self _ _ _ hql]

/-- The rubble block returns when every type of the list is a type of the game
state, and leaves the falling part as it is. -/
theorem depositRubble_self (b : Battle) (self : Nat) (rubble : Option Nat)
    (hlen : self < b.map_parts.length)
    (hty : ∀ id ∈ (b.part self).type.rubble, ∃ t, b.mapPartType id = .ok t)
    (hq : ∀ q, rubble = some q → q ≠ self) :
    ∃ b2, depositRubble b self rubble = .ok b2 ∧ b2.part self = b.part self := by
  cases hr : (b.part self).type.rubble with
  | nil =>
    refine ⟨b, ?_, rfl⟩
    unfold depositRubble
    rw [hr]
  | cons first rest =>
    rw [hr] at hty
    obtain ⟨b2, h1, h2, _⟩ := depositRubble_spec b self rubble first rest hlen hr hty hq
    exact ⟨b2, h1, h2⟩

/-- A falling part that the loop over its tile finds colliding: after the rubble
block has left the battle `b2`, the part is destroyed and off the grid, and the
other parts are those of `b2`. -/
theorem processFalling_of_hit (TM fuel : Nat) (b : Battle) (self : Nat)
    (ts : TileObjectBattleMapPart) (newZ : Int) (whole : Bool) (b2 : Battle)
    (hf : (b.part self).falling = true) (hto : (b.part self).tileObject = some ts)
    (hc : newZ < 0 ∨ newZ ≠ (b.part self).position.z)
    (hany : (b.map.getTile ts.owningTile).any (collidesWith b self) = true)
    (hd : depositRubble (b.modifyPart self fun p => { p with destroyed := true }) self
        ((b.map.getTile ts.owningTile).foldl
          (fun r o => if depositsInto b self o then some o.owner else r) none) = .ok b2)
    (hs : b2.part self
      = (b.modifyPart self fun p => { p with destroyed := true }).part self) :
    ∃ b3, processFalling TM fuel b self newZ whole = .ok b3
      ∧ b3.map_parts.length = b2.map_parts.length
      ∧ (∀ q, q ≠ self → b3.part q = b2.part q)
      ∧ b3.part self = { b.part self with tileObject := none, destroyed := true } := by
  have hlen := b.lt_of_tileObject self ts hto
  have hbd : (b.modifyPart self fun p => { p with destroyed := true }).part self
      = { b.part self with destroyed := true } := Battle.part_modifyPart_self _ _ _ hlen
  rw [hbd] at hs
  have hf2 : (b2.part self).falling = true := by rw [hs]; exact hf
  have hto2 : (b2.part self).tileObject = some ts := by rw [hs]; exact hto
  obtain ⟨b3, h1, h2, h3, h4⟩ := die_falling_spec TM fuel b2 self ts hf2 hto2
  refine ⟨b3, ?_, h2, h3, ?_⟩
  · rw [processFalling_of_crossing TM fuel b self ts newZ whole hto hc]
    simp only [hany, if_true, hbd, hd, bind, Except.bind]
    exact h1
  · rw [h4, hs]

theorem processFalling_of_clear (TM fuel : Nat) (b : Battle) (self : Nat)
    (ts : TileObjectBattleMapPart) (newZ : Int) (whole : Bool)
    (hto : (b.part self).tileObject = some ts) (hnd : (b.part self).destroyed = false)
    (hc : newZ < 0 ∨ newZ ≠ (b.part self).position.z)
    (hany : (b.map.getTile ts.owningTile).any (collidesWith b self) = false) :
    processFalling TM fuel b self newZ whole
      = .ok (b.setPosition self ⟨(b.part self).position.x, (b.part self).position.y, truncHeight newZ whole⟩) := by
  rw [processFalling_of_crossing TM fuel b self ts newZ whole hto hc]
  simp only [hany, Bool.false_eq_true, if_false, hnd]
  rfl

/-- The owner of the last object into which rubble is deposited is a live part,
so it is not the falling part. -/
theorem rubble_ne_self (b : Battle) (self : Nat) (tile : List TileObjectBattleMapPart)
    (hf : (b.part self).falling = true) (q : Nat)
    (h : tile.foldl (fun r o => if depositsInto b self o then some o.owner else r) none
      = some q) : q ≠ self := by
  rw [foldl_depositsInto] at h
  cases hfind : tile.reverse.find? (depositsInto b self) with
  | none => rw [hfind] at h; cases h
  | some o =>
    rw [hfind] at h
    cases h
    have ha := depositsInto_alive b self o (List.find?_some hfind)
    intro e
    rw [e, isAlive_of_falling _ hf] at ha
    cases ha

/-! ## The purge by the letter of the source -/

theorem eraseSupported_of_not_mem (pos : Vec3) (t : PartType) (l : List (Vec3 × PartType))
    (h : (pos, t) ∉ l) : eraseSupported pos t l = l := by
  unfold eraseSupported
  rw [List.filter_eq_self]
  intro p hp
  by_contra hc
  apply h
  have e : p = (pos, t) := by
    obtain ⟨p1, p2⟩ := p
    simp only [Bool.not_eq_true', Bool.not_eq_false, Bool.and_eq_true, decide_eq_true_eq] at hc
    rw [hc.1, hc.2]
  rw [← e]
  exact hp

theorem any_entry_iff (pos : Vec3) (t : PartType) (l : List (Vec3 × PartType)) :
    l.any (fun p => decide (p.1 = pos) && decide (p.2 = t)) = true ↔ (pos, t) ∈ l := by
  rw [List.any_eq_true]
  constructor
  · rintro ⟨⟨p1, p2⟩, hp, hc⟩
    simp only [Bool.and_eq_true, decide_eq_true_eq] at hc
    rw [← hc.1, ← hc.2]
    exact hp
  · intro h
    exact ⟨(pos, t), h, by simp⟩

/-- A step of the erase loop that is defined leaves the grid and the number of
parts as they are, and changes no list but that of the calling part. -/
theorem eraseThroughCaller_ok (self : Nat) (pos : Vec3) (t : PartType) (b : Battle) (mp : Nat)
    (b1 : Battle) (h : eraseThroughCaller self pos t b mp = .ok b1) :
    b1.map = b.map ∧ ∀ q, q ≠ self → b1.part q = b.part q := by
  unfold eraseThroughCaller at h
  by_cases hs : mp = self
  · rw [if_pos hs] at h
    cases h
    subst hs
    exact ⟨rfl, fun q hq => Battle.part_modifyPart_ne _ _ _ _ (Ne.symm hq)⟩
  · rw [if_neg hs] at h
    split at h
    · cases h
    · cases h
      exact ⟨rfl, fun _ _ => rfl⟩

/-- The erase loop over the listed parts when no part other than the caller
holds an entry to erase: it erases as the list implementations do. -/
theorem foldlM_eraseThroughCaller_of_clean (self : Nat) (pos : Vec3) (t : PartType)
    (owners : List Nat) (b : Battle)
    (h : ∀ q ∈ owners, q ≠ self → (pos, t) ∉ (b.part q).supportedParts) :
    owners.foldlM (eraseThroughCaller self pos t) b
      = .ok (b.modifyParts owners (BattleMapPart.eraseSupported pos t)) := by
  induction owners generalizing b with
  | nil => rfl
  | cons mp rest ih =>
    rw [List.foldlM_cons, Battle.modifyParts_cons]
    by_cases hs : mp = self
    · have e : eraseThroughCaller self pos t b mp
          = .ok (b.modifyPart mp (BattleMapPart.eraseSupported pos t)) := by
        unfold eraseThroughCaller
        rw [if_pos hs]
      rw [e]
      show List.foldlM _ _ rest = _
      apply ih
      intro q hq hqs
      rw [Battle.part_modifyPart_ne _ _ _ _ (fun hc => hqs (hc.symm.trans hs))]
      exact h q (List.mem_cons_of_mem _ hq) hqs
    · have hn := h mp (List.mem_cons_self _ _) hs
      have e : eraseThroughCaller self pos t b mp = .ok b := by
        unfold eraseThroughCaller
        rw [if_neg hs, if_neg]
        intro hc
        exact hn ((any_entry_iff pos t _).1 hc)
      have e2 : b.modifyPart mp (BattleMapPart.eraseSupported pos t) = b := by
        apply Battle.modifyPart_id
        show ({ b.part mp with
          supportedParts := eraseSupported pos t (b.part mp).supportedParts } : BattleMapPart)
          = b.part mp
        rw [eraseSupported_of_not_mem pos t _ hn]
      rw [e, e2]
      show List.foldlM _ _ rest = _
      exact ih b (fun q hq hqs => h q (List.mem_cons_of_mem _ hq) hqs)

/-- The erase loop over the listed parts when a part other than the caller holds
an entry to erase: the erase is called with an iterator of another list. -/
theorem foldlM_eraseThroughCaller_of_foreign (self : Nat) (pos : Vec3) (t : PartType)
    (owners : List Nat) (b : Battle)
    (h : ∃ q ∈ owners, q ≠ self ∧ (pos, t) ∈ (b.part q).supportedParts) :
    owners.foldlM (eraseThroughCaller self pos t) b = .error .foreignIterator := by
  induction owners generalizing b with
  | nil =>
    obtain ⟨q, hq, _⟩ := h
    cases hq
  | cons mp rest ih =>
    rw [List.foldlM_cons]
    obtain ⟨q, hq, hqs, hmem⟩ := h
    by_cases hs : mp = self
    · have e : eraseThroughCaller self pos t b mp
          = .ok (b.modifyPart mp (BattleMapPart.eraseSupported pos t)) := by
        unfold eraseThroughCaller
        rw [if_pos hs]
      rw [e]
      show List.foldlM _ _ rest = _
      apply ih
      have hqr : q ∈ rest := by
        rcases List.mem_cons.1 hq with hq | hq
        · exact absurd (hq.trans hs) hqs
        · exact hq
      refine ⟨q, hqr, hqs, ?_⟩
      rw [Battle.part_modifyPart_ne _ _ _ _ (fun hc => hqs (hc.symm.trans hs))]
      exact hmem
    · by_cases hany : (pos, t) ∈ (b.part mp).supportedParts
      · have e : eraseThroughCaller self pos t b mp = .error .foreignIterator := by
          unfold eraseThroughCaller
          rw [if_neg hs, if_pos ((any_entry_iff pos t _).2 hany)]
        rw [e]
        rfl
      · have e : eraseThroughCaller self pos t b mp = .ok b := by
          unfold eraseThroughCaller
          rw [if_neg hs, if_neg]
          intro hc
          exact hany ((any_entry_iff pos t _).1 hc)
        rw [e]
        show List.foldlM _ _ rest = _
        apply ih
        have hqr : q ∈ rest := by
          rcases List.mem_cons.1 hq with hq | hq
          · rw [hq] at hmem
            exact absurd hmem hany
          · exact hq
        exact ⟨q, hqr, hqs, hmem⟩

theorem foldlM_eraseThroughCaller_map (self : Nat) (pos : Vec3) (t : PartType)
    (owners : List Nat) (b b1 : Battle)
    (h : owners.foldlM (eraseThroughCaller self pos t) b = .ok b1) : b1.map = b.map := by
  induction owners generalizing b with
  | nil => cases h; rfl
  | cons mp rest ih =>
    rw [List.foldlM_cons] at h
    cases he : eraseThroughCaller self pos t b mp with
    | error e => rw [he] at h; cases h
    | ok b2 =>
      rw [he] at h
      exact (ih b2 h).trans (eraseThroughCaller_ok self pos t b mp b2 he).1

/-- The purge visits the parts of the neighbourhood in the order of
`neighbourOwners`. -/
theorem cleanSupportProvidersChecked_eq (b : Battle) (self : Nat) (pos : Vec3) (t : PartType) :
    cleanSupportProvidersChecked b self pos t
      = (neighbourOwners b.map pos).foldlM (eraseThroughCaller self pos t) b := by
  unfold cleanSupportProvidersChecked neighbourOwners
  generalize block pos = cs
  have key : ∀ (cs : List Vec3) (m : TileMap) (b : Battle), b.map = m →
      cs.foldlM (fun b v => if outOfBounds b.map v then pure b
        else (b.map.getTile v).foldlM (fun b o => eraseThroughCaller self pos t b o.owner) b) b
      = (cs.flatMap fun v =>
          if outOfBounds m v then [] else (m.getTile v).map fun o => o.owner).foldlM
          (eraseThroughCaller self pos t) b := by
    intro cs
    induction cs with
    | nil => intro m b _; rfl
    | cons v rest ih =>
      intro m b hm
      rw [List.foldlM_cons, List.flatMap_cons, List.foldlM_append, hm]
      by_cases ho : outOfBounds m v = true
      · simp only [ho, if_true, List.foldlM_nil, pure_bind]
        exact ih m b hm
      · simp only [ho, Bool.false_eq_true, if_false, List.foldlM_map]
        cases hf : List.foldlM (fun b o => eraseThroughCaller self pos t b o.owner) b
            (m.getTile v) with
        | error e => rfl
        | ok b2 =>
          have hm2 : b2.map = m := by
            have := foldlM_eraseThroughCaller_map self pos t ((m.getTile v).map fun o => o.owner)
              b b2 (by rw [List.foldlM_map]; exact hf)
            rw [this, hm]
          exact ih m b2 hm2
  exact key cs b.map b rfl

/-- When no part of the neighbourhood other than the caller holds an entry to
erase, the purge by the letter of the source is defined and erases what the list
implementations erase. -/
theorem cleanSupportProvidersChecked_of_clean (b : Battle) (self : Nat) (pos : Vec3)
    (t : PartType)
    (h : ∀ q ∈ neighbourOwners b.map pos, q ≠ self → (pos, t) ∉ (b.part q).supportedParts) :
    cleanSupportProvidersChecked b self pos t = .ok (cleanSupportProviders b pos t) := by
  rw [cleanSupportProvidersChecked_eq, cleanSupportProviders_eq]
  exact foldlM_eraseThroughCaller_of_clean self pos t _ b h

/-- When a part of the neighbourhood other than the caller holds an entry to
erase, the purge calls the erase with an iterator of another list. -/
theorem cleanSupportProvidersChecked_of_foreign (b : Battle) (self : Nat) (pos : Vec3)
    (t : PartType)
    (h : ∃ q ∈ neighbourOwners b.map pos, q ≠ self ∧ (pos, t) ∈ (b.part q).supportedParts) :
    cleanSupportProvidersChecked b self pos t = .error .foreignIterator := by
  rw [cleanSupportProvidersChecked_eq]
  exact foldlM_eraseThroughCaller_of_foreign self pos t _ b h

/-- A purge that is defined has erased nothing from the list of another part. -/
theorem cleanSupportProvidersChecked_ok (b : Battle) (self : Nat) (pos : Vec3) (t : PartType)
    (b1 : Battle) (h : cleanSupportProvidersChecked b self pos t = .ok b1) :
    (∀ q ∈ neighbourOwners b.map pos, q ≠ self → (pos, t) ∉ (b.part q).supportedParts)
      ∧ b1 = cleanSupportProviders b pos t := by
  have hclean : ∀ q ∈ neighbourOwners b.map pos, q ≠ self →
      (pos, t) ∉ (b.part q).supportedParts := by
    intro q hq hqs hmem
    rw [cleanSupportProvidersChecked_of_foreign b self pos t ⟨q, hq, hqs, hmem⟩] at h
    cases h
  refine ⟨hclean, ?_⟩
  rw [cleanSupportProvidersChecked_of_clean b self pos t hclean] at h
  cases h
  rfl

theorem findSupportChecked_floating_eq (b : Battle) (self : Nat)
    (h : (b.part self).type.floating = true) :
    findSupportChecked b self
      = .ok ⟨b.modifyPart self (BattleMapPart.setHard true), true, .floating⟩ := by
  have e := congrArg (fun p => p.type.floating) (strip_setHard_part b self self true)
  simp only [BattleMapPart.strip] at e
  unfold findSupportChecked
  simp only [e, h, if_true]

theorem findSupportChecked_floor_eq (b : Battle) (self : Nat) (ts : TileObjectBattleMapPart)
    (hf : (b.part self).type.floating = false) (hto : (b.part self).tileObject = some ts)
    (hz : ts.owningTile.z = 0) :
    findSupportChecked b self
      = .ok ⟨b.modifyPart self (BattleMapPart.setHard true), true, .floor⟩ := by
  have e := congrArg (fun p => p.type.floating) (strip_setHard_part b self self true)
  have e2 := congrArg (fun p => p.tileObject) (strip_setHard_part b self self true)
  simp only [BattleMapPart.strip] at e e2
  unfold findSupportChecked
  simp only [e, e2, hf, hto, hz, Bool.false_eq_true, if_false, decide_True, if_true]

theorem findSupportChecked_resolve_eq (b : Battle) (self : Nat) (ts : TileObjectBattleMapPart)
    (hf : (b.part self).type.floating = false) (hto : (b.part self).tileObject = some ts)
    (hz : ts.owningTile.z ≠ 0) :
    findSupportChecked b self
      = match cleanSupportProvidersChecked (b.modifyPart self (BattleMapPart.setHard true)) self
          ts.owningTile (b.part self).type.type with
        | .error e => .error e
        | .ok b1 => .ok (resolveSupport b1 self (b.part self).type ts.type ts.owningTile
            ((b.part self).position, (b.part self).type.type)) := by
  have e := congrArg (fun p => p.type) (strip_setHard_part b self self true)
  have e2 := congrArg (fun p => p.tileObject) (strip_setHard_part b self self true)
  have e3 := congrArg (fun p => p.position) (strip_setHard_part b self self true)
  simp only [BattleMapPart.strip] at e e2 e3
  unfold findSupportChecked
  simp only [e, e2, e3, hf, hto, hz, Bool.false_eq_true, if_false, decide_False]

/-- Where `findSupport` read by the letter of the source is defined, it returns
what `findSupport` returns. -/
theorem findSupport_of_checked (b : Battle) (self : Nat) (r : SupportResult)
    (h : findSupportChecked b self = .ok r) : findSupport b self = .ok r := by
  by_cases hf : (b.part self).type.floating = true
  · rw [findSupportChecked_floating_eq b self hf] at h
    rw [findSupport_floating_eq b self hf]
    exact h
  · have hf2 : (b.part self).type.floating = false := by simpa using hf
    cases hto : (b.part self).tileObject with
    | none =>
      have e := congrArg (fun p => p.type.floating) (strip_setHard_part b self self true)
      have e2 := congrArg (fun p => p.tileObject) (strip_setHard_part b self self true)
      simp only [BattleMapPart.strip] at e e2
      unfold findSupportChecked at h
      simp only [e, e2, hf2, hto, Bool.false_eq_true, if_false] at h
      cases h
    | some ts =>
      by_cases hz : ts.owningTile.z = 0
      · rw [findSupportChecked_floor_eq b self ts hf2 hto hz] at h
        rw [findSupport_floor_eq b self ts hf2 hto hz]
        exact h
      · rw [findSupportChecked_resolve_eq b self ts hf2 hto hz] at h
        rw [findSupport_resolve_eq b self ts hf2 hto hz]
        cases hc : cleanSupportProvidersChecked (b.modifyPart self (BattleMapPart.setHard true))
            self ts.owningTile (b.part self).type.type with
        | error e => rw [hc] at h; cases h
        | ok b1 =>
          rw [hc] at h
          rw [← (cleanSupportProvidersChecked_ok _ self _ _ b1 hc).2]
          exact h

/-- Detaching the supports of a part that supports nothing. -/
theorem ceaseSupportProvision_of_nil (TM fuel : Nat) (b : Battle) (self : Nat)
    (hs : getSupportedParts (b.modifyPart self (BattleMapPart.setHard false)) self = .ok []) :
    ceaseSupportProvision TM fuel b self
      = .ok (((b.modifyPart self (BattleMapPart.setHard false)).modifyPart self
          fun p => { p with supportedParts := [] }).modifyPart self
          fun p => { p with supportedItems := false }) :=
  ceaseSupportProvision_of_ok TM fuel b self [] _ hs (attemptReLinkSupports_nil TM fuel _)

set_option maxRecDepth 100000

/-! ## The quick checks of `findSupport` -/

/-- Both quick checks return true and leave every `supportedParts` list as it was. -/
theorem findSupport_quick (b : Battle) (self : Nat) (ts : TileObjectBattleMapPart)
    (hto : (b.part self).tileObject = some ts) (hz : ts.owningTile.z = 0) :
    ∃ r, findSupport b self = .ok r ∧ r.supported = true
      ∧ r.battle = b.modifyPart self (BattleMapPart.setHard true)
      ∧ (r.via = .floating ∨ r.via = .floor) := by
  by_cases hf : (b.part self).type.floating = true
  · exact ⟨_, findSupport_floating_eq b self hf, rfl, rfl, Or.inl rfl⟩
  · exact ⟨_, findSupport_floor_eq b self ts (by simpa using hf) hto hz, rfl, rfl, Or.inr rfl⟩

/-- C1: for a part of category Ground whose cell has z = 0, whatever its type
flags and whatever the grid holds, `findSupport` returns true and the
`supportedParts` list of every part is what it was before the call. -/
theorem findSupport_ground_floor (b : Battle) (self : Nat) (ts : TileObjectBattleMapPart)
    (hto : (b.part self).tileObject = some ts) (hz : ts.owningTile.z = 0)
    (_hg : (b.part self).type.type = .Ground) :
    ∃ r, findSupport b self = .ok r ∧ r.supported = true
      ∧ ∀ q, (r.battle.part q).supportedParts = (b.part q).supportedParts := by
  obtain ⟨r, hr, hs, hb, _⟩ := findSupport_quick b self ts hto hz
  refine ⟨r, hr, hs, fun q => ?_⟩
  rw [hb, supportedParts_setHard_part]

/-- The Ground part 0 of `floorBattle` is on the floor: the call returns true and
changes no list. -/
theorem findSupport_ground_floor_witness :
    ∃ r, findSupport floorBattle 0 = .ok r ∧ r.supported = true
      ∧ ∀ q, (r.battle.part q).supportedParts = (floorBattle.part q).supportedParts :=
  findSupport_ground_floor floorBattle 0 ⟨.Ground, 0, ⟨0, 0, 0⟩⟩ (by decide) (by decide)
    (by decide)

/-- C2: for a part whose type has the floating flag set, `findSupport` returns
true, whatever the position, the category and the grid, and even without a tile
object. -/
theorem findSupport_floating (b : Battle) (self : Nat)
    (hf : (b.part self).type.floating = true) :
    ∃ r, findSupport b self = .ok r ∧ r.supported = true :=
  ⟨_, findSupport_floating_eq b self hf, rfl⟩

/-- The floating Feature of `floatingBattle` is supported. -/
theorem findSupport_floating_witness :
    ∃ r, findSupport floatingBattle 0 = .ok r ∧ r.supported = true :=
  findSupport_floating floatingBattle 0 (by decide)

/-! ## The collapse propagator on the bridge -/

theorem bridge_first_round :
    relinkRound 1 (bridgeBattle.modifyParts [1] (BattleMapPart.queueCollapse 1 0)) [1]
      = .ok ⟨bridgeBoth, [1, 2], true⟩ := by
  decide

theorem bridge_round_both :
    relinkRound 1 bridgeBoth [1, 2] = .ok ⟨bridgeOne, [1], true⟩ := by
  decide

theorem bridge_round_one :
    relinkRound 1 bridgeOne [1] = .ok ⟨bridgeBoth, [1, 2], true⟩ := by
  decide

/-- The three rounds of the bridge under any `TICKS_MULTIPLIER` that is positive
and at most 2^28. -/
theorem bridge_rounds_scaled (m : Nat) (hm : 0 < m) (hlt : m ≤ 268435456) :
    relinkRound m (bridgeBattle.modifyParts [1] (BattleMapPart.queueCollapse m 0)) [1]
        = .ok ⟨bridgeBoth.scaleTicks m, [1, 2], true⟩
      ∧ relinkRound m (bridgeBoth.scaleTicks m) [1, 2]
        = .ok ⟨bridgeOne.scaleTicks m, [1], true⟩
      ∧ relinkRound m (bridgeOne.scaleTicks m) [1]
        = .ok ⟨bridgeBoth.scaleTicks m, [1, 2], true⟩ := by
  have c0 : roundCap 1 ⟨bridgeBattle.modifyParts [1] (BattleMapPart.queueCollapse 1 0), [],
      false⟩ [1] = 2 := by decide
  have c1 : roundCap 2 ⟨bridgeBoth, [], false⟩ [1, 2] = 2 := by decide
  have c2 : roundCap 2 ⟨bridgeOne, [], false⟩ [1] = 3 := by decide
  refine ⟨?_, ?_, ?_⟩
  · rw [queueAll_scaleTicks m (by omega) bridgeBattle [1] (by decide),
      relinkRound_scaleTicks m hm 1 _ [1] (by decide) (by rw [c0]; omega), bridge_first_round]
    rfl
  · rw [relinkRound_scaleTicks m hm 2 _ [1, 2] (by decide) (by rw [c1]; omega),
      bridge_round_both]
    rfl
  · rw [relinkRound_scaleTicks m hm 2 _ [1] (by decide) (by rw [c2]; omega), bridge_round_one]
    rfl

/-- From either of its two recurring states the loop uses up any budget of rounds. -/
theorem bridge_loop_recurs (m : Nat) (hm : 0 < m) (hlt : m ≤ 268435456) (fuel : Nat) :
    relinkLoop m fuel (bridgeBoth.scaleTicks m) [1, 2] = .error .outOfFuel
      ∧ relinkLoop m fuel (bridgeOne.scaleTicks m) [1] = .error .outOfFuel := by
  obtain ⟨_, h1, h2⟩ := bridge_rounds_scaled m hm hlt
  induction fuel with
  | zero => exact ⟨rfl, rfl⟩
  | succ n ih =>
    constructor
    · unfold relinkLoop
      rw [h1]
      exact ih.2
    · unfold relinkLoop
      rw [h2]
      exact ih.1

/-- C3: on the bridge, for every `TICKS_MULTIPLIER` that is positive and at most
2^28, `attemptReLinkSupports` called with the parts that the destroyed part 6
supported (part 1) does not end within any number of rounds: the working set
alternates between parts 1 and 2 and part 1 alone, and `listChanged` is set in
every round. -/
theorem attemptReLinkSupports_bridge_never_ends (m : Nat) (hm : 0 < m) (hlt : m ≤ 268435456)
    (fuel : Nat) :
    getSupportedParts bridgeBattle 6 = .ok [1]
      ∧ attemptReLinkSupports m fuel bridgeBattle [1] = .error .outOfFuel := by
  refine ⟨by decide, ?_⟩
  rw [attemptReLinkSupports_cons]
  cases fuel with
  | zero => rfl
  | succ n =>
    unfold relinkLoop
    rw [(bridge_rounds_scaled m hm hlt).1]
    simp only [if_true]
    rw [(bridge_loop_recurs m hm hlt n).1]

/-- With `TICKS_MULTIPLIER = 2` a thousand rounds do not end the loop on the bridge. -/
theorem attemptReLinkSupports_bridge_never_ends_witness :
    0 < 2 ∧ 2 ≤ 268435456
      ∧ attemptReLinkSupports 2 1000 bridgeBattle [1] = .error .outOfFuel :=
  ⟨by decide, by decide,
    (attemptReLinkSupports_bridge_never_ends 2 (by decide) (by decide) 1000).2⟩

/-! ## The collapse propagator on the terrace -/

theorem terrace_first_round :
    relinkRound 1 (terraceBattle.modifyParts [0, 1] (BattleMapPart.queueCollapse 1 0)) [0, 1]
      = .ok ⟨terraceMid, [0, 2], true⟩ := by
  decide

theorem terrace_second_round :
    relinkRound 1 terraceMid [0, 2] = .ok ⟨terraceFinal, [0, 2], false⟩ := by
  decide

theorem terrace_loop (m : Nat) (hm : 0 < m) (hlt : m ≤ 268435456) (fuel : Nat) :
    relinkLoop m (fuel + 2)
        (terraceBattle.modifyParts [0, 1] (BattleMapPart.queueCollapse m 0)) [0, 1]
      = .ok (terraceFinal.scaleTicks m, [0, 2]) := by
  have c0 : roundCap 1 ⟨terraceBattle.modifyParts [0, 1] (BattleMapPart.queueCollapse 1 0), [],
      false⟩ [0, 1] = 3 := by decide
  have c1 : roundCap 1 ⟨terraceMid, [], false⟩ [0, 2] = 1 := by decide
  have h1 : relinkRound m
      (terraceBattle.modifyParts [0, 1] (BattleMapPart.queueCollapse m 0)) [0, 1]
      = .ok ⟨terraceMid.scaleTicks m, [0, 2], true⟩ := by
    rw [queueAll_scaleTicks m (by omega) terraceBattle [0, 1] (by decide),
      relinkRound_scaleTicks m hm 1 _ [0, 1] (by decide) (by rw [c0]; omega),
      terrace_first_round]
    rfl
  have h2 : relinkRound m (terraceMid.scaleTicks m) [0, 2]
      = .ok ⟨terraceFinal.scaleTicks m, [0, 2], false⟩ := by
    rw [relinkRound_scaleTicks m hm 1 _ [0, 2] (by decide) (by rw [c1]; omega),
      terrace_second_round]
    rfl
  unfold relinkLoop
  rw [h1]
  simp only [if_true]
  unfold relinkLoop
  rw [h2]
  simp

theorem terrace_final_tiles :
    [0, 2].mapM (owningTilePosition terraceFinal)
      = (.ok [⟨1, 1, 1⟩, ⟨2, 1, 1⟩] : Except Fault (List Vec3)) := by
  decide

theorem terrace_final_idle (m : Nat) :
    ((terraceFinal.scaleTicks m).part 2).ticksUntilCollapse = 0 := by
  rw [Battle.part_scaleTicks]
  have h : (terraceFinal.part 2).ticksUntilCollapse = 0 := by decide
  unfold BattleMapPart.scaleTicks
  simp [h]

theorem terrace_final_unsupported :
    findSupport terraceFinal 2 = .ok ⟨terraceFinal, false, .unsupported⟩ := by
  decide

/-- C4: on the terrace, for every `TICKS_MULTIPLIER` that is positive and at most
2^28, `attemptReLinkSupports` called with the parts that the destroyed part 3
supported (parts 0 and 1) returns with part 2 in its final working set although
the countdown of part 2 is 0; part 2 is then unsupported, and nothing will make
it fall. -/
theorem attemptReLinkSupports_terrace_leaves_idle_part (m : Nat) (hm : 0 < m)
    (hlt : m ≤ 268435456) (fuel : Nat) :
    getSupportedParts terraceBattle 3 = .ok [0, 1]
      ∧ ∃ final, attemptReLinkSupports m (fuel + 2) terraceBattle [0, 1] = .ok (final, [0, 2])
        ∧ (final.part 2).ticksUntilCollapse = 0
        ∧ (findSupport final 2).map (fun r => r.supported) = .ok false := by
  refine ⟨by decide, terraceFinal.scaleTicks m, ?_, terrace_final_idle m, ?_⟩
  · rw [attemptReLinkSupports_cons, terrace_loop m hm hlt fuel]
    simp only []
    rw [owningTilePosition_scaleTicks, terrace_final_tiles]
  · rw [findSupport_scaleTicks m hm, terrace_final_unsupported]
    rfl

/-- With `TICKS_MULTIPLIER = 2` and three rounds allowed, the call on the terrace
returns with the idle part 2 in its final working set. -/
theorem attemptReLinkSupports_terrace_leaves_idle_part_witness :
    0 < 2 ∧ 2 ≤ 268435456
      ∧ ∃ final, attemptReLinkSupports 2 3 terraceBattle [0, 1] = .ok (final, [0, 2])
        ∧ (final.part 2).ticksUntilCollapse = 0
        ∧ (findSupport final 2).map (fun r => r.supported) = .ok false :=
  ⟨by decide, by decide,
    (attemptReLinkSupports_terrace_leaves_idle_part 2 (by decide) (by decide) 1).2⟩

/-! ## Rescue in the collapse propagator -/

/-- C5: when `findSupport` returns true for a part `mp` of the working set, then
right after `mp` is processed the countdown of `mp` and of every part of
`supportedByThisMp` (the set `getSupportedParts` gave for `mp`) is 0, and the
processing of `mp` inserts nothing into `nextSet`. -/
theorem relinkPart_rescues (TM : Nat) (st : RelinkState) (mp : Nat) (sup : List Nat)
    (r : SupportResult) (hs : getSupportedParts st.battle mp = .ok sup)
    (hf : findSupport (queueSupported TM st.battle mp sup) mp = .ok r)
    (ht : r.supported = true) :
    ∃ st', relinkPart TM st mp = .ok st'
      ∧ (st'.battle.part mp).ticksUntilCollapse = 0
      ∧ (∀ q ∈ sup, (st'.battle.part q).ticksUntilCollapse = 0)
      ∧ st'.nextSet = st.nextSet := by
  have hto : ∃ ts, (st.battle.part mp).tileObject = some ts := by
    unfold getSupportedParts at hs
    cases h : (st.battle.part mp).tileObject with
    | none => simp [h] at hs
    | some ts => exact ⟨ts, rfl⟩
  obtain ⟨ts, hts⟩ := hto
  have hto' : ((queueSupported TM st.battle mp sup).part mp).tileObject = some ts := by
    rw [queueSupported_proj BattleMapPart.tileObject (fun _ _ _ => rfl)]
    exact hts
  have hpos : owningTilePosition (queueSupported TM st.battle mp sup) mp
      = .ok ts.owningTile := by
    unfold owningTilePosition
    rw [hto']
  refine ⟨⟨(r.battle.modifyPart mp BattleMapPart.cancelCollapse).modifyParts sup
    BattleMapPart.cancelCollapse, st.nextSet, true⟩, ?_, ?_, ?_, rfl⟩
  · unfold relinkPart
    simp only [hs, hpos, hf, ht, bind, Except.bind, pure, Except.pure, if_true]
  · rw [ticks_modifyParts_cancel]
    split
    · rfl
    · exact ticks_modifyPart_cancel_self r.battle mp
  · intro q hq
    rw [ticks_modifyParts_cancel]
    simp [hq]

/-- On the terrace, with parts 0 and 1 queued, part 1 supports part 2 and finds
the Feature 4: after it is processed its countdown and that of part 2 are 0. -/
theorem relinkPart_rescues_witness :
    getSupportedParts (terraceBattle.modifyParts [0, 1] (BattleMapPart.queueCollapse 2 0)) 1
        = .ok [2]
      ∧ ∃ st', relinkPart 2
          ⟨terraceBattle.modifyParts [0, 1] (BattleMapPart.queueCollapse 2 0), [], false⟩ 1
          = .ok st'
        ∧ (st'.battle.part 1).ticksUntilCollapse = 0
        ∧ (∀ q ∈ [2], (st'.battle.part q).ticksUntilCollapse = 0)
        ∧ st'.nextSet = [] :=
  ⟨by decide,
    relinkPart_rescues 2
      ⟨terraceBattle.modifyParts [0, 1] (BattleMapPart.queueCollapse 2 0), [], false⟩ 1 [2]
      ((findSupport (queueSupported 2
        (terraceBattle.modifyParts [0, 1] (BattleMapPart.queueCollapse 2 0)) 1 [2])
        1).toOption.getD default)
      (by decide) (by decide) (by decide)⟩

/-! ## Who can receive a support edge -/

/-- C6: take a well-formed grid and a call of `findSupport` that returned through
step 01, step 02 or step 03.  A part `q` whose `supportedParts` list after the
call is not the list the purge left (it received a new edge) is not the caller,
is not falling, not destroyed, has `ticksUntilCollapse = 0`, is undamaged, and:
if it is Ground its tile has the z of the caller's tile, otherwise it declares
`provides_support` or its tile is not higher than the caller's. -/
theorem findSupport_supporter_eligible (b : Battle) (self q : Nat) (r : SupportResult)
    (ts : TileObjectBattleMapPart) (hc : b.consistent) (hr : findSupport b self = .ok r)
    (hto : (b.part self).tileObject = some ts)
    (hvia : r.via = .special ∨ r.via = .direction ∨ r.via = .cling)
    (hnew : (r.battle.part q).supportedParts
      ≠ ((cleanSupportProviders b ts.owningTile (b.part self).type.type).part q).supportedParts) :
    q ≠ self ∧ (b.part q).falling = false ∧ (b.part q).destroyed = false
      ∧ (b.part q).ticksUntilCollapse = 0 ∧ (b.part q).damaged = false
      ∧ ∃ tq, (b.part q).tileObject = some tq
        ∧ (if (b.part q).type.type = .Ground then tq.owningTile.z = ts.owningTile.z
           else (b.part q).type.provides_support = true
            ∨ tq.owningTile.z ≤ ts.owningTile.z) := by
  obtain ⟨sups, R⟩ := findSupport_resolved b self r ts hr hto
    (by rcases hvia with h | h | h <;> rw [h] <;> exact ⟨by decide, by decide⟩)
  have hq : q ∈ sups := R.mem_of_new q (by
    unfold purged
    rw [supportedParts_clean_setHard]
    exact hnew)
  have hcand : SpecialCandidate b self (b.part self).type ts.owningTile q
      ∨ Candidate b self ts.owningTile q := by
    obtain ⟨_, _, _, hp⟩ := R
    rcases hvia with h | h | h
    · rw [h] at hp
      exact Or.inl (SpecialCandidate_congr _ b self _ _ q (map_purged b self ts)
        (strip_purged b self ts q) (hp.1 q hq))
    · rw [h] at hp
      exact Or.inr (Candidate_congr _ b self _ q (map_purged b self ts)
        (strip_purged b self ts q) (hp.1 q hq))
    · rw [h] at hp
      exact Or.inr (Candidate_congr _ b self _ q (map_purged b self ts)
        (strip_purged b self ts q) (hp.1 q hq))
  rcases hcand with ⟨v, o, _, hmem, hown, hcan, hok⟩ | ⟨v, o, _, hmem, hown, hok⟩
  · obtain ⟨hov, hoo, hot⟩ := b.consistent_getTile hc v o hmem
    rw [hown] at hoo hot
    obtain ⟨hne, halive, hdam, hsup⟩ := specialOwnerOk_spec b self _ v.z q hok
    obtain ⟨hfa, hde, hti⟩ := (b.part q).isAlive_eq_true halive
    refine ⟨hne, hfa, hde, hti, hdam, o, hoo, ?_⟩
    rw [hov]
    split
    · rename_i hg
      rw [hot, hg] at hcan
      exact canSupportSpecial_ground _ _ _ hcan
    · rename_i hg
      rcases hsup with h | h | h
      · exact Or.inl h
      · exact absurd h hg
      · exact Or.inr h
  · obtain ⟨hov, hoo, _⟩ := b.consistent_getTile hc v o hmem
    rw [hown] at hoo
    obtain ⟨hne, halive, hdam, hgr, hsup⟩ := ownerOk_spec b self _ v.z q hok
    obtain ⟨hfa, hde, hti⟩ := (b.part q).isAlive_eq_true halive
    refine ⟨hne, hfa, hde, hti, hdam, o, hoo, ?_⟩
    rw [hov]
    split
    · rename_i hg
      rcases hgr with h | h
      · exact absurd hg h
      · exact h
    · exact hsup

/-- On the terrace part 1 finds the Feature 4 through step 01: part 4 receives
the edge and is eligible. -/
theorem findSupport_supporter_eligible_witness :
    terraceBattle.consistent
      ∧ (4 ≠ 1 ∧ (terraceBattle.part 4).falling = false
        ∧ (terraceBattle.part 4).destroyed = false
        ∧ (terraceBattle.part 4).ticksUntilCollapse = 0
        ∧ (terraceBattle.part 4).damaged = false
        ∧ ∃ tq, (terraceBattle.part 4).tileObject = some tq
          ∧ (if (terraceBattle.part 4).type.type = .Ground then
              tq.owningTile.z = (⟨.Ground, 1, ⟨2, 2, 1⟩⟩ : TileObjectBattleMapPart).owningTile.z
             else (terraceBattle.part 4).type.provides_support = true
              ∨ tq.owningTile.z
                ≤ (⟨.Ground, 1, ⟨2, 2, 1⟩⟩ : TileObjectBattleMapPart).owningTile.z)) :=
  ⟨by decide,
    findSupport_supporter_eligible terraceBattle 1 4
      ((findSupport terraceBattle 1).toOption.getD default) ⟨.Ground, 1, ⟨2, 2, 1⟩⟩
      (by decide) (by decide) (by decide) (by decide) (by decide)⟩

/-! ## Parts that cannot be a support source -/

/-- C7, as stated, fails: on the bridge with parts 1 and 2 collapse-pending, the
call on part 2 returns true through the ray-cast along X and appends an entry to
the list of part 1, whose `ticksUntilCollapse` is 1. -/
theorem findSupport_ray_registers_on_pending :
    ∃ r, findSupport bridgeBoth 2 = .ok r ∧ r.supported = true ∧ r.via = .lineX
      ∧ (bridgeBoth.part 1).ticksUntilCollapse = 1
      ∧ ((cleanSupportProviders bridgeBoth ⟨2, 1, 1⟩ .Feature).part 1).supportedParts = []
      ∧ (r.battle.part 1).supportedParts = [(⟨2, 1, 1⟩, .Feature)] :=
  ⟨(findSupport bridgeBoth 2).toOption.getD default, by decide, by decide, by decide,
    by decide, by decide, by decide⟩

/-- C7, amended: when a call of `findSupport` does not return through the
ray-cast of step 04, a part with `ticksUntilCollapse > 0` receives no entry: its
list after the call is its list before the call or the list the purge left. -/
theorem findSupport_pending_not_source (b : Battle) (self q : Nat) (r : SupportResult)
    (hr : findSupport b self = .ok r)
    (hvia : r.via ≠ .lineX ∧ r.via ≠ .lineY ∧ r.via ≠ .disappearedX ∧ r.via ≠ .disappearedY)
    (hq : (b.part q).ticksUntilCollapse > 0) :
    (r.battle.part q).supportedParts = (b.part q).supportedParts
    ∨ ∃ ts, (b.part self).tileObject = some ts
        ∧ (r.battle.part q).supportedParts
          = ((cleanSupportProviders b ts.owningTile (b.part self).type.type).part
              q).supportedParts := by
  rcases findSupport_lists b self r hr q with h | ⟨ts, sups, hto, R, h⟩
  · exact Or.inl h.2
  · refine Or.inr ⟨ts, hto, h (fun hmem => ?_)⟩
    rcases R.supporter q hmem with ⟨_, halive⟩ | ⟨hv, _⟩
    · have hs := congrArg BattleMapPart.isAlive (strip_purged b self ts q)
      have e : ∀ p : BattleMapPart, p.strip.isAlive = p.isAlive := fun _ => rfl
      rw [e, e, halive] at hs
      have := ((b.part q).isAlive_eq_true hs.symm).2.2
      omega
    · rcases hv with h | h | h | h
      · exact hvia.1 h
      · exact hvia.2.1 h
      · exact hvia.2.2.1 h
      · exact hvia.2.2.2 h

/-- On the bridge with part 1 collapse-pending, part 3 calls `findSupport` and
returns through step 01: the list of part 1 is the list the purge left. -/
theorem findSupport_pending_not_source_witness :
    (bridgeBoth.part 1).ticksUntilCollapse > 0
      ∧ ((((findSupport bridgeBoth 3).toOption.getD default).battle.part 1).supportedParts
          = (bridgeBoth.part 1).supportedParts
        ∨ ∃ ts, (bridgeBoth.part 3).tileObject = some ts
          ∧ (((findSupport bridgeBoth 3).toOption.getD default).battle.part 1).supportedParts
            = ((cleanSupportProviders bridgeBoth ts.owningTile
                (bridgeBoth.part 3).type.type).part 1).supportedParts) :=
  ⟨by decide,
    findSupport_pending_not_source bridgeBoth 3 1
      ((findSupport bridgeBoth 3).toOption.getD default) (by decide) (by decide) (by decide)⟩

/-- C8: in every call of `findSupport`, through whichever step it returns, a
part that is falling or destroyed receives no entry: its list after the call is
its list before the call or the list the purge left. -/
theorem findSupport_dead_not_source (b : Battle) (self q : Nat) (r : SupportResult)
    (hr : findSupport b self = .ok r)
    (hq : (b.part q).falling = true ∨ (b.part q).destroyed = true) :
    (r.battle.part q).supportedParts = (b.part q).supportedParts
    ∨ ∃ ts, (b.part self).tileObject = some ts
        ∧ (r.battle.part q).supportedParts
          = ((cleanSupportProviders b ts.owningTile (b.part self).type.type).part
              q).supportedParts := by
  rcases findSupport_lists b self r hr q with h | ⟨ts, sups, hto, R, h⟩
  · exact Or.inl h.2
  · refine Or.inr ⟨ts, hto, h (fun hmem => ?_)⟩
    have hs := strip_purged b self ts q
    rcases R.supporter q hmem with ⟨_, halive⟩ | ⟨_, hpass⟩
    · have ha := congrArg BattleMapPart.isAlive hs
      have e : ∀ p : BattleMapPart, p.strip.isAlive = p.isAlive := fun _ => rfl
      rw [e, e, halive] at ha
      obtain ⟨hfa, hde, _⟩ := (b.part q).isAlive_eq_true ha.symm
      rcases hq with hq | hq
      · rw [hfa] at hq; exact absurd hq (by decide)
      · rw [hde] at hq; exact absurd hq (by decide)
    · obtain ⟨hde, _, hfa⟩ := RayPassable_congr _ b q hs hpass
      rcases hq with hq | hq
      · rw [hfa] at hq; exact absurd hq (by decide)
      · rw [hde] at hq; exact absurd hq (by decide)

/-- On the bridge the destroyed part 6 lies under part 1: the call on part 1
leaves the list of part 6 as the purge left it. -/
theorem findSupport_dead_not_source_witness :
    (bridgeBattle.part 6).destroyed = true
      ∧ ((((findSupport bridgeBattle 1).toOption.getD default).battle.part 6).supportedParts
          = (bridgeBattle.part 6).supportedParts
        ∨ ∃ ts, (bridgeBattle.part 1).tileObject = some ts
          ∧ (((findSupport bridgeBattle 1).toOption.getD default).battle.part 6).supportedParts
            = ((cleanSupportProviders bridgeBattle ts.owningTile
                (bridgeBattle.part 1).type.type).part 6).supportedParts) :=
  ⟨by decide,
    findSupport_dead_not_source bridgeBattle 1 6
      ((findSupport bridgeBattle 1).toOption.getD default) (by decide) (Or.inr (by decide))⟩

/-! ## The purge -/

/-- C10, as stated, fails: the floating part of `floatingBattle` has no
neighbour, neither step 01 nor step 02 finds a supporter, and yet
`providesHardSupport` is true after the call. -/
theorem findSupport_floating_sets_hard :
    ∃ r, findSupport floatingBattle 0 = .ok r ∧ r.supported = true ∧ r.via = .floating
      ∧ checkSpecialConditions floatingBattle 0 (floatingBattle.part 0).type ⟨1, 1, 1⟩ = none
      ∧ (floatingBattle.part 0).type.supportedByDirections = []
      ∧ (floatingBattle.part 0).providesHardSupport = false
      ∧ (r.battle.part 0).providesHardSupport = true :=
  ⟨(findSupport floatingBattle 0).toOption.getD default, by decide, by decide, by decide,
    by decide, by decide, by decide, by decide⟩

/-- C10, amended: after `findSupport` returns, `providesHardSupport` of the
caller is true exactly when the call returned through the floating check, the
z = 0 check, step 01 or step 02, and these four return true; it is false when
the call returned true through clinging or a ray-cast, and false when the call
returned false. -/
theorem findSupport_hard_flag (b : Battle) (self : Nat) (r : SupportResult)
    (hr : findSupport b self = .ok r) :
    ((r.battle.part self).providesHardSupport = true
        ↔ (r.via = .floating ∨ r.via = .floor ∨ r.via = .special ∨ r.via = .direction))
      ∧ ((r.via = .floating ∨ r.via = .floor ∨ r.via = .special ∨ r.via = .direction) →
          r.supported = true)
      ∧ ((r.via = .cling ∨ r.via = .lineX ∨ r.via = .lineY) →
          r.supported = true ∧ (r.battle.part self).providesHardSupport = false)
      ∧ (r.supported = false → (r.battle.part self).providesHardSupport = false) := by
  rcases findSupport_cases b self r hr with h | ⟨ts, hto, _, h⟩ | ⟨ts, hto, _, _, h⟩
  · have hlen : self < b.map_parts.length := part_ne_default_lt b self (fun e => by
      have := h.2; rw [e] at this; exact absurd this (by decide))
    have hh := hard_setHard_self b self true hlen
    rw [h.1]
    simp [hh]
  · have hlen : self < b.map_parts.length := part_ne_default_lt b self (fun e => by
      have hd : (default : BattleMapPart).tileObject = none := rfl
      rw [e, hd] at hto; cases hto)
    have hh := hard_setHard_self b self true hlen
    rw [h]
    simp [hh]
  · have hlen : self < b.map_parts.length := part_ne_default_lt b self (fun e => by
      have hd : (default : BattleMapPart).tileObject = none := rfl
      rw [e, hd] at hto; cases hto)
    have hh : ((purged b self ts).part self).providesHardSupport = true := by
      unfold purged
      rw [hard_clean]
      exact hard_setHard_self b self true hlen
    obtain ⟨sups, R⟩ := resolveSupport_resolved (purged b self ts) self (b.part self).type
      ts.type ts.owningTile ((b.part self).position, (b.part self).type.type)
    rw [← h] at R
    obtain ⟨_, _, _, hp⟩ := R
    cases hv : r.via with
    | floating => rw [hv] at hp; exact hp.elim
    | floor => rw [hv] at hp; exact hp.elim
    | special => rw [hv] at hp; simp [hp.2.1, hp.2.2, hh]
    | direction => rw [hv] at hp; simp [hp.2.1, hp.2.2, hh]
    | cling => rw [hv] at hp; simp [hp.2.1, hp.2.2]
    | lineX => rw [hv] at hp; simp [hp.2.1, hp.2.2]
    | lineY => rw [hv] at hp; simp [hp.2.1, hp.2.2]
    | disappearedX => rw [hv] at hp; simp [hp.2.1, hp.2.2]
    | disappearedY => rw [hv] at hp; simp [hp.2.1, hp.2.2]
    | unsupported => rw [hv] at hp; simp [hp.2.1, hp.2.2]

/-- On the terrace part 2 clings to parts 0 and 1: the call returns true and the
flag is false. -/
theorem findSupport_hard_flag_witness :
    ((findSupport terraceBattle 2).toOption.getD default).via = .cling
      ∧ ((findSupport terraceBattle 2).toOption.getD default).supported = true
      ∧ ((((findSupport terraceBattle 2).toOption.getD default).battle.part
          2).providesHardSupport = false) := by
  have h := findSupport_hard_flag terraceBattle 2
    ((findSupport terraceBattle 2).toOption.getD default) (by decide)
  have hv : ((findSupport terraceBattle 2).toOption.getD default).via = .cling := by decide
  exact ⟨hv, h.2.2.1 (Or.inl hv)⟩

/-! ## `die` and `update` on a row whose relinking does not end -/

theorem sturdy_replaced (m : Nat) :
    replaceWithDamaged m sturdyBridge 6
      = .ok (sturdyState true [(⟨1, 1, 1⟩, .Feature)] 0 true [(⟨2, 1, 1⟩, .Feature)] 0) := by
  rw [replaceWithDamaged_of_variant m sturdyBridge 6 1 damagedFeature
    ⟨sturdyBridge.modifyPart 6 fun p => { p with type := damagedFeature }, true, .floor⟩
    (by decide) (by decide) (by decide)]
  simp only [if_true]
  decide

theorem sturdy_first_round :
    relinkRound 1
        ((sturdyState false [(⟨1, 1, 1⟩, .Feature)] 0 true [(⟨2, 1, 1⟩, .Feature)] 0).modifyParts
          [1] (BattleMapPart.queueCollapse 1 0)) [1]
      = .ok ⟨sturdyState false [] 1 false [] 2, [1, 2], true⟩ := by
  decide

theorem sturdy_round_both :
    relinkRound 1 (sturdyState false [] 1 false [] 2) [1, 2]
      = .ok ⟨sturdyState false [] 1 false [(⟨2, 1, 1⟩, .Feature)] 0, [1], true⟩ := by
  decide

theorem sturdy_round_one :
    relinkRound 1 (sturdyState false [] 1 false [(⟨2, 1, 1⟩, .Feature)] 0) [1]
      = .ok ⟨sturdyState false [] 1 false [] 2, [1, 2], true⟩ := by
  decide

theorem sturdy_relink (m : Nat) (hm : 0 < m) (hlt : m ≤ 268435456) (fuel : Nat) :
    attemptReLinkSupports m fuel
        (sturdyState false [(⟨1, 1, 1⟩, .Feature)] 0 true [(⟨2, 1, 1⟩, .Feature)] 0) [1]
      = .error .outOfFuel :=
  attemptReLinkSupports_alternates m hm hlt _ _ _ 1 [] [1, 2] [1] 2 (by decide)
    sturdy_first_round sturdy_round_both sturdy_round_one (by decide) (by decide) (by decide)
    (by decide) (by decide) (by decide) fuel

/-- C11: on the row of Features in which the Feature under part 1 (part 6) has a
damaged variant, for every `TICKS_MULTIPLIER` that is positive and at most 2^28,
`die` called on part 6, which is not falling and has its tile object, does not
return within any number of rounds of the relink loop: the type is replaced and
`findSupport` succeeds, and then `ceaseSupportProvision` relinks part 1, whose
loop alternates for ever between the parts 1 and 2 and part 1 alone. -/
theorem die_damaged_variant_never_returns (m : Nat) (hm : 0 < m) (hlt : m ≤ 268435456)
    (fuel : Nat) :
    (sturdyBridge.part 6).falling = false
      ∧ (sturdyBridge.part 6).tileObject = some ⟨.Feature, 6, ⟨1, 1, 0⟩⟩
      ∧ (sturdyBridge.part 6).type.damaged_map_part = some 1
      ∧ die m fuel sturdyBridge 6 = .error .outOfFuel := by
  refine ⟨by decide, by decide, by decide, ?_⟩
  rw [die_of_not_falling m fuel sturdyBridge 6 ⟨.Feature, 6, ⟨1, 1, 0⟩⟩ (by decide) (by decide),
    sturdy_replaced]
  have hd : ceaseDoorFunction
      (sturdyState true [(⟨1, 1, 1⟩, .Feature)] 0 true [(⟨2, 1, 1⟩, .Feature)] 0) 6
      = sturdyState true [(⟨1, 1, 1⟩, .Feature)] 0 true [(⟨2, 1, 1⟩, .Feature)] 0 := by decide
  have hh : (sturdyState true [(⟨1, 1, 1⟩, .Feature)] 0 true [(⟨2, 1, 1⟩, .Feature)] 0).modifyPart
      6 (BattleMapPart.setHard false)
      = sturdyState false [(⟨1, 1, 1⟩, .Feature)] 0 true [(⟨2, 1, 1⟩, .Feature)] 0 := by decide
  have hc := ceaseSupportProvision_of_error m fuel
    (sturdyState true [(⟨1, 1, 1⟩, .Feature)] 0 true [(⟨2, 1, 1⟩, .Feature)] 0) 6 [1] .outOfFuel
    (by decide) (by rw [hh]; exact sturdy_relink m hm hlt fuel)
  simp only [bind, Except.bind, hd, hc]

/-- With `TICKS_MULTIPLIER = 2` a thousand rounds do not let `die` return on the
row of Features. -/
theorem die_damaged_variant_never_returns_witness :
    0 < 2 ∧ 2 ≤ 268435456 ∧ die 2 1000 sturdyBridge 6 = .error .outOfFuel :=
  ⟨by decide, by decide,
    (die_damaged_variant_never_returns 2 (by decide) (by decide) 1000).2.2.2⟩

theorem wall_first_round :
    relinkRound 1
        ((wallState [(⟨1, 1, 1⟩, .LeftWall)] 0 true [(⟨1, 2, 1⟩, .LeftWall)] 0).modifyParts
          [1] (BattleMapPart.queueCollapse 1 0)) [1]
      = .ok ⟨wallState [] 1 false [] 2, [1, 2], true⟩ := by
  decide

theorem wall_round_both :
    relinkRound 1 (wallState [] 1 false [] 2) [1, 2]
      = .ok ⟨wallState [] 1 false [(⟨1, 2, 1⟩, .LeftWall)] 0, [1], true⟩ := by
  decide

theorem wall_round_one :
    relinkRound 1 (wallState [] 1 false [(⟨1, 2, 1⟩, .LeftWall)] 0) [1]
      = .ok ⟨wallState [] 1 false [] 2, [1, 2], true⟩ := by
  decide

theorem wall_relink (m : Nat) (hm : 0 < m) (hlt : m ≤ 268435456) (fuel : Nat) :
    attemptReLinkSupports m fuel
        (wallState [(⟨1, 1, 1⟩, .LeftWall)] 0 true [(⟨1, 2, 1⟩, .LeftWall)] 0) [1]
      = .error .outOfFuel :=
  attemptReLinkSupports_alternates m hm hlt _ _ _ 1 [] [1, 2] [1] 2 (by decide)
    wall_first_round wall_round_both wall_round_one (by decide) (by decide) (by decide)
    (by decide) (by decide) (by decide) fuel

/-- C13: on the row of Left Walls in which part 1 stands on the Left Wall 6, for
every `TICKS_MULTIPLIER` that is positive and at most 2^28, `die` called on
part 6, which has its tile object and a type without damaged variant, does not
return within any number of rounds of the relink loop: `destroyed` is set, and
then `ceaseSupportProvision` relinks part 1, whose loop alternates for ever, so
that the statements that take the part off the grid are not reached. -/
theorem die_wall_never_returns (m : Nat) (hm : 0 < m) (hlt : m ≤ 268435456) (fuel : Nat) :
    (wallBridge.part 6).type.type = .LeftWall
      ∧ (wallBridge.part 6).tileObject = some ⟨.LeftWall, 6, ⟨1, 1, 0⟩⟩
      ∧ (wallBridge.part 6).type.damaged_map_part = none
      ∧ die m fuel wallBridge 6 = .error .outOfFuel := by
  refine ⟨by decide, by decide, by decide, ?_⟩
  rw [die_of_not_falling m fuel wallBridge 6 ⟨.LeftWall, 6, ⟨1, 1, 0⟩⟩ (by decide) (by decide),
    replaceWithDamaged_of_destroyed m wallBridge 6 (by decide) (by decide)]
  have hd : ceaseDoorFunction (wallBridge.modifyPart 6 fun p => { p with destroyed := true }) 6
      = wallBridge.modifyPart 6 fun p => { p with destroyed := true } := by decide
  have hh : (wallBridge.modifyPart 6 fun p => { p with destroyed := true }).modifyPart
      6 (BattleMapPart.setHard false)
      = wallState [(⟨1, 1, 1⟩, .LeftWall)] 0 true [(⟨1, 2, 1⟩, .LeftWall)] 0 := by decide
  have hc := ceaseSupportProvision_of_error m fuel
    (wallBridge.modifyPart 6 fun p => { p with destroyed := true }) 6 [1] .outOfFuel
    (by decide) (by rw [hh]; exact wall_relink m hm hlt fuel)
  simp only [bind, Except.bind, hd, hc]

/-- With `TICKS_MULTIPLIER = 2` a thousand rounds do not let `die` return on the
row of Left Walls. -/
theorem die_wall_never_returns_witness :
    0 < 2 ∧ 2 ≤ 268435456 ∧ die 2 1000 wallBridge 6 = .error .outOfFuel :=
  ⟨by decide, by decide, (die_wall_never_returns 2 (by decide) (by decide) 1000).2.2.2⟩

theorem pending_first_round :
    relinkRound 1
        ((pendingState [(⟨1, 1, 1⟩, .Feature)] 0 true [(⟨2, 1, 1⟩, .Feature)] 0).modifyParts
          [1] (BattleMapPart.queueCollapse 1 0)) [1]
      = .ok ⟨pendingState [] 1 false [] 2, [1, 2], true⟩ := by
  decide

theorem pending_round_both :
    relinkRound 1 (pendingState [] 1 false [] 2) [1, 2]
      = .ok ⟨pendingState [] 1 false [(⟨2, 1, 1⟩, .Feature)] 0, [1], true⟩ := by
  decide

theorem pending_round_one :
    relinkRound 1 (pendingState [] 1 false [(⟨2, 1, 1⟩, .Feature)] 0) [1]
      = .ok ⟨pendingState [] 1 false [] 2, [1, 2], true⟩ := by
  decide

theorem pending_relink (m : Nat) (hm : 0 < m) (hlt : m ≤ 268435456) (fuel : Nat) :
    attemptReLinkSupports m fuel
        (pendingState [(⟨1, 1, 1⟩, .Feature)] 0 true [(⟨2, 1, 1⟩, .Feature)] 0) [1]
      = .error .outOfFuel :=
  attemptReLinkSupports_alternates m hm hlt _ _ _ 1 [] [1, 2] [1] 2 (by decide)
    pending_first_round pending_round_both pending_round_one (by decide) (by decide) (by decide)
    (by decide) (by decide) (by decide) fuel

/-- C18: on the row of Features in which the Feature under part 1 (part 6) has its
tile object, is not falling and has a countdown of 1, for every
`TICKS_MULTIPLIER` that is positive and at most 2^28 and every `ticks >= 1`,
`update` called on part 6 does not return within any number of rounds of the
relink loop: the countdown is set to 0, `collapse` sets `falling`, and then
`ceaseSupportProvision` relinks part 1, whose loop alternates for ever, so that
`supportedParts.clear()` and `ceaseDoorFunction()` are not reached. -/
theorem update_expired_never_returns (m : Nat) (hm : 0 < m) (hlt : m ≤ 268435456)
    (fuel ticks : Nat) (newZ : Int) (whole : Bool) (ht : 1 ≤ ticks) :
    (pendingBridge.part 6).falling = false
      ∧ (pendingBridge.part 6).tileObject = some ⟨.Feature, 6, ⟨1, 1, 0⟩⟩
      ∧ (pendingBridge.part 6).ticksUntilCollapse = 1
      ∧ update m fuel pendingBridge 6 ticks newZ whole = .error .outOfFuel := by
  refine ⟨by decide, by decide, by decide, ?_⟩
  rw [update_of_expired m fuel pendingBridge 6 ⟨.Feature, 6, ⟨1, 1, 0⟩⟩ ticks newZ whole (by decide)
    (by decide) ht,
    collapse_of_standing m fuel _ 6 ⟨.Feature, 6, ⟨1, 1, 0⟩⟩ (by decide) (by decide)]
  have hh : (((pendingBridge.modifyPart 6 fun p => { p with ticksUntilCollapse := 0 }).modifyPart
      6 fun p => { p with falling := true }).modifyPart 6 (BattleMapPart.setHard false))
      = pendingState [(⟨1, 1, 1⟩, .Feature)] 0 true [(⟨2, 1, 1⟩, .Feature)] 0 := by decide
  have hc := ceaseSupportProvision_of_error m fuel
    ((pendingBridge.modifyPart 6 fun p => { p with ticksUntilCollapse := 0 }).modifyPart
      6 fun p => { p with falling := true }) 6 [1] .outOfFuel
    (by decide) (by rw [hh]; exact pending_relink m hm hlt fuel)
  simp only [bind, Except.bind, hc]

/-- With `TICKS_MULTIPLIER = 2` a thousand rounds do not let `update(1)` return on
the row of Features with the pending part. -/
theorem update_expired_never_returns_witness :
    0 < 2 ∧ 2 ≤ 268435456 ∧ 1 ≤ 1 ∧ update 2 1000 pendingBridge 6 1 0 true = .error .outOfFuel :=
  ⟨by decide, by decide, by decide,
    (update_expired_never_returns 2 (by decide) (by decide) 1000 1 0 true (by decide)).2.2.2⟩

/-! ## The collision entry point -/

/-- C14: `handleCollision` calls `die` exactly when the part has its tile object,
is not falling and the damage is greater than the constitution of its type; in
every other case it returns the battle as it received it, so that no field of
any part has changed. -/
theorem handleCollision_dies_iff (TM fuel : Nat) (b : Battle) (self : Nat) (damage : Int) :
    (((b.part self).tileObject.isSome = true ∧ (b.part self).falling = false
        ∧ (b.part self).type.constitution < damage) →
      handleCollision TM fuel b self damage = die TM fuel b self)
    ∧ (¬ ((b.part self).tileObject.isSome = true ∧ (b.part self).falling = false
        ∧ (b.part self).type.constitution < damage) →
      handleCollision TM fuel b self damage = .ok b) := by
  unfold handleCollision
  cases hto : (b.part self).tileObject with
  | none => simp
  | some ts =>
    cases hf : (b.part self).falling with
    | true => simp
    | false =>
      by_cases hd : damage ≤ (b.part self).type.constitution
      · simp [hd, Int.not_lt.2 hd]
      · simp [hd, Int.not_le.1 hd]

/-! ## Doors -/

/-- C19, as the claim states it, fails on `doorBattle`: the Left Wall is part of
door 0 and has the alternative type of id 7; after `ceaseDoorFunction` its type
is that alternative type and no longer the type of id 0 it had. -/
theorem ceaseDoorFunction_takes_alternative_type :
    (doorBattle.part 0).door = some 0
      ∧ (doorBattle.part 0).type.id = 0
      ∧ ((ceaseDoorFunction doorBattle 0).part 0).type.id = 7
      ∧ ((ceaseDoorFunction doorBattle 0).part 0).type ≠ (doorBattle.part 0).type := by
  decide

/-- C19, amended: for a part that is part of the door `d`, after
`ceaseDoorFunction` the part is not in the list `mapParts` of that door, it has
no door, and its type is its alternative type when it has one and the type it
had otherwise; for a part that is not part of a door the call changes nothing. -/
theorem ceaseDoorFunction_detaches (b : Battle) (self : Nat) :
    ((b.part self).door = none → ceaseDoorFunction b self = b)
    ∧ (∀ d, (b.part self).door = some d →
        self ∉ ((ceaseDoorFunction b self).doors.getD d default).mapParts
        ∧ ((ceaseDoorFunction b self).part self).door = none
        ∧ ((ceaseDoorFunction b self).part self).type
            = (match (b.part self).alternative_type with
               | some t => t
               | none => (b.part self).type)) := by
  constructor
  · intro h
    unfold ceaseDoorFunction
    rw [h]
  · intro d h
    have hlen : self < b.map_parts.length := by
      apply part_ne_default_lt
      intro e
      rw [e] at h
      cases h
    cases hat : (b.part self).alternative_type with
    | none =>
      rw [ceaseDoorFunction_of_plain b self d h hat]
      refine ⟨?_, ?_, ?_⟩
      · simp only [Battle.modifyPart, List.getD_eq_getElem?_getD, List.getElem?_modify]
        cases hd : b.doors[d]? with
        | none => simp [default]
        | some door => simp [List.mem_filter]
      · rw [Battle.part_modifyPart]
        simp only [Battle.part_with_doors]
        rw [if_pos ⟨trivial, hlen⟩]
      · rw [Battle.part_modifyPart]
        simp only [Battle.part_with_doors]
        rw [if_pos ⟨trivial, hlen⟩]
    | some t =>
      rw [ceaseDoorFunction_of_alternative b self d t h hat]
      have hl : self < (b.modifyPart self fun p => { p with type := t }).map_parts.length := by
        rw [Battle.length_modifyPart]; exact hlen
      refine ⟨?_, ?_, ?_⟩
      · simp only [Battle.modifyPart, List.getD_eq_getElem?_getD, List.getElem?_modify]
        cases hd : b.doors[d]? with
        | none => simp [default]
        | some door => simp [List.mem_filter]
      · rw [Battle.part_modifyPart]
        simp only [Battle.part_with_doors]
        rw [if_pos ⟨trivial, hl⟩]
      · rw [Battle.part_modifyPart]
        simp only [Battle.part_with_doors]
        rw [if_pos ⟨trivial, hl⟩, Battle.part_modifyPart, if_pos ⟨rfl, hlen⟩]

/-- The Left Wall of `doorBattle` is part of door 0. -/
theorem ceaseDoorFunction_detaches_witness :
    (doorBattle.part 0).door = some 0
      ∧ 0 ∉ ((ceaseDoorFunction doorBattle 0).doors.getD 0 default).mapParts
      ∧ ((ceaseDoorFunction doorBattle 0).part 0).door = none
      ∧ ((ceaseDoorFunction doorBattle 0).part 0).type
          = (match (doorBattle.part 0).alternative_type with
             | some t => t
             | none => (doorBattle.part 0).type) :=
  ⟨by decide, (ceaseDoorFunction_detaches doorBattle 0).2 0 (by decide)⟩

/-! ## The purge, twice -/

theorem eraseSupported_twice (pos : Vec3) (t : PartType) (l : List (Vec3 × PartType)) :
    eraseSupported pos t (eraseSupported pos t l) = eraseSupported pos t l := by
  unfold eraseSupported
  rw [List.filter_filter]
  congr 1
  funext p
  simp

/-- The purge as the list implementations run it, run twice in succession for the
same position and category, leaves the `supportedParts` list of every part equal
to what one run leaves. -/
theorem cleanSupportProviders_idempotent (b : Battle) (pos : Vec3) (t : PartType) (q : Nat) :
    ((cleanSupportProviders (cleanSupportProviders b pos t) pos t).part q).supportedParts
      = ((cleanSupportProviders b pos t).part q).supportedParts := by
  rw [supportedParts_clean, map_clean, supportedParts_clean]
  split
  · exact eraseSupported_twice pos t _
  · rfl

/-- C27: for a part whose type is not floating and whose cell has z = 0, of
whatever category, `findSupport` returns true, the part ends with
`providesHardSupport = true`, and the `supportedParts` list of every part is
what it was before the call. -/
theorem findSupport_floor_any_category (b : Battle) (self : Nat) (ts : TileObjectBattleMapPart)
    (hf : (b.part self).type.floating = false) (hto : (b.part self).tileObject = some ts)
    (hz : ts.owningTile.z = 0) :
    ∃ r, findSupport b self = .ok r ∧ r.supported = true
      ∧ (r.battle.part self).providesHardSupport = true
      ∧ ∀ q, (r.battle.part q).supportedParts = (b.part q).supportedParts := by
  refine ⟨_, findSupport_floor_eq b self ts hf hto hz, rfl, ?_, fun q => ?_⟩
  · apply hard_setHard_self
    apply part_ne_default_lt
    intro e
    rw [e] at hto
    cases hto
  · exact supportedParts_setHard_part b self q true

/-- The Left Wall of `doorBattle` stands on the floor. -/
theorem findSupport_floor_any_category_witness :
    ∃ r, findSupport doorBattle 0 = .ok r ∧ r.supported = true
      ∧ (r.battle.part 0).providesHardSupport = true
      ∧ ∀ q, (r.battle.part q).supportedParts = (doorBattle.part q).supportedParts :=
  findSupport_floor_any_category doorBattle 0 ⟨.LeftWall, 0, ⟨0, 0, 0⟩⟩ (by decide) (by decide)
    (by decide)

/-! ## The neighbours of a line that was found -/

/-- A ray that starts inside the map and is found has met a part in its first tile. -/
theorem rayFound_head (b : Battle) (tileType : TileObjectType) (cell : Int → Vec3)
    (start inc size : Int) (h0 : ¬ start < 0) (h1 : ¬ start ≥ size)
    (hf : rayFound b tileType cell (rayCells start inc size) = true) :
    ∃ mp, lastOfType (b.map.getTile (cell start)) tileType = some mp := by
  obtain ⟨rest, hr⟩ := rayCells_inside start inc size h0 h1
  rw [hr] at hf
  unfold rayFound at hf
  cases hl : lastOfType (b.map.getTile (cell start)) tileType with
  | none => rw [hl] at hf; cases hf
  | some mp => exact ⟨mp, rfl⟩

/-- When both rays of an axis are found, each neighbour tile on the axis that is
inside the map holds a part of the tile type. -/
theorem lineFound_neighbours (b : Battle) (tileType : TileObjectType) (cell : Int → Vec3)
    (start size : Int) (hf : lineFound b tileType cell start size = true) (inc : Int)
    (hinc : inc = -1 ∨ inc = 1) (h0 : ¬ start + inc < 0) (h1 : ¬ start + inc ≥ size) :
    ∃ mp, lastOfType (b.map.getTile (cell (start + inc))) tileType = some mp := by
  unfold lineFound at hf
  simp only [Bool.and_eq_true] at hf
  rcases hinc with rfl | rfl
  · exact rayFound_head b tileType cell (start + -1) (-1) size h0 h1 hf.1
  · exact rayFound_head b tileType cell (start + 1) 1 size h0 h1 hf.2

/-- When both rays of an axis are found, the loop that clings to the neighbours
does not leave through "Map part disappeared". -/
theorem clingToLine_found (b : Battle) (tileType : TileObjectType) (cell : Int → Vec3)
    (start size : Int) (entry : Vec3 × PartType)
    (hf : lineFound b tileType cell start size = true) :
    (clingToLine tileType cell start size entry [-1, 1] b).2 = true := by
  have key : ∀ (b2 : Battle), b2.map = b.map →
      (clingToLine tileType cell start size entry [1] b2).2 = true := by
    intro b2 hm
    unfold clingToLine
    by_cases ho : (decide (start + 1 < 0) || decide (start + 1 ≥ size)) = true
    · simp only [ho, if_true]
      rfl
    · simp only [ho, Bool.false_eq_true, if_false]
      simp only [Bool.or_eq_true, decide_eq_true_eq, not_or] at ho
      obtain ⟨mp, hmp⟩ := lineFound_neighbours b tileType cell start size hf 1 (Or.inr rfl)
        ho.1 ho.2
      rw [hm, hmp]
      rfl
  unfold clingToLine
  by_cases ho : (decide (start + -1 < 0) || decide (start + -1 ≥ size)) = true
  · simp only [ho, if_true]
    exact key b rfl
  · simp only [ho, Bool.false_eq_true, if_false]
    simp only [Bool.or_eq_true, decide_eq_true_eq, not_or] at ho
    obtain ⟨mp, hmp⟩ := lineFound_neighbours b tileType cell start size hf (-1) (Or.inl rfl)
      ho.1 ho.2
    rw [hmp]
    exact key _ rfl

theorem shootSupportLines_via (b : Battle) (ty : BattleMapPartType)
    (tileType : TileObjectType) (pos : Vec3) (entry : Vec3 × PartType) :
    ((shootSupportLines b ty tileType pos entry).via = .lineX
        ∧ (decide (ty.type ≠ .LeftWall)
          && lineFound b tileType (fun x => ⟨x, pos.y, pos.z⟩) pos.x b.map.size.x) = true)
    ∨ ((shootSupportLines b ty tileType pos entry).via = .lineY
        ∧ (decide (ty.type ≠ .RightWall)
          && lineFound b tileType (fun y => ⟨pos.x, y, pos.z⟩) pos.y b.map.size.y) = true)
    ∨ ((shootSupportLines b ty tileType pos entry).via = .unsupported
        ∧ (decide (ty.type ≠ .LeftWall)
          && lineFound b tileType (fun x => ⟨x, pos.y, pos.z⟩) pos.x b.map.size.x) = false
        ∧ (decide (ty.type ≠ .RightWall)
          && lineFound b tileType (fun y => ⟨pos.x, y, pos.z⟩) pos.y b.map.size.y) = false) := by
  unfold shootSupportLines
  simp only []
  by_cases hx : (decide (ty.type ≠ .LeftWall)
      && lineFound b tileType (fun x => ⟨x, pos.y, pos.z⟩) pos.x b.map.size.x) = true
  · have hx2 := hx
    simp only [Bool.and_eq_true] at hx2
    rw [if_pos hx, clingToLine_found b tileType _ pos.x b.map.size.x entry hx2.2]
    exact Or.inl ⟨rfl, hx⟩
  · rw [if_neg hx]
    by_cases hy : (decide (ty.type ≠ .RightWall)
        && lineFound b tileType (fun y => ⟨pos.x, y, pos.z⟩) pos.y b.map.size.y) = true
    · have hy2 := hy
      simp only [Bool.and_eq_true] at hy2
      rw [if_pos hy, clingToLine_found b tileType _ pos.y b.map.size.y entry hy2.2]
      exact Or.inr (Or.inl ⟨rfl, hy⟩)
    · rw [if_neg hy]
      exact Or.inr (Or.inr ⟨rfl, by simpa using hx, by simpa using hy⟩)

theorem resolveSupport_via (b : Battle) (self : Nat) (ty : BattleMapPartType)
    (tileType : TileObjectType) (pos : Vec3) (entry : Vec3 × PartType) :
    (resolveSupport b self ty tileType pos entry).via ≠ .disappearedX
      ∧ (resolveSupport b self ty tileType pos entry).via ≠ .disappearedY := by
  unfold resolveSupport
  split
  · exact ⟨by simp, by simp⟩
  · split
    · exact ⟨by simp, by simp⟩
    · simp only []
      split
      · exact ⟨by simp, by simp⟩
      · rcases shootSupportLines_via (b.modifyPart self (BattleMapPart.setHard false)) ty tileType
          pos entry with h | h | h
        · rw [h.1]; exact ⟨by simp, by simp⟩
        · rw [h.1]; exact ⟨by simp, by simp⟩
        · rw [h.1]; exact ⟨by simp, by simp⟩

theorem findSupport_via (b : Battle) (self : Nat) (r : SupportResult)
    (hr : findSupport b self = .ok r) : r.via ≠ .disappearedX ∧ r.via ≠ .disappearedY := by
  rcases findSupport_cases b self r hr with h | ⟨ts, _, _, h⟩ | ⟨ts, _, _, _, h⟩
  · rw [h.1]; exact ⟨by simp, by simp⟩
  · rw [h]; exact ⟨by simp, by simp⟩
  · rw [h]; exact resolveSupport_via _ _ _ _ _ _

/-- C28: in step 04 the two branches "Map part disappeared" are not reachable.
When both rays of an axis are found, each neighbour tile on the axis that is
inside the map holds a part of the tile type of the caller; so no call leaves
through one of the two branches, and a call that returns false has steps 01 to 04
leave the `supportedParts` list of every part as the purge left it: it adds no
entry. -/
theorem findSupport_no_part_disappears (b : Battle) (self : Nat) (r : SupportResult)
    (hr : findSupport b self = .ok r) :
    (∀ (b2 : Battle) (tileType : TileObjectType) (cell : Int → Vec3) (start size inc : Int),
        lineFound b2 tileType cell start size = true → inc = -1 ∨ inc = 1 →
        ¬ start + inc < 0 → ¬ start + inc ≥ size →
        ∃ mp, lastOfType (b2.map.getTile (cell (start + inc))) tileType = some mp)
    ∧ r.via ≠ .disappearedX ∧ r.via ≠ .disappearedY
    ∧ (r.supported = false → ∃ ts, (b.part self).tileObject = some ts
        ∧ ∀ q, (r.battle.part q).supportedParts
          = ((cleanSupportProviders b ts.owningTile (b.part self).type.type).part
              q).supportedParts) := by
  refine ⟨fun b2 tileType cell start size inc hf hinc h0 h1 =>
    lineFound_neighbours b2 tileType cell start size hf inc hinc h0 h1,
    (findSupport_via b self r hr).1, (findSupport_via b self r hr).2, fun hs => ?_⟩
  have hv := findSupport_via b self r hr
  rcases findSupport_lists b self r hr 0 with ⟨hq, _⟩ | ⟨ts, sups, hto, R, _⟩
  · exfalso
    rcases findSupport_cases b self r hr with h | ⟨ts, _, _, h⟩ | ⟨ts, _, _, _, h⟩
    · rw [h.1] at hs; cases hs
    · rw [h] at hs; cases hs
    · rw [h] at hq
      have := resolveSupport_resolved (purged b self ts) self (b.part self).type ts.type
        ts.owningTile ((b.part self).position, (b.part self).type.type)
      obtain ⟨sups, R⟩ := this
      obtain ⟨_, _, _, hp⟩ := R
      rcases hq with hq | hq
      · rw [hq] at hp; exact hp
      · rw [hq] at hp; exact hp
  · refine ⟨ts, hto, fun q => ?_⟩
    have hsup : sups = [] := by
      obtain ⟨_, _, _, hp⟩ := R
      cases hvia : r.via with
      | floating => rw [hvia] at hp; exact hp.elim
      | floor => rw [hvia] at hp; exact hp.elim
      | special => rw [hvia] at hp; rw [hp.2.1] at hs; cases hs
      | direction => rw [hvia] at hp; rw [hp.2.1] at hs; cases hs
      | cling => rw [hvia] at hp; rw [hp.2.1] at hs; cases hs
      | lineX => rw [hvia] at hp; rw [hp.2.1] at hs; cases hs
      | lineY => rw [hvia] at hp; rw [hp.2.1] at hs; cases hs
      | disappearedX => exact absurd hvia hv.1
      | disappearedY => exact absurd hvia hv.2
      | unsupported => rw [hvia] at hp; exact hp.1
    rcases findSupport_lists b self r hr q with ⟨hq, _⟩ | ⟨ts2, sups2, hto2, R2, hn⟩
    · exfalso
      obtain ⟨_, _, _, hp⟩ := R
      rcases hq with hq | hq
      · rw [hq] at hp; exact hp
      · rw [hq] at hp; exact hp
    · rw [hto] at hto2
      cases hto2
      obtain ⟨_, _, he, _⟩ := R
      obtain ⟨k, hk, hk0⟩ := he q
      rw [hk, hk0 (by rw [hsup]; exact List.not_mem_nil q)]
      unfold purged
      rw [supportedParts_clean_setHard]
      simp

/-- On the bridge, during relinking, part 1 finds no support: the call returns
false and every list is what the purge left. -/
theorem findSupport_no_part_disappears_witness :
    ((findSupport bridgeBoth 1).toOption.getD default).via ≠ .disappearedX
      ∧ ((findSupport bridgeBoth 1).toOption.getD default).via ≠ .disappearedY
      ∧ ((findSupport bridgeBoth 1).toOption.getD default).supported = false
      ∧ ∃ ts, (bridgeBoth.part 1).tileObject = some ts
        ∧ ∀ q, (((findSupport bridgeBoth 1).toOption.getD default).battle.part q).supportedParts
          = ((cleanSupportProviders bridgeBoth ts.owningTile
              (bridgeBoth.part 1).type.type).part q).supportedParts :=
  ⟨(findSupport_no_part_disappears bridgeBoth 1
      ((findSupport bridgeBoth 1).toOption.getD default) (by decide)).2.1,
    (findSupport_no_part_disappears bridgeBoth 1
      ((findSupport bridgeBoth 1).toOption.getD default) (by decide)).2.2.1,
    by decide,
    (findSupport_no_part_disappears bridgeBoth 1
      ((findSupport bridgeBoth 1).toOption.getD default) (by decide)).2.2.2 (by decide)⟩

/-! ## Rays along a row between two anchors -/

theorem checkSpecialConditions_congr (b₁ b₂ : Battle) (self : Nat) (ty : BattleMapPartType)
    (pos : Vec3) (hm : b₁.map = b₂.map) (h : ∀ q, (b₁.part q).strip = (b₂.part q).strip) :
    checkSpecialConditions b₁ self ty pos = checkSpecialConditions b₂ self ty pos := by
  have e : ∀ z q, specialOwnerOk b₁ self pos z q = specialOwnerOk b₂ self pos z q :=
    fun z q => specialOwnerOk_congr b₁ b₂ self pos z q (h q)
  unfold checkSpecialConditions
  simp only [hm, e]

theorem checkSupportedByDirection_congr (b₁ b₂ : Battle) (self : Nat)
    (tileType : TileObjectType) (ty : BattleMapPartType) (pos : Vec3) (hm : b₁.map = b₂.map)
    (h : ∀ q, (b₁.part q).strip = (b₂.part q).strip) :
    checkSupportedByDirection b₁ self tileType ty pos
      = checkSupportedByDirection b₂ self tileType ty pos := by
  have e : ∀ z q, ownerOk b₁ self pos z q = ownerOk b₂ self pos z q :=
    fun z q => ownerOk_congr b₁ b₂ self pos z q (h q)
  unfold checkSupportedByDirection
  simp only [hm, e]

/-- A ray whose tiles hold passable parts up to a part with `providesHardSupport`
set is found, however far the ray could go. -/
theorem rayFound_of_anchor (b : Battle) (tileType : TileObjectType) (cell : Int → Vec3)
    (inc : Int) (d : Nat) (s : Int) (n : Nat)
    (hpass : ∀ j : Nat, j ≤ d →
      ∃ q, lastOfType (b.map.getTile (cell (s + inc * (j : Int)))) tileType = some q
        ∧ RayPassable b q)
    (hanchor : ∃ q, lastOfType (b.map.getTile (cell (s + inc * (d : Int)))) tileType = some q
        ∧ (b.part q).providesHardSupport = true) :
    rayFound b tileType cell ((List.range n).map fun (k : Nat) => s + inc * (k : Int)) = true := by
  induction n generalizing s d with
  | zero => rfl
  | succ n ih =>
    rw [List.range_succ_eq_map, List.map_cons, List.map_map]
    unfold rayFound
    obtain ⟨q, hq, hp⟩ := hpass 0 (Nat.zero_le d)
    simp only [Nat.cast_zero, mul_zero, add_zero] at hq ⊢
    rw [hq]
    obtain ⟨h1, h2, h3⟩ := hp
    simp only [h1, h2, h3, Bool.or_self, Bool.false_eq_true, if_false]
    by_cases hh : (b.part q).providesHardSupport = true
    · simp only [hh, if_true]
    · simp only [hh, Bool.false_eq_true, if_false]
      cases d with
      | zero =>
        obtain ⟨q2, hq2, hh2⟩ := hanchor
        simp only [Nat.cast_zero, mul_zero, add_zero] at hq2
        rw [hq] at hq2
        cases hq2
        exact absurd hh2 hh
      | succ d =>
        have e : ((fun (k : Nat) => s + inc * (k : Int)) ∘ Nat.succ)
            = fun (k : Nat) => (s + inc) + inc * (k : Int) := by
          funext k
          simp only [Function.comp, Nat.succ_eq_add_one, Nat.cast_add, Nat.cast_one]
          ring
        rw [e]
        apply ih d (s + inc)
        · intro j hj
          obtain ⟨q3, hq3, hp3⟩ := hpass (j + 1) (Nat.succ_le_succ hj)
          refine ⟨q3, ?_, hp3⟩
          rw [← hq3]
          congr 3
          push_cast
          ring
        · obtain ⟨q2, hq2, hh2⟩ := hanchor
          refine ⟨q2, ?_, hh2⟩
          rw [← hq2]
          congr 3
          push_cast
          ring

/-- The ray from `start + inc` on is found when the row reaches an anchor in that
direction. -/
theorem rayFound_of_row (b : Battle) (tileType : TileObjectType) (cell : Int → Vec3)
    (inc : Int) (start size : Int) (d : Nat)
    (hpass : ∀ j : Nat, j ≤ d →
      ∃ q, lastOfType (b.map.getTile (cell (start + inc + inc * (j : Int)))) tileType = some q
        ∧ RayPassable b q)
    (hanchor : ∃ q, lastOfType (b.map.getTile (cell (start + inc + inc * (d : Int)))) tileType
        = some q ∧ (b.part q).providesHardSupport = true) :
    rayFound b tileType cell (rayCells (start + inc) inc size) = true := by
  unfold rayCells
  split
  · rfl
  · exact rayFound_of_anchor b tileType cell inc d (start + inc) _ hpass hanchor

/-- Both rays are found from a part that stands in a row between two anchors, on
any battle that has the grid and the flags of the battle of the row, apart from
the hard support flag of the part itself. -/
theorem lineFound_of_row (b bs : Battle) (self : Nat) (tileType : TileObjectType)
    (cell : Int → Vec3) (lo start hi size : Int) (hrow : BridgeRow b self tileType cell lo start hi)
    (hm : bs.map = b.map) (hs : ∀ q, (b.part q).strip = (bs.part q).strip)
    (hh : ∀ q, q ≠ self → (bs.part q).providesHardSupport = (b.part q).providesHardSupport) :
    lineFound bs tileType cell start size = true := by
  obtain ⟨hlo, hhi, hpass, hanc⟩ := hrow
  unfold lineFound
  rw [Bool.and_eq_true]
  constructor
  · apply rayFound_of_row bs tileType cell (-1) start size (start - 1 - lo).toNat
    · intro j hj
      have hj' : (j : Int) ≤ start - 1 - lo := by
        have := Int.toNat_of_nonneg (show 0 ≤ start - 1 - lo by omega)
        omega
      obtain ⟨q, hq, hp⟩ := hpass (start + -1 + -1 * (j : Int)) (by omega) (by omega) (by omega)
      exact ⟨q, by rw [hm]; exact hq, RayPassable_congr b bs q (hs q) hp⟩
    · have e : start + -1 + -1 * ((start - 1 - lo).toNat : Int) = lo := by
        have := Int.toNat_of_nonneg (show 0 ≤ start - 1 - lo by omega)
        omega
      rw [e]
      obtain ⟨q, hq, hne, hhard⟩ := hanc lo (Or.inl rfl)
      exact ⟨q, by rw [hm]; exact hq, by rw [hh q hne]; exact hhard⟩
  · apply rayFound_of_row bs tileType cell 1 start size (hi - start - 1).toNat
    · intro j hj
      have hj' : (j : Int) ≤ hi - start - 1 := by
        have := Int.toNat_of_nonneg (show 0 ≤ hi - start - 1 by omega)
        omega
      obtain ⟨q, hq, hp⟩ := hpass (start + 1 + 1 * (j : Int)) (by omega) (by omega) (by omega)
      exact ⟨q, by rw [hm]; exact hq, RayPassable_congr b bs q (hs q) hp⟩
    · have e : start + 1 + 1 * ((hi - start - 1).toNat : Int) = hi := by
        have := Int.toNat_of_nonneg (show 0 ≤ hi - start - 1 by omega)
        omega
      rw [e]
      obtain ⟨q, hq, hne, hhard⟩ := hanc hi (Or.inr rfl)
      exact ⟨q, by rw [hm]; exact hq, by rw [hh q hne]; exact hhard⟩

theorem resolveSupport_of_no_hard (b : Battle) (self : Nat) (ty : BattleMapPartType)
    (tileType : TileObjectType) (pos : Vec3) (entry : Vec3 × PartType)
    (h1 : checkSpecialConditions b self ty pos = none)
    (h2 : ty.supportedByDirections = []
      ∨ checkSupportedByDirection b self tileType ty pos = none) :
    resolveSupport b self ty tileType pos entry
      = if clingCount (b.modifyPart self (BattleMapPart.setHard false))
            (clingSupports (b.modifyPart self (BattleMapPart.setHard false)) self tileType pos)
            pos ≥ 2 then
          ⟨(b.modifyPart self (BattleMapPart.setHard false)).modifyParts
            (clingSupports (b.modifyPart self (BattleMapPart.setHard false)) self tileType pos)
            (BattleMapPart.addSupported entry), true, .cling⟩
        else shootSupportLines (b.modifyPart self (BattleMapPart.setHard false)) ty tileType pos
          entry := by
  have h2' : (if ty.supportedByDirections.isEmpty then none
      else checkSupportedByDirection b self tileType ty pos) = none := by
    rcases h2 with h | h
    · rw [h]; rfl
    · rw [h]; split <;> rfl
  unfold resolveSupport
  rw [h1, h2']

/-- C15, as the claim states it, fails in two ways.  On `spanBattle true false`
the Features 1 and 2 stand in a row between the Features 0 and 3, which both have
`providesHardSupport` set, and none of the four is destroyed or falling; but the
anchor 0 is damaged, the ray stops at it, and `findSupport` on part 1 returns
false.  On `spanBattle false true` no part of the row is damaged, part 1 stands on
a Feature, and `findSupport` on it returns true through step 01 with
`providesHardSupport` true. -/
theorem findSupport_row_needs_sound_anchors :
    ((spanBattle true false).part 0).providesHardSupport = true
      ∧ ((spanBattle true false).part 3).providesHardSupport = true
      ∧ RayPassable (spanBattle true false) 1 ∧ RayPassable (spanBattle true false) 2
      ∧ ((findSupport (spanBattle true false) 1).toOption.getD default).supported = false
      ∧ BridgeRow (spanBattle false true) 1 .Feature (fun x => ⟨x, 1, 1⟩) 0 1 3
      ∧ ((findSupport (spanBattle false true) 1).toOption.getD default).supported = true
      ∧ (((findSupport (spanBattle false true) 1).toOption.getD default).battle.part
          1).providesHardSupport = true := by
  refine ⟨by decide, by decide, by decide, by decide, by decide, ?_, by decide, by decide⟩
  refine ⟨by decide, by decide, fun c h0 h3 h1 => ?_, fun c hc => ?_⟩
  · have hc : c = 0 ∨ c = 2 ∨ c = 3 := by omega
    rcases hc with rfl | rfl | rfl
    · exact ⟨0, by decide, by decide⟩
    · exact ⟨2, by decide, by decide⟩
    · exact ⟨3, by decide, by decide⟩
  · rcases hc with rfl | rfl
    · exact ⟨0, by decide, by decide, by decide⟩
    · exact ⟨3, by decide, by decide, by decide⟩

/-- C15, amended: let a part whose type is not floating stand at a height
z > 0 in a straight row, along X when it is not a Left Wall or along Y when it
is not a Right Wall, in which every other tile up to the two anchors, the anchors
included, holds a part of the same tile type that is neither destroyed, damaged
nor falling, and in which both anchors have `providesHardSupport` set.  If
neither step 01 nor step 02 finds a supporter for the part, `findSupport` called
on it returns true and leaves it with `providesHardSupport = false`. -/
theorem findSupport_row_between_anchors (b : Battle) (self : Nat)
    (ts : TileObjectBattleMapPart) (lo hi : Int)
    (hf : (b.part self).type.floating = false) (hto : (b.part self).tileObject = some ts)
    (hz : 0 < ts.owningTile.z)
    (h1 : checkSpecialConditions b self (b.part self).type ts.owningTile = none)
    (h2 : (b.part self).type.supportedByDirections = []
      ∨ checkSupportedByDirection b self ts.type (b.part self).type ts.owningTile = none)
    (hrow : ((b.part self).type.type ≠ .LeftWall
          ∧ BridgeRow b self ts.type (fun x => ⟨x, ts.owningTile.y, ts.owningTile.z⟩) lo
              ts.owningTile.x hi)
        ∨ ((b.part self).type.type ≠ .RightWall
          ∧ BridgeRow b self ts.type (fun y => ⟨ts.owningTile.x, y, ts.owningTile.z⟩) lo
              ts.owningTile.y hi)) :
    ∃ r, findSupport b self = .ok r ∧ r.supported = true
      ∧ (r.battle.part self).providesHardSupport = false := by
  have hmP := map_purged b self ts
  have hsP := strip_purged b self ts
  have h1' : checkSpecialConditions (purged b self ts) self (b.part self).type ts.owningTile
      = none := by
    rw [checkSpecialConditions_congr (purged b self ts) b self _ _ hmP hsP]; exact h1
  have h2' : (b.part self).type.supportedByDirections = []
      ∨ checkSupportedByDirection (purged b self ts) self ts.type (b.part self).type
          ts.owningTile = none := by
    rcases h2 with h | h
    · exact Or.inl h
    · right
      rw [checkSupportedByDirection_congr (purged b self ts) b self _ _ _ hmP hsP]; exact h
  obtain ⟨sups, R⟩ := resolveSupport_resolved (purged b self ts) self (b.part self).type
    ts.type ts.owningTile ((b.part self).position, (b.part self).type.type)
  refine ⟨_, findSupport_resolve_eq b self ts hf hto (by omega), ?_⟩
  have hpe : cleanSupportProviders (b.modifyPart self (BattleMapPart.setHard true)) ts.owningTile
      (b.part self).type.type = purged b self ts := rfl
  rw [hpe]
  obtain ⟨_, _, _, hp⟩ := R
  have hvia : (resolveSupport (purged b self ts) self (b.part self).type ts.type ts.owningTile
        ((b.part self).position, (b.part self).type.type)).via = .cling
      ∨ (resolveSupport (purged b self ts) self (b.part self).type ts.type ts.owningTile
        ((b.part self).position, (b.part self).type.type)).via = .lineX
      ∨ (resolveSupport (purged b self ts) self (b.part self).type ts.type ts.owningTile
        ((b.part self).position, (b.part self).type.type)).via = .lineY := by
    rw [resolveSupport_of_no_hard _ _ _ _ _ _ h1' h2']
    split
    · exact Or.inl rfl
    · have hm2 : ((purged b self ts).modifyPart self (BattleMapPart.setHard false)).map = b.map :=
        hmP
      have hs2 : ∀ q, (b.part q).strip
          = (((purged b self ts).modifyPart self (BattleMapPart.setHard false)).part q).strip :=
        fun q => by rw [strip_modifyPart_set, hsP]
      have hh2 : ∀ q, q ≠ self →
          (((purged b self ts).modifyPart self (BattleMapPart.setHard false)).part
            q).providesHardSupport = (b.part q).providesHardSupport := by
        intro q hq
        rw [Battle.part_modifyPart_ne _ _ _ _ (Ne.symm hq)]
        unfold purged
        rw [hard_clean, Battle.part_modifyPart_ne _ _ _ _ (Ne.symm hq)]
      rcases shootSupportLines_via ((purged b self ts).modifyPart self
        (BattleMapPart.setHard false)) (b.part self).type ts.type ts.owningTile
        ((b.part self).position, (b.part self).type.type) with h | h | h
      · exact Or.inr (Or.inl h.1)
      · exact Or.inr (Or.inr h.1)
      · exfalso
        rcases hrow with ⟨hty, hr⟩ | ⟨hty, hr⟩
        · have := lineFound_of_row b _ self ts.type _ lo _ hi
            ((purged b self ts).modifyPart self (BattleMapPart.setHard false)).map.size.x hr hm2
            hs2 hh2
          have hx := h.2.1
          rw [this] at hx
          simp [hty] at hx
        · have := lineFound_of_row b _ self ts.type _ lo _ hi
            ((purged b self ts).modifyPart self (BattleMapPart.setHard false)).map.size.y hr hm2
            hs2 hh2
          have hy := h.2.2
          rw [this] at hy
          simp [hty] at hy
  rcases hvia with hv | hv | hv
  · rw [hv] at hp; exact ⟨hp.2.1, hp.2.2⟩
  · rw [hv] at hp; exact ⟨hp.2.1, hp.2.2⟩
  · rw [hv] at hp; exact ⟨hp.2.1, hp.2.2⟩

/-- On `spanBattle false false` part 1 stands between the anchors 0 and 3, with the
pending part 2 beside it: it clings to one part only, and the rays along X reach
both anchors. -/
theorem findSupport_row_between_anchors_witness :
    ∃ r, findSupport (spanBattle false false) 1 = .ok r ∧ r.supported = true
      ∧ (r.battle.part 1).providesHardSupport = false := by
  refine findSupport_row_between_anchors (spanBattle false false) 1 ⟨.Feature, 1, ⟨1, 1, 1⟩⟩ 0 3
    (by decide) (by decide) (by decide) (by decide) (Or.inl (by decide)) (Or.inl ⟨by decide, ?_⟩)
  refine ⟨by decide, by decide, fun c h0 h3 h1 => ?_, fun c hc => ?_⟩
  · have hc : c = 0 ∨ c = 2 ∨ c = 3 := by
      have h1' : c ≠ 1 := h1
      omega
    rcases hc with rfl | rfl | rfl
    · exact ⟨0, by decide, by decide⟩
    · exact ⟨2, by decide, by decide⟩
    · exact ⟨3, by decide, by decide⟩
  · rcases hc with rfl | rfl
    · exact ⟨0, by decide, by decide, by decide⟩
    · exact ⟨3, by decide, by decide, by decide⟩

/-! ## The fall of a part -/

/-- The battle on which the block "Process falling" of `update` runs for a
falling part: the countdown block has at most lowered the countdown of the part. -/
theorem countdown_facts (b : Battle) (self : Nat) (ticks : Nat)
    (hf : (b.part self).falling = true) (ts : TileObjectBattleMapPart)
    (hto : (b.part self).tileObject = some ts) :
    (∀ q, ((b.modifyPart self fun p =>
        { p with ticksUntilCollapse := p.ticksUntilCollapse - ticks }).part q).type
          = (b.part q).type)
    ∧ (∀ q, ((b.modifyPart self fun p =>
        { p with ticksUntilCollapse := p.ticksUntilCollapse - ticks }).part q).isAlive
          = (b.part q).isAlive)
    ∧ (∀ q, q ≠ self → (b.modifyPart self fun p =>
        { p with ticksUntilCollapse := p.ticksUntilCollapse - ticks }).part q = b.part q)
    ∧ (b.modifyPart self fun p =>
        { p with ticksUntilCollapse := p.ticksUntilCollapse - ticks }).part self
          = { b.part self with
              ticksUntilCollapse := (b.part self).ticksUntilCollapse - ticks } := by
  have hlen := b.lt_of_tileObject self ts hto
  have hself := Battle.part_modifyPart_self b self
    (fun p => { p with ticksUntilCollapse := p.ticksUntilCollapse - ticks }) hlen
  refine ⟨fun q => Battle.part_modifyPart_proj (fun p => p.type) b self q _ (fun _ => rfl),
    fun q => ?_, fun q hq => Battle.part_modifyPart_ne _ _ _ _ (Ne.symm hq), hself⟩
  by_cases hq : q = self
  · subst hq
    rw [hself, isAlive_of_falling _ hf]
    exact isAlive_of_falling _ hf
  · rw [Battle.part_modifyPart_ne _ _ _ _ (Ne.symm hq)]

theorem collidesWith_countdown (b : Battle) (self : Nat) (ticks : Nat)
    (hf : (b.part self).falling = true) (ts : TileObjectBattleMapPart)
    (hto : (b.part self).tileObject = some ts) (o : TileObjectBattleMapPart) :
    collidesWith (b.modifyPart self fun p =>
        { p with ticksUntilCollapse := p.ticksUntilCollapse - ticks }) self o
      = collidesWith b self o := by
  obtain ⟨h1, h2, _, h4⟩ := countdown_facts b self ticks hf ts hto
  unfold collidesWith
  rw [h1, h1, h2, h4]

theorem depositsInto_countdown (b : Battle) (self : Nat) (ticks : Nat)
    (hf : (b.part self).falling = true) (ts : TileObjectBattleMapPart)
    (hto : (b.part self).tileObject = some ts) (o : TileObjectBattleMapPart) :
    depositsInto (b.modifyPart self fun p =>
        { p with ticksUntilCollapse := p.ticksUntilCollapse - ticks }) self o
      = depositsInto b self o := by
  obtain ⟨h1, h2, _, _⟩ := countdown_facts b self ticks hf ts hto
  unfold depositsInto
  rw [h1, h1, h2]

/-- C17, as the claim states it, fails in both directions.  In `shaftOverGround`
the falling Feature is in the upper cell and a live Ground part stands in the
lower cell, the destination: `update` moves the Feature into the lower cell and
does not destroy it.  In `shaftOnGround` the live Ground part is in the cell of
the falling Feature and the destination below is empty: `update` destroys the
Feature and takes it off the grid. -/
theorem update_tests_the_cell_left :
    (shaftOverGround.part 0).falling = true
      ∧ shaftOverGround.map.getTile ⟨0, 0, 0⟩ = [⟨.Ground, 1, ⟨0, 0, 0⟩⟩]
      ∧ (shaftOverGround.part 1).isAlive = true
      ∧ (((update 1 0 shaftOverGround 0 1 0 true).toOption.getD default).part 0).destroyed = false
      ∧ (((update 1 0 shaftOverGround 0 1 0 true).toOption.getD default).part 0).tileObject
          = some ⟨.Feature, 0, ⟨0, 0, 0⟩⟩
      ∧ (shaftOnGround.part 0).falling = true
      ∧ shaftOnGround.map.getTile ⟨0, 0, 0⟩ = []
      ∧ (((update 1 0 shaftOnGround 0 1 0 true).toOption.getD default).part 0).destroyed = true
      ∧ (((update 1 0 shaftOnGround 0 1 0 true).toOption.getD default).part 0).tileObject = none := by
  decide

/-- C17, amended: let a part be falling when `update` is called, with its tile
object, not destroyed, and with a rubble list of types of the game state, and
let the fall cross a cell boundary or go below z = 0.  If the tile that owns the
part, the cell it is leaving, holds a live part whose category is that of the
falling part or Ground, `update` returns with the part destroyed and without
tile object; otherwise `update` returns with the part still falling, not
destroyed and at the new position: its cell is the new position converted to
integers (`truncHeight`, which takes a height between -1 and 0 to 0), and its
tile object is in the tile of that cell, or in the lowest layer of the column
when the cell is below the map (`tileCell`). -/
theorem update_falling_collides (TM fuel : Nat) (b : Battle) (self : Nat)
    (ts : TileObjectBattleMapPart) (ticks : Nat) (newZ : Int) (whole : Bool)
    (hf : (b.part self).falling = true) (hto : (b.part self).tileObject = some ts)
    (hnd : (b.part self).destroyed = false)
    (hty : ∀ id ∈ (b.part self).type.rubble, ∃ t, b.mapPartType id = .ok t)
    (hc : newZ < 0 ∨ newZ ≠ (b.part self).position.z) :
    ((∃ o ∈ b.map.getTile ts.owningTile, (b.part o.owner).isAlive = true
          ∧ ((b.part o.owner).type.type = (b.part self).type.type
            ∨ (b.part o.owner).type.type = .Ground)) →
        ∃ b2, update TM fuel b self ticks newZ whole = .ok b2
          ∧ (b2.part self).destroyed = true ∧ (b2.part self).tileObject = none)
    ∧ ((¬ ∃ o ∈ b.map.getTile ts.owningTile, (b.part o.owner).isAlive = true
          ∧ ((b.part o.owner).type.type = (b.part self).type.type
            ∨ (b.part o.owner).type.type = .Ground)) →
        ∃ b2, update TM fuel b self ticks newZ whole = .ok b2
          ∧ (b2.part self).falling = true ∧ (b2.part self).destroyed = false
          ∧ (b2.part self).position
              = ⟨(b.part self).position.x, (b.part self).position.y, truncHeight newZ whole⟩
          ∧ (b2.part self).tileObject
              = some { ts with
                  owningTile :=
                    tileCell ⟨(b.part self).position.x, (b.part self).position.y,
                      truncHeight newZ whole⟩ }) := by
  have hlen := b.lt_of_tileObject self ts hto
  obtain ⟨h1, h2, h3, h4⟩ := countdown_facts b self ticks hf ts hto
  have hf1 : ((b.modifyPart self fun p =>
      { p with ticksUntilCollapse := p.ticksUntilCollapse - ticks }).part self).falling
      = true := by rw [h4]; exact hf
  have hto1 : ((b.modifyPart self fun p =>
      { p with ticksUntilCollapse := p.ticksUntilCollapse - ticks }).part self).tileObject
      = some ts := by rw [h4]; exact hto
  have hnd1 : ((b.modifyPart self fun p =>
      { p with ticksUntilCollapse := p.ticksUntilCollapse - ticks }).part self).destroyed
      = false := by rw [h4]; exact hnd
  have hc1 : newZ < 0 ∨ newZ ≠ ((b.modifyPart self fun p =>
      { p with ticksUntilCollapse := p.ticksUntilCollapse - ticks }).part self).position.z := by
    rw [h4]; exact hc
  have hany : (b.map.getTile ts.owningTile).any (collidesWith (b.modifyPart self fun p =>
      { p with ticksUntilCollapse := p.ticksUntilCollapse - ticks }) self)
      = (b.map.getTile ts.owningTile).any (collidesWith b self) := by
    congr 1
    funext o
    exact collidesWith_countdown b self ticks hf ts hto o
  rw [update_of_falling TM fuel b self ts ticks newZ whole hf hto]
  constructor
  · intro hhit
    have hany1 := (any_collidesWith b self ts hto _).2 hhit
    rw [← hany] at hany1
    have hlen1 : self < (b.modifyPart self fun p =>
        { p with ticksUntilCollapse := p.ticksUntilCollapse - ticks }).map_parts.length := by
      rw [Battle.length_modifyPart]; exact hlen
    have hlenD : self < ((b.modifyPart self fun p =>
        { p with ticksUntilCollapse := p.ticksUntilCollapse - ticks }).modifyPart self
          fun p => { p with destroyed := true }).map_parts.length := by
      rw [Battle.length_modifyPart]; exact hlen1
    obtain ⟨b2, hd, hs⟩ := depositRubble_self
      ((b.modifyPart self fun p =>
        { p with ticksUntilCollapse := p.ticksUntilCollapse - ticks }).modifyPart self
          fun p => { p with destroyed := true }) self
      ((b.map.getTile ts.owningTile).foldl
        (fun r o => if depositsInto (b.modifyPart self fun p =>
          { p with ticksUntilCollapse := p.ticksUntilCollapse - ticks }) self o
          then some o.owner else r) none) hlenD
      (by
        intro id hid
        rw [Battle.part_modifyPart_self _ _ _ hlen1, h4] at hid
        obtain ⟨t, ht⟩ := hty id hid
        exact ⟨t, ht⟩)
      (fun q hq => rubble_ne_self _ self _ hf1 q hq)
    obtain ⟨b3, h5, _, _, h8⟩ := processFalling_of_hit TM fuel _ self ts newZ whole b2 hf1 hto1 hc1
      hany1 hd hs
    exact ⟨b3, h5, by rw [h8], by rw [h8]⟩
  · intro hno
    have hany1 : (b.map.getTile ts.owningTile).any (collidesWith b self) = false := by
      by_contra hcon
      exact hno ((any_collidesWith b self ts hto _).1 (by simpa using hcon))
    rw [← hany] at hany1
    rw [processFalling_of_clear TM fuel _ self ts newZ whole hto1 hnd1 hc1 hany1]
    have hlen1 : self < (b.modifyPart self fun p =>
        { p with ticksUntilCollapse := p.ticksUntilCollapse - ticks }).map_parts.length := by
      rw [Battle.length_modifyPart]; exact hlen
    refine ⟨_, rfl, ?_, ?_, ?_, ?_⟩
    · rw [Battle.part_setPosition, if_pos ⟨rfl, hlen1⟩]
      exact hf1
    · rw [Battle.part_setPosition, if_pos ⟨rfl, hlen1⟩]
      exact hnd1
    · rw [Battle.part_setPosition, if_pos ⟨rfl, hlen1⟩, h4]
    · rw [Battle.part_setPosition, if_pos ⟨rfl, hlen1⟩]
      show Option.map _ _ = _
      rw [hto1, h4]
      rfl

theorem shaft_types (ps : List BattleMapPart) (id : Nat) (h : id ∈ [5, 6]) :
    ∃ t, (shaftBattle ps).mapPartType id = .ok t := by
  simp only [List.mem_cons, List.mem_singleton, List.not_mem_nil, or_false] at h
  rcases h with rfl | rfl
  · exact ⟨{ plainType .Feature with id := 5 }, rfl⟩
  · exact ⟨{ plainType .Feature with id := 6 }, rfl⟩

/-- In `shaftOnGround` the falling Feature shares its cell with a live Ground part;
in `shaftOverGround` its cell holds no other part, and it falls into the lower
cell; in `shaftAtFloor` it is alone in the lower cell and falls to a height
between -1 and 0, and then to the height -2: its tile object stays in the lower
cell. -/
theorem update_falling_collides_witness :
    (∃ b2, update 1 0 shaftOnGround 0 1 0 true = .ok b2
        ∧ (b2.part 0).destroyed = true ∧ (b2.part 0).tileObject = none)
    ∧ (∃ b2, update 1 0 shaftOverGround 0 1 0 true = .ok b2
        ∧ (b2.part 0).falling = true ∧ (b2.part 0).destroyed = false
        ∧ (b2.part 0).position = ⟨0, 0, 0⟩
        ∧ (b2.part 0).tileObject = some ⟨.Feature, 0, ⟨0, 0, 0⟩⟩)
    ∧ (∃ b2, update 1 0 shaftAtFloor 0 1 (-1) false = .ok b2
        ∧ (b2.part 0).falling = true ∧ (b2.part 0).destroyed = false
        ∧ (b2.part 0).position = ⟨0, 0, 0⟩
        ∧ (b2.part 0).tileObject = some ⟨.Feature, 0, ⟨0, 0, 0⟩⟩)
    ∧ (∃ b2, update 1 0 shaftAtFloor 0 1 (-2) true = .ok b2
        ∧ (b2.part 0).falling = true ∧ (b2.part 0).destroyed = false
        ∧ (b2.part 0).position = ⟨0, 0, -2⟩
        ∧ (b2.part 0).tileObject = some ⟨.Feature, 0, ⟨0, 0, 0⟩⟩) :=
  ⟨(update_falling_collides 1 0 shaftOnGround 0 ⟨.Feature, 0, ⟨0, 0, 1⟩⟩ 1 0 true (by decide)
      (by decide) (by decide) (fun id hid => shaft_types _ id hid) (by decide)).1
      ⟨⟨.Ground, 1, ⟨0, 0, 1⟩⟩, by decide, by decide, by decide⟩,
    (update_falling_collides 1 0 shaftOverGround 0 ⟨.Feature, 0, ⟨0, 0, 1⟩⟩ 1 0 true (by decide)
      (by decide) (by decide) (fun id hid => shaft_types _ id hid) (by decide)).2 (by decide),
    (update_falling_collides 1 0 shaftAtFloor 0 ⟨.Feature, 0, ⟨0, 0, 0⟩⟩ 1 (-1) false (by decide)
      (by decide) (by decide) (fun id hid => shaft_types _ id hid) (by decide)).2 (by decide),
    (update_falling_collides 1 0 shaftAtFloor 0 ⟨.Feature, 0, ⟨0, 0, 0⟩⟩ 1 (-2) true (by decide)
      (by decide) (by decide) (fun id hid => shaft_types _ id hid) (by decide)).2 (by decide)⟩

/-! ## Rubble of a part that fell -/

/-- C16, as the claim states it, fails on `shaftOnFeature`: the falling Feature,
whose rubble is the types 5 and 6, shares its cell with a live Feature of the
plain type 0, which is no rubble of that list.  `update` destroys the falling
Feature, and no part is created: the live Feature is taken for the rubble, and
its type is not in the list. -/
theorem update_spawns_no_rubble_beside_live_part :
    (shaftOnFeature.part 0).falling = true
      ∧ (shaftOnFeature.part 0).type.rubble = [5, 6]
      ∧ shaftOnFeature.map.getTile ⟨0, 0, 1⟩
          = [⟨.Feature, 0, ⟨0, 0, 1⟩⟩, ⟨.Feature, 1, ⟨0, 0, 1⟩⟩]
      ∧ (shaftOnFeature.part 1).isAlive = true ∧ (shaftOnFeature.part 1).type.id = 0
      ∧ (((update 1 0 shaftOnFeature 0 1 0 true).toOption.getD default).part 0).destroyed = true
      ∧ ((update 1 0 shaftOnFeature 0 1 0 true).toOption.getD default).map_parts.length
          = shaftOnFeature.map_parts.length := by
  decide

/-- C16, amended: let a part be falling when `update` is called, with its tile
object and a rubble list that is not empty and holds types of the game state,
let the fall cross a cell boundary or go below z = 0, and let the tile that owns
the part hold a live part of its category or of the category Ground, so that the
part is destroyed.  Rubble is deposited into the live parts of that tile whose
category is that of the falling part, or Feature when the falling part is a
Ground (`depositsInto`).  If the tile holds no such part, `update` appends one
part to the parts of the battle, of the first type of the list and at the
position of the falling part, and changes no other part than the falling one.
If it holds one, no part is created, and the last such part of the tile gets the
type that follows the first occurrence of its own type in the list, or keeps its
type when its type is not in the list or is the last of the list. -/
theorem update_deposits_rubble (TM fuel : Nat) (b : Battle) (self : Nat)
    (ts : TileObjectBattleMapPart) (ticks : Nat) (newZ : Int) (whole : Bool) (first : Nat) (rest : List Nat)
    (hf : (b.part self).falling = true) (hto : (b.part self).tileObject = some ts)
    (hr : (b.part self).type.rubble = first :: rest)
    (hty : ∀ id ∈ first :: rest, ∃ t, b.mapPartType id = .ok t)
    (hc : newZ < 0 ∨ newZ ≠ (b.part self).position.z)
    (hhit : ∃ o ∈ b.map.getTile ts.owningTile, (b.part o.owner).isAlive = true
      ∧ ((b.part o.owner).type.type = (b.part self).type.type
        ∨ (b.part o.owner).type.type = .Ground))
    (hown : ∀ o ∈ b.map.getTile ts.owningTile, o.owner < b.map_parts.length) :
    ∃ b2, update TM fuel b self ticks newZ whole = .ok b2
      ∧ ((∀ o ∈ b.map.getTile ts.owningTile, depositsInto b self o = false) →
          ∃ t, b.mapPartType first = .ok t
            ∧ b2.map_parts.length = b.map_parts.length + 1
            ∧ (b2.part b.map_parts.length).type = t
            ∧ (b2.part b.map_parts.length).position = (b.part self).position
            ∧ (∀ k, k < b.map_parts.length → k ≠ self → b2.part k = b.part k))
      ∧ (∀ l1 o l2, b.map.getTile ts.owningTile = l1 ++ o :: l2 →
          depositsInto b self o = true → (∀ o2 ∈ l2, depositsInto b self o2 = false) →
          b2.map_parts.length = b.map_parts.length
            ∧ (∀ k, k ≠ self → k ≠ o.owner → b2.part k = b.part k)
            ∧ (match (first :: rest)[(first :: rest).indexOf (b.part o.owner).type.id + 1]? with
               | some n => ∃ t, b.mapPartType n = .ok t ∧ (b2.part o.owner).type = t
               | none => (b2.part o.owner).type = (b.part o.owner).type)) := by
  have hlen := b.lt_of_tileObject self ts hto
  obtain ⟨h1, h2, h3, h4⟩ := countdown_facts b self ticks hf ts hto
  have hf1 : ((b.modifyPart self fun p =>
      { p with ticksUntilCollapse := p.ticksUntilCollapse - ticks }).part self).falling
      = true := by rw [h4]; exact hf
  have hto1 : ((b.modifyPart self fun p =>
      { p with ticksUntilCollapse := p.ticksUntilCollapse - ticks }).part self).tileObject
      = some ts := by rw [h4]; exact hto
  have hc1 : newZ < 0 ∨ newZ ≠ ((b.modifyPart self fun p =>
      { p with ticksUntilCollapse := p.ticksUntilCollapse - ticks }).part self).position.z := by
    rw [h4]; exact hc
  have hany : (b.map.getTile ts.owningTile).any (collidesWith (b.modifyPart self fun p =>
      { p with ticksUntilCollapse := p.ticksUntilCollapse - ticks }) self) = true := by
    have e : collidesWith (b.modifyPart self fun p =>
        { p with ticksUntilCollapse := p.ticksUntilCollapse - ticks }) self
        = collidesWith b self := by
      funext o
      exact collidesWith_countdown b self ticks hf ts hto o
    rw [e]
    exact (any_collidesWith b self ts hto _).2 hhit
  have hdep : depositsInto (b.modifyPart self fun p =>
      { p with ticksUntilCollapse := p.ticksUntilCollapse - ticks }) self
      = depositsInto b self := by
    funext o
    exact depositsInto_countdown b self ticks hf ts hto o
  have hlen1 : self < (b.modifyPart self fun p =>
      { p with ticksUntilCollapse := p.ticksUntilCollapse - ticks }).map_parts.length := by
    rw [Battle.length_modifyPart]; exact hlen
  have hlenD : self < ((b.modifyPart self fun p =>
      { p with ticksUntilCollapse := p.ticksUntilCollapse - ticks }).modifyPart self
        fun p => { p with destroyed := true }).map_parts.length := by
    rw [Battle.length_modifyPart]; exact hlen1
  -- the parts of the battle on which the rubble block runs
  have hD : ∀ k, k ≠ self → ((b.modifyPart self fun p =>
      { p with ticksUntilCollapse := p.ticksUntilCollapse - ticks }).modifyPart self
        fun p => { p with destroyed := true }).part k = b.part k := by
    intro k hk
    rw [Battle.part_modifyPart_ne _ _ _ _ (Ne.symm hk), h3 k hk]
  have hDself : (((b.modifyPart self fun p =>
      { p with ticksUntilCollapse := p.ticksUntilCollapse - ticks }).modifyPart self
        fun p => { p with destroyed := true }).part self).type = (b.part self).type := by
    rw [Battle.part_modifyPart_self _ _ _ hlen1, h4]
  have hDpos : (((b.modifyPart self fun p =>
      { p with ticksUntilCollapse := p.ticksUntilCollapse - ticks }).modifyPart self
        fun p => { p with destroyed := true }).part self).position = (b.part self).position := by
    rw [Battle.part_modifyPart_self _ _ _ hlen1, h4]
  have hDlen : ((b.modifyPart self fun p =>
      { p with ticksUntilCollapse := p.ticksUntilCollapse - ticks }).modifyPart self
        fun p => { p with destroyed := true }).map_parts.length = b.map_parts.length := by
    rw [Battle.length_modifyPart, Battle.length_modifyPart]
  have hDty : ∀ id, ((b.modifyPart self fun p =>
      { p with ticksUntilCollapse := p.ticksUntilCollapse - ticks }).modifyPart self
        fun p => { p with destroyed := true }).mapPartType id = b.mapPartType id := fun _ => rfl
  have hspec := fun rubble => depositRubble_spec
    ((b.modifyPart self fun p =>
      { p with ticksUntilCollapse := p.ticksUntilCollapse - ticks }).modifyPart self
        fun p => { p with destroyed := true }) self rubble first rest hlenD
    (by rw [hDself]; exact hr)
    (fun id hid => by rw [hDty]; exact hty id hid)
  rw [update_of_falling TM fuel b self ts ticks newZ whole hf hto]
  by_cases hex : ∃ o ∈ b.map.getTile ts.owningTile, depositsInto b self o = true
  · -- the tile holds a part into which rubble is deposited: take the last one
    have hfind : ∃ o, (b.map.getTile ts.owningTile).reverse.find? (depositsInto b self)
        = some o := by
      cases hfo : (b.map.getTile ts.owningTile).reverse.find? (depositsInto b self) with
      | some o => exact ⟨o, rfl⟩
      | none =>
        exfalso
        obtain ⟨o, ho, hdo⟩ := hex
        rw [List.find?_eq_none] at hfo
        exact hfo o (List.mem_reverse.2 ho) hdo
    obtain ⟨o0, ho0⟩ := hfind
    have hrub : (b.map.getTile ts.owningTile).foldl
        (fun r o => if depositsInto (b.modifyPart self fun p =>
          { p with ticksUntilCollapse := p.ticksUntilCollapse - ticks }) self o
          then some o.owner else r) none = some o0.owner := by
      rw [foldl_depositsInto, hdep, ho0]
    have hdo0 : depositsInto b self o0 = true := List.find?_some ho0
    have hos : o0.owner ≠ self := by
      intro e
      have ha := depositsInto_alive b self o0 hdo0
      rw [e, isAlive_of_falling _ hf] at ha
      cases ha
    have homem : o0 ∈ b.map.getTile ts.owningTile :=
      List.mem_reverse.1 (List.mem_of_find?_eq_some ho0)
    obtain ⟨b2, hd, hs, hl, hold, hnew⟩ := hspec (some o0.owner) (fun q hq => by
      cases hq; exact hos)
    obtain ⟨b3, h5, h6, h7, h8⟩ := processFalling_of_hit TM fuel _ self ts newZ whole b2 hf1 hto1 hc1
      hany (by rw [← hrub] at hd; exact hd) hs
    have hnew2 := hnew (by rw [hDlen]; exact hown o0 homem)
    rw [hD _ hos] at hnew2
    refine ⟨b3, h5, ?_, ?_⟩
    · intro hnone
      rw [hnone o0 homem] at hdo0
      cases hdo0
    · intro l1 o l2 htile hdo hafter
      have ho : o0 = o := by
        have : (b.map.getTile ts.owningTile).reverse.find? (depositsInto b self) = some o := by
          rw [htile, List.reverse_append, List.reverse_cons, List.append_assoc,
            List.find?_append]
          have hn2 : l2.reverse.find? (depositsInto b self) = none := by
            rw [List.find?_eq_none]
            intro o2 ho2
            rw [hafter o2 (List.mem_reverse.1 ho2)]
            exact Bool.false_ne_true
          rw [hn2]
          simp [List.find?_cons, hdo]
        rw [ho0] at this
        exact Option.some.inj this
      subst ho
      refine ⟨by rw [h6, hl, hDlen], ?_, ?_⟩
      · intro k hks hko
        rw [h7 k hks, hold k hko, hD k hks]
      · rw [h7 _ hos]
        cases hn : (first :: rest)[(first :: rest).indexOf (b.part o0.owner).type.id + 1]? with
        | none =>
          rw [hn] at hnew2
          exact hnew2
        | some n =>
          rw [hn] at hnew2
          obtain ⟨t, ht, htt⟩ := hnew2
          exact ⟨t, by rw [← hDty]; exact ht, htt⟩
  · -- the tile holds no such part
    have hnone : ∀ o ∈ b.map.getTile ts.owningTile, depositsInto b self o = false := by
      intro o ho
      by_contra hcon
      exact hex ⟨o, ho, by simpa using hcon⟩
    have hrub : (b.map.getTile ts.owningTile).foldl
        (fun r o => if depositsInto (b.modifyPart self fun p =>
          { p with ticksUntilCollapse := p.ticksUntilCollapse - ticks }) self o
          then some o.owner else r) none = none := by
      rw [foldl_depositsInto, hdep]
      have : (b.map.getTile ts.owningTile).reverse.find? (depositsInto b self) = none := by
        rw [List.find?_eq_none]
        intro o ho
        rw [hnone o (List.mem_reverse.1 ho)]
        exact Bool.false_ne_true
      rw [this]
    obtain ⟨b2, hd, hs, t, ht, hl, hold, hnew⟩ := hspec none (fun q hq => by cases hq)
    obtain ⟨b3, h5, h6, h7, h8⟩ := processFalling_of_hit TM fuel _ self ts newZ whole b2 hf1 hto1 hc1
      hany (by rw [← hrub] at hd; exact hd) hs
    rw [hDty] at ht
    rw [hDlen] at hl hold hnew
    have hne : b.map_parts.length ≠ self := Nat.ne_of_gt hlen
    refine ⟨b3, h5, ?_, ?_⟩
    · intro _
      refine ⟨t, ht, by rw [h6, hl], ?_, ?_, ?_⟩
      · rw [h7 _ hne, hnew]; rfl
      · rw [h7 _ hne, hnew, hDpos]; rfl
      · intro k hk hks
        rw [h7 k hks, hold k hk, hD k hks]
    · intro l1 o l2 htile hdo _
      exfalso
      have : o ∈ b.map.getTile ts.owningTile := by rw [htile]; simp
      rw [hnone o this] at hdo
      cases hdo

/-- In `shaftOnGround` the cell of the falling Feature holds a Ground part and no
Feature: a part of the type 5 is created.  In `shaftOnRubble` it also holds a
rubble of the type 5, which gets the type 6. -/
theorem update_deposits_rubble_witness :
    (∃ b2, update 1 0 shaftOnGround 0 1 0 true = .ok b2
        ∧ b2.map_parts.length = 3 ∧ (b2.part 2).type.id = 5
        ∧ (b2.part 2).position = ⟨0, 0, 1⟩)
    ∧ (∃ b2, update 1 0 shaftOnRubble 0 1 0 true = .ok b2
        ∧ b2.map_parts.length = 3 ∧ (b2.part 2).type.id = 6) := by
  constructor
  · obtain ⟨b2, h, hA, _⟩ := update_deposits_rubble 1 0 shaftOnGround 0
      ⟨.Feature, 0, ⟨0, 0, 1⟩⟩ 1 0 true 5 [6] (by decide) (by decide) (by decide)
      (fun id hid => shaft_types _ id hid) (by decide)
      ⟨⟨.Ground, 1, ⟨0, 0, 1⟩⟩, by decide, by decide, by decide⟩ (by decide)
    obtain ⟨t, ht, hl, hty, hpos, _⟩ := hA (by decide)
    have e : t = { plainType .Feature with id := 5 } := by
      have h5 : shaftOnGround.mapPartType 5 = .ok { plainType .Feature with id := 5 } := rfl
      rw [h5] at ht
      exact (Except.ok.inj ht).symm
    refine ⟨b2, h, hl, ?_, hpos⟩
    have hty2 : (b2.part 2).type = t := hty
    rw [hty2, e]
  · obtain ⟨b2, h, _, hB⟩ := update_deposits_rubble 1 0 shaftOnRubble 0
      ⟨.Feature, 0, ⟨0, 0, 1⟩⟩ 1 0 true 5 [6] (by decide) (by decide) (by decide)
      (fun id hid => shaft_types _ id hid) (by decide)
      ⟨⟨.Ground, 1, ⟨0, 0, 1⟩⟩, by decide, by decide, by decide⟩ (by decide)
    obtain ⟨hl, _, hn⟩ := hB [⟨.Feature, 0, ⟨0, 0, 1⟩⟩, ⟨.Ground, 1, ⟨0, 0, 1⟩⟩]
      ⟨.Feature, 2, ⟨0, 0, 1⟩⟩ [] (by decide) (by decide) (by decide)
    have hn2 : ∃ t, shaftOnRubble.mapPartType 6 = .ok t ∧ (b2.part 2).type = t := hn
    obtain ⟨t, ht, htt⟩ := hn2
    have e : t = { plainType .Feature with id := 6 } := by
      have h6 : shaftOnRubble.mapPartType 6 = .ok { plainType .Feature with id := 6 } := rfl
      rw [h6] at ht
      exact (Except.ok.inj ht).symm
    refine ⟨b2, h, hl, ?_⟩
    rw [htt, e]

/-! ## `die` on a Ground part of the floor -/

/-- The fields of the part itself that detaching the door leaves, when the part has no
alternative type to take. -/
theorem ceaseDoorFunction_keeps (b : Battle) (self : Nat)
    (hdoor : (b.part self).door = none ∨ (b.part self).alternative_type = none) :
    (ceaseDoorFunction b self).map = b.map
      ∧ ((ceaseDoorFunction b self).part self).type = (b.part self).type
      ∧ ((ceaseDoorFunction b self).part self).destroyed = (b.part self).destroyed
      ∧ ((ceaseDoorFunction b self).part self).tileObject = (b.part self).tileObject := by
  cases hd : (b.part self).door with
  | none =>
    have e : ceaseDoorFunction b self = b := by
      unfold ceaseDoorFunction
      rw [hd]
    rw [e]
    exact ⟨rfl, rfl, rfl, rfl⟩
  | some d =>
    have hat : (b.part self).alternative_type = none := by
      rcases hdoor with h | h
      · rw [hd] at h; cases h
      · exact h
    rw [ceaseDoorFunction_of_plain b self d hd hat]
    refine ⟨rfl, ?_, ?_, ?_⟩
    · exact Battle.part_modifyPart_proj (fun p => p.type) _ self self _ (fun _ => rfl)
    · exact Battle.part_modifyPart_proj (fun p => p.destroyed) _ self self _ (fun _ => rfl)
    · exact Battle.part_modifyPart_proj (fun p => p.tileObject) _ self self _ (fun _ => rfl)

/-- C12, as the claim states it, fails in two ways.  The Ground part of
`floorTile (some 1) none none` is on the floor and its type has the
destroyed-ground variant 2 and also the damaged variant 1: `die` gives it the
type 1.  The Ground part of `floorTile none (some t7) (some 0)` has no damaged
variant but is part of a door and has the alternative type 7: `die` gives it the
type 7. -/
theorem die_ground_prefers_other_types :
    ((floorTile (some 1) none none).part 0).type.destroyed_ground_tile = some 2
      ∧ ((floorTile (some 1) none none).part 0).position.z = 0
      ∧ ((floorTile (some 1) none none).part 0).falling = false
      ∧ (((die 1 0 (floorTile (some 1) none none) 0).toOption.getD default).part 0).type.id = 1
      ∧ ((floorTile none (some { plainType .Ground with id := 7 }) (some 0)).part
          0).type.destroyed_ground_tile = some 2
      ∧ ((floorTile none (some { plainType .Ground with id := 7 }) (some 0)).part
          0).type.damaged_map_part = none
      ∧ (((die 1 0 (floorTile none (some { plainType .Ground with id := 7 }) (some 0))
          0).toOption.getD default).part 0).type.id = 7 := by
  decide

/-- The parts a part supports are read from the grid, its tile object and its
list. -/
theorem getSupportedParts_congr (b1 b2 : Battle) (self : Nat) (hm : b1.map = b2.map)
    (ht : (b1.part self).tileObject = (b2.part self).tileObject)
    (hs : (b1.part self).supportedParts = (b2.part self).supportedParts) :
    getSupportedParts b1 self = getSupportedParts b2 self := by
  unfold getSupportedParts
  rw [hm, ht, hs]

/-- Detaching the door leaves the list of the part as it is. -/
theorem ceaseDoorFunction_supportedParts (b : Battle) (self : Nat) :
    ((ceaseDoorFunction b self).part self).supportedParts = (b.part self).supportedParts := by
  cases hd : (b.part self).door with
  | none =>
    have e : ceaseDoorFunction b self = b := by
      unfold ceaseDoorFunction
      rw [hd]
    rw [e]
  | some d =>
    cases hat : (b.part self).alternative_type with
    | none =>
      rw [ceaseDoorFunction_of_plain b self d hd hat]
      exact Battle.part_modifyPart_proj (fun p => p.supportedParts) _ self self
        (fun p => { p with door := none }) (fun _ => rfl)
    | some t =>
      rw [ceaseDoorFunction_of_alternative b self d t hd hat]
      refine (Battle.part_modifyPart_proj (fun p => p.supportedParts) _ self self
        (fun p => { p with door := none }) (fun _ => rfl)).trans ?_
      rw [Battle.part_with_doors]
      exact Battle.part_modifyPart_proj (fun p => p.supportedParts) _ self self
        (fun p => { p with type := t }) (fun _ => rfl)

/-- What `die` leaves of a Ground part of the floor when it returns. -/
theorem die_ground_floor_returned (TM fuel : Nat) (b : Battle) (self : Nat)
    (ts : TileObjectBattleMapPart) (g : Nat) (t : BattleMapPartType) (b2 : Battle)
    (hf : (b.part self).falling = false) (hto : (b.part self).tileObject = some ts)
    (hnd : (b.part self).destroyed = false)
    (hG : (b.part self).type.type = .Ground) (hz : (b.part self).position.z = 0)
    (hd : (b.part self).type.damaged_map_part = none)
    (hg : (b.part self).type.destroyed_ground_tile = some g) (ht : b.mapPartType g = .ok t)
    (hdoor : (b.part self).door = none ∨ (b.part self).alternative_type = none)
    (hret : die TM fuel b self = .ok b2) :
    (b2.part self).type = t ∧ (b2.part self).destroyed = false
      ∧ (b2.part self).tileObject = some ts ∧ b2.map = b.map := by
  have hlen : self < b.map_parts.length := by
    apply part_ne_default_lt
    intro e
    rw [e] at hto
    cases hto
  rw [die_of_not_falling TM fuel b self ts hf hto,
    replaceWithDamaged_of_ground TM b self g t hd hz hG hg ht] at hret
  simp only [bind, Except.bind] at hret
  have hp1 : (b.modifyPart self fun p => { p with type := t }).part self
      = { b.part self with type := t } := by
    rw [Battle.part_modifyPart, if_pos ⟨rfl, hlen⟩]
  obtain ⟨k1, k2, k3, k4⟩ := ceaseDoorFunction_keeps
    (b.modifyPart self fun p => { p with type := t }) self (by rw [hp1]; exact hdoor)
  rw [hp1] at k2 k3 k4
  cases hc : ceaseSupportProvision TM fuel
      (ceaseDoorFunction (b.modifyPart self fun p => { p with type := t }) self) self with
  | error e => rw [hc] at hret; cases hret
  | ok b3 =>
    rw [hc] at hret
    simp only [] at hret
    obtain ⟨hm, hcore⟩ := ceaseSupportProvision_sameCore TM fuel _ self b3 hc
    have c1 := congrArg (fun p => p.type) (hcore self)
    have c2 := congrArg (fun p => p.destroyed) (hcore self)
    have c3 := congrArg (fun p => p.tileObject) (hcore self)
    simp only [BattleMapPart.core] at c1 c2 c3
    rw [k2] at c1
    rw [k3] at c2
    rw [k4] at c3
    have hnd3 : (b3.part self).destroyed = false := by rw [c2]; exact hnd
    rw [hnd3] at hret
    simp only [Bool.false_eq_true, if_false, pure, Except.pure] at hret
    cases hret
    exact ⟨c1, hnd3, by rw [c3]; exact hto, by rw [hm, k1]; rfl⟩

/-- `die` returns on a Ground part of the floor that supports nothing. -/
theorem die_ground_floor_returns (TM fuel : Nat) (b : Battle) (self : Nat)
    (ts : TileObjectBattleMapPart) (g : Nat) (t : BattleMapPartType)
    (hf : (b.part self).falling = false) (hto : (b.part self).tileObject = some ts)
    (hnd : (b.part self).destroyed = false)
    (hG : (b.part self).type.type = .Ground) (hz : (b.part self).position.z = 0)
    (hd : (b.part self).type.damaged_map_part = none)
    (hg : (b.part self).type.destroyed_ground_tile = some g) (ht : b.mapPartType g = .ok t)
    (hdoor : (b.part self).door = none ∨ (b.part self).alternative_type = none)
    (hsup : getSupportedParts b self = .ok []) :
    ∃ b2, die TM fuel b self = .ok b2 := by
  have hlen : self < b.map_parts.length := by
    apply part_ne_default_lt
    intro e
    rw [e] at hto
    cases hto
  have hp1 : (b.modifyPart self fun p => { p with type := t }).part self
      = { b.part self with type := t } := by
    rw [Battle.part_modifyPart, if_pos ⟨rfl, hlen⟩]
  obtain ⟨k1, _, k3, k4⟩ := ceaseDoorFunction_keeps
    (b.modifyPart self fun p => { p with type := t }) self (by rw [hp1]; exact hdoor)
  have k5 := ceaseDoorFunction_supportedParts
    (b.modifyPart self fun p => { p with type := t }) self
  rw [hp1] at k3 k4 k5
  have hs : getSupportedParts
      ((ceaseDoorFunction (b.modifyPart self fun p => { p with type := t }) self).modifyPart
        self (BattleMapPart.setHard false)) self = .ok [] := by
    rw [← hsup]
    apply getSupportedParts_congr
    · rw [Battle.map_modifyPart, k1]
      rfl
    · exact (Battle.part_modifyPart_proj (fun p => p.tileObject) _ self self
        (BattleMapPart.setHard false) (fun _ => rfl)).trans k4
    · exact (Battle.part_modifyPart_proj (fun p => p.supportedParts) _ self self
        (BattleMapPart.setHard false) (fun _ => rfl)).trans k5
  rw [die_of_not_falling TM fuel b self ts hf hto,
    replaceWithDamaged_of_ground TM b self g t hd hz hG hg ht]
  simp only [bind, Except.bind]
  rw [ceaseSupportProvision_of_nil TM fuel _ self hs]
  simp only []
  have hnd3 : (((((ceaseDoorFunction (b.modifyPart self fun p => { p with type := t })
      self).modifyPart self (BattleMapPart.setHard false)).modifyPart self
        fun p => { p with supportedParts := [] }).modifyPart self
        fun p => { p with supportedItems := false }).part self).destroyed = false := by
    refine (Battle.part_modifyPart_proj (fun p => p.destroyed) _ self self
      (fun p => { p with supportedItems := false }) (fun _ => rfl)).trans ?_
    refine (Battle.part_modifyPart_proj (fun p => p.destroyed) _ self self
      (fun p => { p with supportedParts := [] }) (fun _ => rfl)).trans ?_
    refine (Battle.part_modifyPart_proj (fun p => p.destroyed) _ self self
      (BattleMapPart.setHard false) (fun _ => rfl)).trans ?_
    rw [k3]
    exact hnd
  rw [hnd3]
  exact ⟨_, rfl⟩

/-- C12, amended: let a Ground part at z = 0 be not falling and not destroyed,
with its tile object, of a type that has a destroyed-ground variant and no
damaged variant, let the part have no alternative type or be part of no door,
and let it support no part (`getSupportedParts` is empty).  Then `die` returns,
whatever the budget of rounds, and after it the type of the part is that
destroyed-ground variant, `destroyed` is false, the part has its tile object and
the grid is what it was. -/
theorem die_ground_floor_variant (TM fuel : Nat) (b : Battle) (self : Nat)
    (ts : TileObjectBattleMapPart) (g : Nat) (t : BattleMapPartType)
    (hf : (b.part self).falling = false) (hto : (b.part self).tileObject = some ts)
    (hnd : (b.part self).destroyed = false)
    (hG : (b.part self).type.type = .Ground) (hz : (b.part self).position.z = 0)
    (hd : (b.part self).type.damaged_map_part = none)
    (hg : (b.part self).type.destroyed_ground_tile = some g) (ht : b.mapPartType g = .ok t)
    (hdoor : (b.part self).door = none ∨ (b.part self).alternative_type = none)
    (hsup : getSupportedParts b self = .ok []) :
    ∃ b2, die TM fuel b self = .ok b2
      ∧ (b2.part self).type = t ∧ (b2.part self).destroyed = false
      ∧ (b2.part self).tileObject = some ts ∧ b2.map = b.map := by
  obtain ⟨b2, h⟩ := die_ground_floor_returns TM fuel b self ts g t hf hto hnd hG hz hd hg ht
    hdoor hsup
  exact ⟨b2, h, die_ground_floor_returned TM fuel b self ts g t b2 hf hto hnd hG hz hd hg ht
    hdoor h⟩

/-- The Ground part of `floorTile none none none` has the destroyed-ground variant
of id 2 only and supports nothing: `die` returns on it with no round allowed. -/
theorem die_ground_floor_variant_witness :
    ∃ b2, die 1 0 (floorTile none none none) 0 = .ok b2
      ∧ (b2.part 0).type = { plainType .Ground with id := 2 }
      ∧ (b2.part 0).destroyed = false
      ∧ (b2.part 0).tileObject = some ⟨.Ground, 0, ⟨0, 0, 0⟩⟩
      ∧ b2.map = (floorTile none none none).map :=
  die_ground_floor_variant 1 0 (floorTile none none none) 0 ⟨.Ground, 0, ⟨0, 0, 0⟩⟩ 2
    { plainType .Ground with id := 2 } (by decide) (by decide) (by decide) (by decide)
    (by decide) (by decide) (by decide) (by decide) (Or.inl (by decide)) (by decide)

/-! ## Diagonal directions in step 02 -/

theorem diagonalOffset_none (d : MapDirection) (dx dy : Int) : diagonalOffset d dx dy = none := by
  cases d <;> rfl

/-- C22: the loop "Get diagonal directions" of step 02 appends nothing to the list
of tiles to search, whatever the directions of the type: both nested `switch`
statements test `d`, so each round of the loop leaves through `continue`.  In
`diagonalBattle` the Ground part 0 is supported by North and East and the only
other part, an eligible Ground part, is in the cell to the north-east,
`(2, 0, 1)`: that cell is not in the list, and `findSupport` returns false. -/
theorem findSupport_probes_no_diagonal :
    (∀ (dirs : List MapDirection) (d : MapDirection) (p : Int × TileObjectType) (pos : Vec3)
        (dx dy : Int), diagonalParts dirs d p pos dx dy = [])
      ∧ (diagonalBattle.part 0).type.supportedByDirections = [.North, .East]
      ∧ diagonalBattle.map.getTile ⟨2, 0, 1⟩ = [⟨.Ground, 1, ⟨2, 0, 1⟩⟩]
      ∧ ownerOk diagonalBattle 0 ⟨1, 1, 1⟩ 1 1 = true
      ∧ supportPartList .Ground (diagonalBattle.part 0).type ⟨1, 1, 1⟩
          = [(⟨1, 0, 1⟩, .Ground), (⟨2, 1, 1⟩, .Ground)]
      ∧ ((findSupport diagonalBattle 0).toOption.getD default).supported = false := by
  refine ⟨fun dirs d p pos dx dy => ?_, by decide, by decide, by decide, by decide, by decide⟩
  unfold diagonalParts
  simp only [diagonalOffset_none, ite_self]
  have key : ∀ (l : List MapDirection) (acc : (Int × Int) × List (Vec3 × TileObjectType)),
      l.foldl (fun acc _ => acc) acc = acc := by
    intro l
    induction l with
    | nil => intro acc; rfl
    | cons d2 rest ih => intro acc; rw [List.foldl_cons]; exact ih acc
  rw [key]

/-! ## `collapse` of a part that is supported -/

/-- C25: in `shaftPending` the Feature 0 has a countdown of 1 and stands on the live
Ground part of its cell, so that `findSupport` called on it returns true; yet for
every `TICKS_MULTIPLIER` `update(1)` makes it collapse, and it is falling when
`update` returns.  `collapse` tests `falling` and the tile object only. -/
theorem update_collapses_supported_part (TM fuel : Nat) (whole : Bool) :
    (shaftPending.part 0).ticksUntilCollapse = 1
      ∧ (shaftPending.part 0).falling = false
      ∧ ((findSupport shaftPending 0).toOption.getD default).supported = true
      ∧ ∃ b2, update TM fuel shaftPending 0 1 1 whole = .ok b2
        ∧ (b2.part 0).falling = true := by
  refine ⟨by decide, by decide, by decide, ?_⟩
  rw [update_of_expired TM fuel shaftPending 0 ⟨.Feature, 0, ⟨0, 0, 1⟩⟩ 1 1 whole (by decide)
    (by decide) (by decide),
    collapse_of_standing TM fuel _ 0 ⟨.Feature, 0, ⟨0, 0, 1⟩⟩ (by decide) (by decide),
    ceaseSupportProvision_of_nil TM fuel _ 0 (by decide)]
  simp only [bind, Except.bind, pure, Except.pure]
  have hfall : ((ceaseDoorFunction
      (((((shaftPending.modifyPart 0 fun p => { p with ticksUntilCollapse := 0 }).modifyPart 0
        fun p => { p with falling := true }).modifyPart 0
          (BattleMapPart.setHard false)).modifyPart 0
          fun p => { p with supportedParts := [] }).modifyPart 0
          fun p => { p with supportedItems := false }) 0).part 0).falling = true := by decide
  rw [if_pos hfall, processFalling_of_staying TM fuel _ 0 1 whole (by decide) (by decide)]
  exact ⟨_, rfl, by decide⟩

/-! ## The order of the working set -/

theorem swapped_first_round :
    relinkRound 1 (terraceSwapped.modifyParts [0, 1] (BattleMapPart.queueCollapse 1 0)) [0, 1]
      = .ok ⟨terraceOf (swappedParts [(⟨2, 1, 1⟩, .Ground)] 1 false [] 2 []
          [(⟨2, 2, 1⟩, .Ground)]), [1, 2], true⟩ := by
  decide

theorem swapped_second_round :
    relinkRound 1 (terraceOf (swappedParts [(⟨2, 1, 1⟩, .Ground)] 1 false [] 2 []
        [(⟨2, 2, 1⟩, .Ground)])) [1, 2]
      = .ok ⟨terraceOf (swappedParts [] 1 false [] 2 [] [(⟨2, 2, 1⟩, .Ground)]), [1, 2],
          false⟩ := by
  decide

theorem swapped_loop (m : Nat) (hm : 0 < m) (hlt : m ≤ 268435456) (fuel : Nat) :
    relinkLoop m (fuel + 2)
        (terraceSwapped.modifyParts [0, 1] (BattleMapPart.queueCollapse m 0)) [0, 1]
      = .ok ((terraceOf (swappedParts [] 1 false [] 2 [] [(⟨2, 2, 1⟩, .Ground)])).scaleTicks m,
          [1, 2]) := by
  have c0 : roundCap 1 ⟨terraceSwapped.modifyParts [0, 1] (BattleMapPart.queueCollapse 1 0), [],
      false⟩ [0, 1] ≤ 15 := by decide
  have c1 : roundCap 2 ⟨terraceOf (swappedParts [(⟨2, 1, 1⟩, .Ground)] 1 false [] 2 []
      [(⟨2, 2, 1⟩, .Ground)]), [], false⟩ [1, 2] ≤ 15 := by decide
  have h1 : relinkRound m
      (terraceSwapped.modifyParts [0, 1] (BattleMapPart.queueCollapse m 0)) [0, 1]
      = .ok ⟨(terraceOf (swappedParts [(⟨2, 1, 1⟩, .Ground)] 1 false [] 2 []
          [(⟨2, 2, 1⟩, .Ground)])).scaleTicks m, [1, 2], true⟩ := by
    rw [queueAll_scaleTicks m (by omega) terraceSwapped [0, 1] (by decide),
      relinkRound_scaleTicks m hm 1 _ [0, 1] (by decide)
        (by have := Nat.mul_le_mul_right m c0; omega),
      swapped_first_round]
    rfl
  have h2 : relinkRound m ((terraceOf (swappedParts [(⟨2, 1, 1⟩, .Ground)] 1 false [] 2 []
        [(⟨2, 2, 1⟩, .Ground)])).scaleTicks m) [1, 2]
      = .ok ⟨(terraceOf (swappedParts [] 1 false [] 2 [] [(⟨2, 2, 1⟩, .Ground)])).scaleTicks m,
          [1, 2], false⟩ := by
    rw [relinkRound_scaleTicks m hm 2 _ [1, 2] (by decide)
        (by have := Nat.mul_le_mul_right m c1; omega),
      swapped_second_round]
    rfl
  unfold relinkLoop
  rw [h1]
  simp only [if_true]
  unfold relinkLoop
  rw [h2]
  simp

/-- C26: `terraceBattle` and `terraceSwapped` are one grid, with the Ground parts
at `(1, 1, 1)` and `(2, 2, 1)` in the two orders in which the working set can
hold them.  For every `TICKS_MULTIPLIER` that is positive and at most 2^28,
`attemptReLinkSupports` called with these two parts returns in both with the
Ground parts at `(1, 1, 1)` and `(2, 1, 1)` in the final working set; but the
countdown of the part at `(2, 1, 1)`, part 2 of both battles, is 0 when the part
at `(1, 1, 1)` is visited first and positive when it is visited second. -/
theorem attemptReLinkSupports_depends_on_order (m : Nat) (hm : 0 < m) (hlt : m ≤ 268435456)
    (fuel : Nat) :
    (terraceSwapped.map.size = terraceBattle.map.size
        ∧ (terraceSwapped.part 0).position = (terraceBattle.part 1).position
        ∧ (terraceSwapped.part 1).position = (terraceBattle.part 0).position
        ∧ terraceSwapped.part 2 = terraceBattle.part 2
        ∧ terraceSwapped.part 3 = terraceBattle.part 3
        ∧ terraceSwapped.part 4 = terraceBattle.part 4)
      ∧ ∃ f1 f2, attemptReLinkSupports m (fuel + 2) terraceBattle [0, 1] = .ok (f1, [0, 2])
        ∧ attemptReLinkSupports m (fuel + 2) terraceSwapped [0, 1] = .ok (f2, [1, 2])
        ∧ (f1.part 0).position = ⟨1, 1, 1⟩ ∧ (f2.part 1).position = ⟨1, 1, 1⟩
        ∧ (f1.part 2).position = ⟨2, 1, 1⟩ ∧ (f2.part 2).position = ⟨2, 1, 1⟩
        ∧ (f1.part 2).ticksUntilCollapse = 0 ∧ 0 < (f2.part 2).ticksUntilCollapse := by
  refine ⟨by decide, terraceFinal.scaleTicks m,
    (terraceOf (swappedParts [] 1 false [] 2 [] [(⟨2, 2, 1⟩, .Ground)])).scaleTicks m,
    ?_, ?_, ?_, ?_, ?_, ?_, terrace_final_idle m, ?_⟩
  · rw [attemptReLinkSupports_cons, terrace_loop m hm hlt fuel]
    simp only []
    rw [owningTilePosition_scaleTicks, terrace_final_tiles]
  · rw [attemptReLinkSupports_cons, swapped_loop m hm hlt fuel]
    simp only []
    rw [owningTilePosition_scaleTicks]
    have e : [1, 2].mapM (owningTilePosition
        (terraceOf (swappedParts [] 1 false [] 2 [] [(⟨2, 2, 1⟩, .Ground)])))
        = (.ok [⟨1, 1, 1⟩, ⟨2, 1, 1⟩] : Except Fault (List Vec3)) := by decide
    rw [e]
  · rw [Battle.part_scaleTicks]; rfl
  · rw [Battle.part_scaleTicks]; rfl
  · rw [Battle.part_scaleTicks]; rfl
  · rw [Battle.part_scaleTicks]; rfl
  · rw [Battle.part_scaleTicks]
    show 0 < 2 * m
    omega

/-- With `TICKS_MULTIPLIER = 2` and three rounds allowed, the two orders leave the
part at `(2, 1, 1)` with the countdowns 0 and 4. -/
theorem attemptReLinkSupports_depends_on_order_witness :
    0 < 2 ∧ 2 ≤ 268435456
      ∧ ∃ f1 f2, attemptReLinkSupports 2 3 terraceBattle [0, 1] = .ok (f1, [0, 2])
        ∧ attemptReLinkSupports 2 3 terraceSwapped [0, 1] = .ok (f2, [1, 2])
        ∧ (f1.part 0).position = ⟨1, 1, 1⟩ ∧ (f2.part 1).position = ⟨1, 1, 1⟩
        ∧ (f1.part 2).position = ⟨2, 1, 1⟩ ∧ (f2.part 2).position = ⟨2, 1, 1⟩
        ∧ (f1.part 2).ticksUntilCollapse = 0 ∧ 0 < (f2.part 2).ticksUntilCollapse :=
  ⟨by decide, by decide,
    (attemptReLinkSupports_depends_on_order 2 (by decide) (by decide) 1).2⟩

/-! ## A falling part that is relinked -/

theorem tower_first_round :
    relinkRound 1
        ((towerAfterFall [] true false [(⟨0, 0, 1⟩, .Feature)] false).modifyParts [2, 3]
          (BattleMapPart.queueCollapse 1 0)) [2, 3]
      = .ok ⟨towerAfterFall [(⟨0, 0, 1⟩, .Feature)] true false [] true, [], true⟩ := by
  decide

theorem tower_relink (m : Nat) (hm : 0 < m) (hlt : m ≤ 268435456) (fuel : Nat) :
    attemptReLinkSupports m (fuel + 2)
        (towerAfterFall [] true false [(⟨0, 0, 1⟩, .Feature)] false) [2, 3]
      = .ok (towerAfterFall [(⟨0, 0, 1⟩, .Feature)] true false [] true, []) := by
  have c0 : roundCap 1 ⟨(towerAfterFall [] true false [(⟨0, 0, 1⟩, .Feature)] false).modifyParts
      [2, 3] (BattleMapPart.queueCollapse 1 0), [], false⟩ [2, 3] ≤ 15 := by decide
  have hs : (towerAfterFall [(⟨0, 0, 1⟩, .Feature)] true false [] true).scaleTicks m
      = towerAfterFall [(⟨0, 0, 1⟩, .Feature)] true false [] true :=
    Battle.scaleTicks_of_zero m _ (by decide)
  have h1 : relinkRound m
      ((towerAfterFall [] true false [(⟨0, 0, 1⟩, .Feature)] false).modifyParts [2, 3]
        (BattleMapPart.queueCollapse m 0)) [2, 3]
      = .ok ⟨towerAfterFall [(⟨0, 0, 1⟩, .Feature)] true false [] true, [], true⟩ := by
    rw [queueAll_scaleTicks m (by omega) _ [2, 3] (by decide),
      relinkRound_scaleTicks m hm 1 _ [2, 3] (by decide)
        (by have := Nat.mul_le_mul_right m c0; omega),
      tower_first_round]
    show Except.ok (RelinkState.scaleTicks m _) = _
    unfold RelinkState.scaleTicks
    rw [hs]
  rw [attemptReLinkSupports_cons]
  unfold relinkLoop
  rw [h1]
  simp only [if_true]
  unfold relinkLoop
  rw [relinkRound_nil]
  rfl

/-- C21: in `towerBattle` no part is falling or destroyed.  For every
`TICKS_MULTIPLIER` that is positive and at most 2^28, `update(1)` makes the
Feature 3 fall from the upper cell into the middle cell, where the Feature 2
stands on the Ground part 1; then `handleCollision` with a damage of 1 destroys
the Ground part 1, whose `ceaseSupportProvision` relinks the Features of the
middle cell, the falling part 3 among them.  `findSupport` called on part 3 finds
the Feature 0 below and returns true: part 3 is falling and has
`providesHardSupport` true when `handleCollision` returns. -/
theorem handleCollision_relinks_falling_part (m : Nat) (hm : 0 < m) (hlt : m ≤ 268435456)
    (fuel : Nat) (whole : Bool) :
    (∀ q, (towerBattle.part q).falling = false ∧ (towerBattle.part q).destroyed = false)
      ∧ ∃ b1 b2, update m fuel towerBattle 3 1 1 whole = .ok b1
        ∧ handleCollision m (fuel + 2) b1 1 1 = .ok b2
        ∧ (b2.part 3).falling = true ∧ (b2.part 3).providesHardSupport = true := by
  constructor
  · intro q
    rcases q with _ | _ | _ | _ | q
    · decide
    · decide
    · decide
    · decide
    · have hd : towerBattle.part (q + 1 + 1 + 1 + 1) = default :=
        towerBattle.part_of_length_le _ (by
          show 4 ≤ q + 1 + 1 + 1 + 1
          omega)
      rw [hd]
      exact ⟨rfl, rfl⟩
  · refine ⟨towerAfterFall [] false true [(⟨0, 0, 1⟩, .Feature)] false, ?_⟩
    have hup : update m fuel towerBattle 3 1 1 whole
        = .ok (towerAfterFall [] false true [(⟨0, 0, 1⟩, .Feature)] false) := by
      rw [update_of_expired m fuel towerBattle 3 ⟨.Feature, 3, ⟨0, 0, 2⟩⟩ 1 1 whole (by decide)
        (by decide) (by decide),
        collapse_of_standing m fuel _ 3 ⟨.Feature, 3, ⟨0, 0, 2⟩⟩ (by decide) (by decide),
        ceaseSupportProvision_of_ok m fuel _ 3 [] _ (by decide)
          (attemptReLinkSupports_nil m fuel _)]
      simp only [bind, Except.bind, pure, Except.pure]
      have hfall : ((ceaseDoorFunction
          (((((towerBattle.modifyPart 3 fun p => { p with ticksUntilCollapse := 0 }).modifyPart 3
            fun p => { p with falling := true }).modifyPart 3
              (BattleMapPart.setHard false)).modifyPart 3
              fun p => { p with supportedParts := [] }).modifyPart 3
              fun p => { p with supportedItems := false }) 3).part 3).falling = true := by decide
      rw [if_pos hfall,
        processFalling_of_clear m fuel _ 3 ⟨.Feature, 3, ⟨0, 0, 2⟩⟩ 1 whole (by decide) (by decide)
          (by decide) (by decide), truncHeight_of_nonneg 1 whole (by decide)]
      congr 1
    refine Exists.imp (fun b2 h => ⟨hup, h⟩) ?_
    rw [handleCollision_of_hit m (fuel + 2) _ 1 ⟨.Ground, 1, ⟨0, 0, 1⟩⟩ 1 (by decide)
        (by decide) (by decide),
      die_of_not_falling m (fuel + 2) _ 1 ⟨.Ground, 1, ⟨0, 0, 1⟩⟩ (by decide) (by decide),
      replaceWithDamaged_of_destroyed m _ 1 (by decide) (by decide)]
    have hd : ceaseDoorFunction
        ((towerAfterFall [] false true [(⟨0, 0, 1⟩, .Feature)] false).modifyPart 1
          fun p => { p with destroyed := true }) 1
        = (towerAfterFall [] false true [(⟨0, 0, 1⟩, .Feature)] false).modifyPart 1
          fun p => { p with destroyed := true } := by decide
    have hh : ((towerAfterFall [] false true [(⟨0, 0, 1⟩, .Feature)] false).modifyPart 1
          fun p => { p with destroyed := true }).modifyPart 1 (BattleMapPart.setHard false)
        = towerAfterFall [] true false [(⟨0, 0, 1⟩, .Feature)] false := by decide
    have hc := ceaseSupportProvision_of_ok m (fuel + 2)
      ((towerAfterFall [] false true [(⟨0, 0, 1⟩, .Feature)] false).modifyPart 1
        fun p => { p with destroyed := true }) 1 [2, 3]
      (towerAfterFall [(⟨0, 0, 1⟩, .Feature)] true false [] true, [])
      (by decide) (by rw [hh]; exact tower_relink m hm hlt fuel)
    simp only [bind, Except.bind, hd, hc]
    exact ⟨((((towerAfterFall [(⟨0, 0, 1⟩, .Feature)] true false [] true).modifyPart 1
        fun p => { p with supportedParts := [] }).modifyPart 1
        fun p => { p with supportedItems := false }).removeFromMap 1).toOption.getD default,
      by decide, by decide, by decide⟩

/-- With `TICKS_MULTIPLIER = 2` and three rounds allowed, part 3 of `towerBattle`
ends falling with `providesHardSupport` true. -/
theorem handleCollision_relinks_falling_part_witness :
    0 < 2 ∧ 2 ≤ 268435456
      ∧ ∃ b1 b2, update 2 1 towerBattle 3 1 1 true = .ok b1
        ∧ handleCollision 2 3 b1 1 1 = .ok b2
        ∧ (b2.part 3).falling = true ∧ (b2.part 3).providesHardSupport = true :=
  ⟨by decide, by decide,
    (handleCollision_relinks_falling_part 2 (by decide) (by decide) 1 true).2⟩

/-! ## The supporter of a wall in step 01 -/

theorem mem_intRange (lo hi x : Int) : x ∈ intRange lo hi ↔ lo ≤ x ∧ x ≤ hi := by
  unfold intRange
  simp only [List.mem_map, List.mem_range]
  constructor
  · rintro ⟨k, hk, rfl⟩
    have : (k : Int) < ((hi - lo + 1).toNat : Int) := by exact_mod_cast hk
    have h2 : ((hi - lo + 1).toNat : Int) = max (hi - lo + 1) 0 := Int.toNat_eq_max _
    omega
  · rintro ⟨h1, h2⟩
    refine ⟨(x - lo).toNat, ?_, ?_⟩
    · have e1 := Int.toNat_of_nonneg (show 0 ≤ x - lo by omega)
      have e2 := Int.toNat_of_nonneg (show 0 ≤ hi - lo + 1 by omega)
      omega
    · have e1 := Int.toNat_of_nonneg (show 0 ≤ x - lo by omega)
      omega

theorem mem_cells (xs ys zs : List Int) (v : Vec3) :
    v ∈ cells xs ys zs ↔ v.x ∈ xs ∧ v.y ∈ ys ∧ v.z ∈ zs := by
  unfold cells
  simp only [List.mem_flatMap, List.mem_map]
  constructor
  · rintro ⟨x, hx, y, hy, z, hz, rfl⟩
    exact ⟨hx, hy, hz⟩
  · rintro ⟨hx, hy, hz⟩
    exact ⟨v.x, hx, v.y, hy, v.z, hz, rfl⟩

/-- The part step 01 picks owns an object of a tile of the scanned block that is
inside the map and passes both tests. -/
theorem checkSpecialConditions_some_cell (b : Battle) (self : Nat) (ty : BattleMapPartType)
    (pos : Vec3) (mp : Nat) (h : checkSpecialConditions b self ty pos = some mp) :
    ∃ v o, (specialBounds ty.type pos).1.1 ≤ v.x ∧ v.x ≤ (specialBounds ty.type pos).1.2
      ∧ (specialBounds ty.type pos).2.1.1 ≤ v.y ∧ v.y ≤ (specialBounds ty.type pos).2.1.2
      ∧ (specialBounds ty.type pos).2.2.1 ≤ v.z ∧ v.z ≤ (specialBounds ty.type pos).2.2.2
      ∧ outOfBounds b.map v = false ∧ o ∈ b.map.getTile v ∧ o.owner = mp
      ∧ canSupportSpecial ty pos v o.type = true ∧ specialOwnerOk b self pos v.z mp = true := by
  unfold checkSpecialConditions at h
  obtain ⟨v, hv0, hv⟩ := List.exists_of_findSome?_eq_some h
  rw [mem_cells, mem_intRange, mem_intRange, mem_intRange] at hv0
  by_cases ho : outOfBounds b.map v = true
  · simp [ho] at hv
  · simp only [ho, Bool.false_eq_true, if_false, Option.map_eq_some'] at hv
    obtain ⟨o, hfind, hown⟩ := hv
    have hp := List.find?_some hfind
    have hm := List.mem_of_find?_eq_some hfind
    simp only [Bool.and_eq_true] at hp
    refine ⟨v, o, hv0.1.1, hv0.1.2, hv0.2.1.1, hv0.2.1.2, hv0.2.2.1, hv0.2.2.2, by simpa using ho,
      hm, hown, hp.1, ?_⟩
    rw [← hown]; exact hp.2

/-- A call of steps 01 to 04 that leaves through step 01 has registered the entry
on the part step 01 picked, and on no other. -/
theorem resolveSupport_special (b : Battle) (self : Nat) (ty : BattleMapPartType)
    (tileType : TileObjectType) (pos : Vec3) (entry : Vec3 × PartType)
    (hv : (resolveSupport b self ty tileType pos entry).via = .special) :
    ∃ mp, checkSpecialConditions b self ty pos = some mp
      ∧ (resolveSupport b self ty tileType pos entry).battle
          = b.modifyPart mp (BattleMapPart.addSupported entry) := by
  unfold resolveSupport at hv ⊢
  cases h1 : checkSpecialConditions b self ty pos with
  | some mp => exact ⟨mp, rfl, rfl⟩
  | none =>
    exfalso
    rw [h1] at hv
    simp only [] at hv
    split at hv
    · cases hv
    · split at hv
      · cases hv
      · rcases shootSupportLines_spec (b.modifyPart self (BattleMapPart.setHard false)) ty
          tileType pos entry with ⟨_, _, _, h | h | h | h | h⟩
        · rw [h.1] at hv; cases hv
        · rw [h.1] at hv; cases hv
        · rw [h.1] at hv; cases hv
        · rw [h.1] at hv; cases hv
        · rw [h.1] at hv; cases hv

/-- C24, as the claim states it, fails on `wallBesideGround`: the Left Wall 0 at
`(1, 0, 1)` has nothing in its own cell and nothing below; the Ground part 1
stands in the cell to the west, `(0, 0, 1)`.  `findSupport` called on the wall
returns true through step 01, with `providesHardSupport` true, and registers the
edge on that Ground part. -/
theorem findSupport_wall_on_adjacent_ground :
    (wallBesideGround.part 0).type.type = .LeftWall
      ∧ (wallBesideGround.part 0).tileObject = some ⟨.LeftWall, 0, ⟨1, 0, 1⟩⟩
      ∧ (wallBesideGround.part 1).type.type = .Ground
      ∧ (wallBesideGround.part 1).tileObject = some ⟨.Ground, 1, ⟨0, 0, 1⟩⟩
      ∧ ((findSupport wallBesideGround 0).toOption.getD default).via = .special
      ∧ ((findSupport wallBesideGround 0).toOption.getD default).supported = true
      ∧ (((findSupport wallBesideGround 0).toOption.getD default).battle.part
          0).providesHardSupport = true
      ∧ (((findSupport wallBesideGround 0).toOption.getD default).battle.part 1).supportedParts
          = [(⟨1, 0, 1⟩, .LeftWall)] := by
  decide

/-- C24, amended: let `findSupport` called on a Left Wall or Right Wall return
through step 01, and let `q` be a part whose `supportedParts` list after the call
is not the list the purge left (the supporter).  Then `q` owns an object of a
tile that is in the column of the wall or in the adjacent column to the west
(Left Wall) or to the north (Right Wall), and that object is: a Feature in the
wall's own cell; or a Ground object on the level of the wall, in either column;
or a Feature one level below, in either column; or a wall of the same
orientation in the cell below the wall; or a wall of the same orientation in the
cell above the wall, the last only if the type of the wall has
`supportedByAbove`. -/
theorem findSupport_wall_supporter (b : Battle) (self q : Nat) (r : SupportResult)
    (ts : TileObjectBattleMapPart) (hr : findSupport b self = .ok r)
    (hto : (b.part self).tileObject = some ts)
    (hw : (b.part self).type.type = .LeftWall ∨ (b.part self).type.type = .RightWall)
    (hvia : r.via = .special)
    (hnew : (r.battle.part q).supportedParts
      ≠ ((cleanSupportProviders b ts.owningTile (b.part self).type.type).part q).supportedParts) :
    ∃ v o, o ∈ b.map.getTile v ∧ o.owner = q
      ∧ (((b.part self).type.type = .LeftWall
          ∧ (v.x = ts.owningTile.x ∨ v.x = ts.owningTile.x - 1) ∧ v.y = ts.owningTile.y)
        ∨ ((b.part self).type.type = .RightWall
          ∧ v.x = ts.owningTile.x ∧ (v.y = ts.owningTile.y ∨ v.y = ts.owningTile.y - 1)))
      ∧ ((o.type = .Feature ∧ v = ts.owningTile)
        ∨ (o.type = .Ground ∧ v.z = ts.owningTile.z)
        ∨ (o.type = .Feature ∧ v.z = ts.owningTile.z - 1)
        ∨ (o.type = convertType (b.part self).type.type
            ∧ v = ⟨ts.owningTile.x, ts.owningTile.y, ts.owningTile.z - 1⟩)
        ∨ (o.type = convertType (b.part self).type.type
            ∧ v = ⟨ts.owningTile.x, ts.owningTile.y, ts.owningTile.z + 1⟩
            ∧ (b.part self).type.supportedByAbove = true)) := by
  rcases findSupport_cases b self r hr with h | ⟨ts2, _, _, h⟩ | ⟨ts2, hto2, _, _, h⟩
  · rw [h.1] at hvia; cases hvia
  · rw [h] at hvia; cases hvia
  · rw [hto] at hto2
    cases hto2
    rw [h] at hvia
    obtain ⟨mp, hmp, hb⟩ := resolveSupport_special _ _ _ _ _ _ hvia
    have hq : q = mp := by
      by_contra hne
      apply hnew
      rw [h, hb, Battle.part_modifyPart_ne _ _ _ _ (Ne.symm hne)]
      unfold purged
      rw [supportedParts_clean_setHard]
    subst hq
    obtain ⟨v, o, hx1, hx2, hy1, hy2, hz1, hz2, _, hmem, hown, hcan, _⟩ :=
      checkSpecialConditions_some_cell _ _ _ _ _ hmp
    rw [map_purged] at hmem
    refine ⟨v, o, hmem, hown, ?_⟩
    have hvz : v.z = ts.owningTile.z - 1 ∨ v.z = ts.owningTile.z ∨ v.z = ts.owningTile.z + 1 := by
      rcases hw with hw | hw
      · rw [hw] at hz1 hz2
        simp only [specialBounds] at hz1 hz2
        omega
      · rw [hw] at hz1 hz2
        simp only [specialBounds] at hz1 hz2
        omega
    rcases hw with hw | hw
    · rw [hw] at hx1 hx2 hy1 hy2
      simp only [specialBounds] at hx1 hx2 hy1 hy2
      have hy : v.y = ts.owningTile.y := by omega
      have hx : v.x = ts.owningTile.x ∨ v.x = ts.owningTile.x - 1 := by omega
      refine ⟨Or.inl ⟨hw, hx, hy⟩, ?_⟩
      unfold canSupportSpecial at hcan
      rw [hw] at hcan ⊢
      simp only [Bool.or_eq_true, Bool.and_eq_true, decide_eq_true_eq] at hcan
      rcases hcan with (((hc | hc) | hc) | hc) | hc
      · left
        refine ⟨hc.2, ?_⟩
        cases v
        cases hts : ts.owningTile
        rw [hts] at hc
        simp only [Vec3.mk.injEq]
        exact ⟨hc.1.1.1, hc.1.1.2, hc.1.2⟩
      · exact Or.inr (Or.inl ⟨hc.2, hc.1⟩)
      · exact Or.inr (Or.inr (Or.inl ⟨hc.2, by omega⟩))
      · right; right; right; left
        refine ⟨hc.2, ?_⟩
        cases v
        simp only [Vec3.mk.injEq]
        simp only at hc hy hvz
        exact ⟨hc.1.1, hy, by omega⟩
      · right; right; right; right
        refine ⟨hc.1.2, ?_, hc.2⟩
        cases v
        simp only [Vec3.mk.injEq]
        simp only at hc hy hvz
        exact ⟨hc.1.1.1, hy, by omega⟩
    · rw [hw] at hx1 hx2 hy1 hy2
      simp only [specialBounds] at hx1 hx2 hy1 hy2
      have hx : v.x = ts.owningTile.x := by omega
      have hy : v.y = ts.owningTile.y ∨ v.y = ts.owningTile.y - 1 := by omega
      refine ⟨Or.inr ⟨hw, hx, hy⟩, ?_⟩
      unfold canSupportSpecial at hcan
      rw [hw] at hcan ⊢
      simp only [Bool.or_eq_true, Bool.and_eq_true, decide_eq_true_eq] at hcan
      rcases hcan with (((hc | hc) | hc) | hc) | hc
      · left
        refine ⟨hc.2, ?_⟩
        cases v
        cases hts : ts.owningTile
        rw [hts] at hc
        simp only [Vec3.mk.injEq]
        exact ⟨hc.1.1.1, hc.1.1.2, hc.1.2⟩
      · exact Or.inr (Or.inl ⟨hc.2, hc.1⟩)
      · exact Or.inr (Or.inr (Or.inl ⟨hc.2, by omega⟩))
      · right; right; right; left
        refine ⟨hc.2, ?_⟩
        cases v
        simp only [Vec3.mk.injEq]
        simp only at hc hx hvz
        exact ⟨hx, hc.1.1, by omega⟩
      · right; right; right; right
        refine ⟨hc.1.2, ?_, hc.2⟩
        cases v
        simp only [Vec3.mk.injEq]
        simp only at hc hx hvz
        exact ⟨hx, hc.1.1.1, by omega⟩

/-- In `wallBesideGround` the Ground part 1, west of the Left Wall 0, receives the
edge. -/
theorem findSupport_wall_supporter_witness :
    ∃ v o, o ∈ wallBesideGround.map.getTile v ∧ o.owner = 1
      ∧ (((wallBesideGround.part 0).type.type = .LeftWall
          ∧ (v.x = (⟨.LeftWall, 0, ⟨1, 0, 1⟩⟩ : TileObjectBattleMapPart).owningTile.x
            ∨ v.x = (⟨.LeftWall, 0, ⟨1, 0, 1⟩⟩ : TileObjectBattleMapPart).owningTile.x - 1)
          ∧ v.y = (⟨.LeftWall, 0, ⟨1, 0, 1⟩⟩ : TileObjectBattleMapPart).owningTile.y)
        ∨ ((wallBesideGround.part 0).type.type = .RightWall
          ∧ v.x = (⟨.LeftWall, 0, ⟨1, 0, 1⟩⟩ : TileObjectBattleMapPart).owningTile.x
          ∧ (v.y = (⟨.LeftWall, 0, ⟨1, 0, 1⟩⟩ : TileObjectBattleMapPart).owningTile.y
            ∨ v.y = (⟨.LeftWall, 0, ⟨1, 0, 1⟩⟩ : TileObjectBattleMapPart).owningTile.y - 1)))
      ∧ ((o.type = .Feature
          ∧ v = (⟨.LeftWall, 0, ⟨1, 0, 1⟩⟩ : TileObjectBattleMapPart).owningTile)
        ∨ (o.type = .Ground
          ∧ v.z = (⟨.LeftWall, 0, ⟨1, 0, 1⟩⟩ : TileObjectBattleMapPart).owningTile.z)
        ∨ (o.type = .Feature
          ∧ v.z = (⟨.LeftWall, 0, ⟨1, 0, 1⟩⟩ : TileObjectBattleMapPart).owningTile.z - 1)
        ∨ (o.type = convertType (wallBesideGround.part 0).type.type
            ∧ v = ⟨(⟨.LeftWall, 0, ⟨1, 0, 1⟩⟩ : TileObjectBattleMapPart).owningTile.x,
              (⟨.LeftWall, 0, ⟨1, 0, 1⟩⟩ : TileObjectBattleMapPart).owningTile.y,
              (⟨.LeftWall, 0, ⟨1, 0, 1⟩⟩ : TileObjectBattleMapPart).owningTile.z - 1⟩)
        ∨ (o.type = convertType (wallBesideGround.part 0).type.type
            ∧ v = ⟨(⟨.LeftWall, 0, ⟨1, 0, 1⟩⟩ : TileObjectBattleMapPart).owningTile.x,
              (⟨.LeftWall, 0, ⟨1, 0, 1⟩⟩ : TileObjectBattleMapPart).owningTile.y,
              (⟨.LeftWall, 0, ⟨1, 0, 1⟩⟩ : TileObjectBattleMapPart).owningTile.z + 1⟩
            ∧ (wallBesideGround.part 0).type.supportedByAbove = true)) :=
  findSupport_wall_supporter wallBesideGround 0 1
    ((findSupport wallBesideGround 0).toOption.getD default) ⟨.LeftWall, 0, ⟨1, 0, 1⟩⟩
    (by decide) (by decide) (Or.inl (by decide)) (by decide) (by decide)

/-! ## Clinging to neighbours -/

theorem clingSupports_congr (b₁ b₂ : Battle) (self : Nat) (tileType : TileObjectType)
    (pos : Vec3) (hm : b₁.map = b₂.map) (h : ∀ q, (b₁.part q).strip = (b₂.part q).strip) :
    clingSupports b₁ self tileType pos = clingSupports b₂ self tileType pos := by
  have e : ∀ z q, ownerOk b₁ self pos z q = ownerOk b₂ self pos z q :=
    fun z q => ownerOk_congr b₁ b₂ self pos z q (h q)
  unfold clingSupports
  simp only [hm, e]

theorem length_filterMap_eq {α β : Type} (f : α → Option β) (l : List α) :
    (l.filterMap f).length = (l.filter fun a => (f a).isSome).length := by
  induction l with
  | nil => rfl
  | cons a rest ih =>
    rw [List.filterMap_cons, List.filter_cons]
    cases h : f a with
    | none => simpa using ih
    | some v => simpa using ih

/-- The list of supports of step 03 has one entry for each direction counted by
`clingNeighbours`. -/
theorem clingSupports_length (b : Battle) (self : Nat) (tileType : TileObjectType) (pos : Vec3) :
    (clingSupports b self tileType pos).length = clingNeighbours b self tileType pos := by
  unfold clingSupports clingNeighbours
  rw [length_filterMap_eq]
  congr 2
  funext dir
  by_cases ho : outOfBounds b.map ⟨pos.x + dir.x, pos.y + dir.y, pos.z + dir.z⟩ = true
  · simp [ho]
  · simp only [ho, Bool.false_eq_true, if_false, Option.isSome_map', Bool.not_false,
      Bool.true_and]
    rw [Bool.eq_iff_iff, List.find?_isSome, List.any_eq_true]

/-- In a well-formed grid the supports of step 03 are distinct parts of the battle,
each with its tile object. -/
theorem clingSupports_nodup (b : Battle) (hc : b.consistent) (self : Nat)
    (tileType : TileObjectType) (pos : Vec3) :
    (clingSupports b self tileType pos).Nodup
      ∧ ∀ mp ∈ clingSupports b self tileType pos, mp < b.map_parts.length := by
  have key : ∀ (dir : Vec3) (mp : Nat),
      (if outOfBounds b.map ⟨pos.x + dir.x, pos.y + dir.y, pos.z + dir.z⟩ then none
        else ((b.map.getTile ⟨pos.x + dir.x, pos.y + dir.y, pos.z + dir.z⟩).find? fun o =>
          (decide (o.type = tileType)
            || (decide (o.type = .Feature)
                && (decide (tileType = .LeftWall) || decide (tileType = .RightWall))))
          && ownerOk b self pos (pos.z + dir.z) o.owner).map fun o => o.owner) = some mp →
      (b.part mp).tileObject
        = some ⟨((b.part mp).tileObject.getD default).type, mp,
            ⟨pos.x + dir.x, pos.y + dir.y, pos.z + dir.z⟩⟩ := by
    intro dir mp hv
    by_cases ho : outOfBounds b.map ⟨pos.x + dir.x, pos.y + dir.y, pos.z + dir.z⟩ = true
    · simp [ho] at hv
    · simp only [ho, Bool.false_eq_true, if_false, Option.map_eq_some'] at hv
      obtain ⟨o, hfind, hown⟩ := hv
      have hm := List.mem_of_find?_eq_some hfind
      obtain ⟨hov, hoo, _⟩ := b.consistent_getTile hc _ o hm
      rw [hown] at hoo
      rw [hoo]
      simp only [Option.getD_some]
      congr 1
      cases o
      simp only at hov hown
      rw [hov, hown]
  constructor
  · unfold clingSupports
    apply List.Nodup.filterMap
    · intro d1 d2 mp h1 h2
      have k1 := key d1 mp (by simpa using h1)
      have k2 := key d2 mp (by simpa using h2)
      rw [k1] at k2
      simp only [Option.some.injEq, TileObjectBattleMapPart.mk.injEq, Vec3.mk.injEq, true_and]
        at k2
      cases d1
      cases d2
      simp only [Vec3.mk.injEq]
      simp only at k2
      omega
    · cases tileType <;> decide
  · intro mp hmp
    unfold clingSupports at hmp
    obtain ⟨dir, _, hv⟩ := List.mem_filterMap.1 hmp
    exact b.lt_of_tileObject mp _ (key dir mp hv)

/-- Registering an entry on each part of a list of distinct parts of the battle
appends it once to the list of each of them, and to no other list. -/
theorem supportedParts_modifyParts_nodup (b : Battle) (ids : List Nat) (q : Nat)
    (entry : Vec3 × PartType) (hn : ids.Nodup) (hl : ∀ i ∈ ids, i < b.map_parts.length) :
    ((b.modifyParts ids (BattleMapPart.addSupported entry)).part q).supportedParts
      = (b.part q).supportedParts ++ (if q ∈ ids then [entry] else []) := by
  induction ids generalizing b with
  | nil => simp [Battle.modifyParts]
  | cons i rest ih =>
    rw [Battle.modifyParts_cons]
    have hn2 := List.nodup_cons.1 hn
    rw [ih (b.modifyPart i (BattleMapPart.addSupported entry)) hn2.2 (fun j hj => by
      rw [Battle.length_modifyPart]; exact hl j (List.mem_cons_of_mem _ hj))]
    by_cases hq : q = i
    · subst hq
      rw [Battle.part_modifyPart_self _ _ _ (hl q (List.mem_cons_self _ _))]
      simp [hn2.1, BattleMapPart.addSupported]
    · rw [Battle.part_modifyPart_ne _ _ _ _ (Ne.symm hq)]
      simp [hq]

/-- C23: in a well-formed grid, let `findSupport` be called on a part whose type
is not floating and whose cell has z > 0, and let neither step 01 nor step 02 find
a supporter.  The call returns through step 03, clinging, exactly when the number
of directions of the tile type of the part with an eligible neighbour, plus one
if the x of the cell is on a map edge, plus one if its y is on a map edge, is at
least 2.  It then returns true, and the `supportedParts` list of every part is
the list the purge left with the entry of the caller appended once if the part is
one of the neighbours found, one for each direction, and unchanged otherwise. -/
theorem findSupport_clings_iff (b : Battle) (self : Nat) (ts : TileObjectBattleMapPart)
    (r : SupportResult) (hc : b.consistent) (hr : findSupport b self = .ok r)
    (hf : (b.part self).type.floating = false) (hto : (b.part self).tileObject = some ts)
    (hz : 0 < ts.owningTile.z)
    (h1 : checkSpecialConditions b self (b.part self).type ts.owningTile = none)
    (h2 : (b.part self).type.supportedByDirections = []
      ∨ checkSupportedByDirection b self ts.type (b.part self).type ts.owningTile = none) :
    (r.via = .cling
        ↔ clingNeighbours b self ts.type ts.owningTile
            + (if ts.owningTile.x = 0 ∨ ts.owningTile.x = b.map.size.x - 1 then 1 else 0)
            + (if ts.owningTile.y = 0 ∨ ts.owningTile.y = b.map.size.y - 1 then 1 else 0) ≥ 2)
      ∧ (r.via = .cling → r.supported = true
          ∧ (clingSupports b self ts.type ts.owningTile).length
              = clingNeighbours b self ts.type ts.owningTile
          ∧ (clingSupports b self ts.type ts.owningTile).Nodup
          ∧ ∀ q, (r.battle.part q).supportedParts
              = ((cleanSupportProviders b ts.owningTile (b.part self).type.type).part
                  q).supportedParts
                ++ (if q ∈ clingSupports b self ts.type ts.owningTile then
                      [((b.part self).position, (b.part self).type.type)]
                    else [])) := by
  have hmP := map_purged b self ts
  have hsP := strip_purged b self ts
  have h1' : checkSpecialConditions (purged b self ts) self (b.part self).type ts.owningTile
      = none := by
    rw [checkSpecialConditions_congr (purged b self ts) b self _ _ hmP hsP]; exact h1
  have h2' : (b.part self).type.supportedByDirections = []
      ∨ checkSupportedByDirection (purged b self ts) self ts.type (b.part self).type
          ts.owningTile = none := by
    rcases h2 with h | h
    · exact Or.inl h
    · right
      rw [checkSupportedByDirection_congr (purged b self ts) b self _ _ _ hmP hsP]; exact h
  have hres := findSupport_resolve_eq b self ts hf hto (by omega)
  rw [hr] at hres
  have hre : r = resolveSupport (purged b self ts) self (b.part self).type ts.type ts.owningTile
      ((b.part self).position, (b.part self).type.type) := Except.ok.inj hres
  rw [resolveSupport_of_no_hard _ _ _ _ _ _ h1' h2'] at hre
  have hsup : clingSupports ((purged b self ts).modifyPart self (BattleMapPart.setHard false))
      self ts.type ts.owningTile = clingSupports b self ts.type ts.owningTile :=
    clingSupports_congr _ b self _ _ hmP (fun q => by rw [strip_modifyPart_set, hsP])
  have hcount : clingCount ((purged b self ts).modifyPart self (BattleMapPart.setHard false))
      (clingSupports b self ts.type ts.owningTile) ts.owningTile
      = clingNeighbours b self ts.type ts.owningTile
        + (if ts.owningTile.x = 0 ∨ ts.owningTile.x = b.map.size.x - 1 then 1 else 0)
        + (if ts.owningTile.y = 0 ∨ ts.owningTile.y = b.map.size.y - 1 then 1 else 0) := by
    unfold clingCount
    rw [clingSupports_length]
    have hm2 : ((purged b self ts).modifyPart self (BattleMapPart.setHard false)).map = b.map :=
      hmP
    rw [hm2]
    simp only [Bool.or_eq_true, decide_eq_true_eq]
  rw [hsup, hcount] at hre
  obtain ⟨hnd, hlt⟩ := clingSupports_nodup b hc self ts.type ts.owningTile
  constructor
  · constructor
    · intro hv
      by_contra hlow
      rw [if_neg hlow] at hre
      rcases shootSupportLines_via ((purged b self ts).modifyPart self
        (BattleMapPart.setHard false)) (b.part self).type ts.type ts.owningTile
        ((b.part self).position, (b.part self).type.type) with h | h | h
      · rw [hre, h.1] at hv; cases hv
      · rw [hre, h.1] at hv; cases hv
      · rw [hre, h.1] at hv; cases hv
    · intro hhigh
      rw [if_pos hhigh] at hre
      rw [hre]
  · intro hv
    have hhigh : clingNeighbours b self ts.type ts.owningTile
        + (if ts.owningTile.x = 0 ∨ ts.owningTile.x = b.map.size.x - 1 then 1 else 0)
        + (if ts.owningTile.y = 0 ∨ ts.owningTile.y = b.map.size.y - 1 then 1 else 0) ≥ 2 := by
      by_contra hlow
      rw [if_neg hlow] at hre
      rcases shootSupportLines_via ((purged b self ts).modifyPart self
        (BattleMapPart.setHard false)) (b.part self).type ts.type ts.owningTile
        ((b.part self).position, (b.part self).type.type) with h | h | h
      · rw [hre, h.1] at hv; cases hv
      · rw [hre, h.1] at hv; cases hv
      · rw [hre, h.1] at hv; cases hv
    rw [if_pos hhigh] at hre
    refine ⟨by rw [hre], clingSupports_length b self ts.type ts.owningTile, hnd, fun q => ?_⟩
    rw [hre]
    simp only []
    rw [supportedParts_modifyParts_nodup _ _ q _ hnd (fun i hi => by
      rw [Battle.length_modifyPart]
      unfold purged
      rw [cleanSupportProviders_eq, Battle.length_modifyParts, Battle.length_modifyPart]
      exact hlt i hi)]
    rw [supportedParts_modifyPart_set]
    unfold purged
    rw [supportedParts_clean_setHard]

/-- On the terrace part 2 has a Ground neighbour to the west and one to the south,
and stands at neither edge: it clings to both. -/
theorem findSupport_clings_iff_witness :
    terraceBattle.consistent
      ∧ ((findSupport terraceBattle 2).toOption.getD default).via = .cling
      ∧ clingNeighbours terraceBattle 2 .Ground ⟨2, 1, 1⟩ = 2
      ∧ ((findSupport terraceBattle 2).toOption.getD default).supported = true
      ∧ clingSupports terraceBattle 2 .Ground ⟨2, 1, 1⟩ = [1, 0] := by
  have h := findSupport_clings_iff terraceBattle 2 ⟨.Ground, 2, ⟨2, 1, 1⟩⟩
    ((findSupport terraceBattle 2).toOption.getD default) (by decide) (by decide) (by decide)
    (by decide) (by decide) (by decide) (Or.inl (by decide))
  exact ⟨by decide, by decide, by decide, (h.2 (by decide)).1, by decide⟩

end OpenApoc
